import Mathlib

/-!
# Graphics_Assignments: the game logic of the two sample programs

A shallow embedding of the per-frame update and the input handlers of
`Assignment-1/Sample_GL3_2D.cpp` (the 2D cannon game) and
`Assignment-2.2/Sample_GL3_2D.cpp` (the 3D maze game), and of the
geometry helper `create3DObject` that both files share.

Conventions of the embedding:

* a C `float` is a rational number and its arithmetic is exact, so `0.01f`
  is `1/100`, `0.5f` is `1/2`, `0.3f` is `3/10` and `0.4f` is `2/5`; the
  rounding of `float` is kept where a statement below turns on it: the
  literal `1.2f` of the launch offset has its `float` value (`float_1_2`), and
  the product `-0.5f*velocity_x` of the right-bound reflection, which a flight
  can repeat until it underflows, is also given with its rounding (`reflect`);
* a C `int` is an integer; the range of a 32-bit `int` is kept where a
  statement below turns on it: the array size `3*numVertices` of the
  single-colour overload and the statement `pos_x-=2` of the 3D game;
* `sin(x*M_PI/180.0f)` and `cos(x*M_PI/180.0f)` come from the C library and
  are parameters of the embedding (`Trig`);
* a global variable is a field of the state record, a function that writes
  globals maps a state to the next state.
-/

namespace Geometry

/-- The handle `struct VAO`. -/
structure VAO where
  VertexArrayID : Nat
  VertexBuffer : Nat
  ColorBuffer : Nat
  PrimitiveMode : Nat
  FillMode : Nat
  NumVertices : Int
  deriving DecidableEq, Repr

/-- The object names that `glGenVertexArrays` and the two `glGenBuffers` calls
of `create3DObject` write into the handle; they are chosen by the GL. -/
structure Names where
  vertexArray : Nat
  vertexBuffer : Nat
  colorBuffer : Nat
  deriving DecidableEq, Repr

/-- The value of `GL_TRIANGLES` in the OpenGL headers. -/
def GL_TRIANGLES : Nat := 4

/-- The value of `GL_FILL` in the OpenGL headers. -/
def GL_FILL : Nat := 6914

/-- What a call of `create3DObject` leaves behind: the handle it returns and
the contents of the two buffers it uploaded. -/
structure Object where
  vao : VAO
  vertexData : List ℚ
  colorData : List ℚ
  deriving DecidableEq, Repr

/-- The call `glBufferData (GL_ARRAY_BUFFER, count*sizeof(GLfloat), data, GL_STATIC_DRAW)`:
the GL copies the first `count` scalars of the array `data`.  The result is
`none` when the copy would read past the end of the array (or `count` is
negative), which C++ leaves undefined. -/
def glBufferData (count : Int) (data : List ℚ) : Option (List ℚ) :=
  if 0 ≤ count ∧ count.toNat ≤ data.length then some (data.take count.toNat) else none

/-- The overload of `create3DObject` that takes per-vertex colours. -/
def create3DObject (names : Names) (primitive_mode : Nat) (numVertices : Int)
    (vertex_buffer_data color_buffer_data : List ℚ) (fill_mode : Nat) : Option Object :=
  match glBufferData (3 * numVertices) vertex_buffer_data,
        glBufferData (3 * numVertices) color_buffer_data with
  | some v, some c =>
    some { vao := { VertexArrayID := names.vertexArray
                    VertexBuffer := names.vertexBuffer
                    ColorBuffer := names.colorBuffer
                    PrimitiveMode := primitive_mode
                    FillMode := fill_mode
                    NumVertices := numVertices }
           vertexData := v
           colorData := c }
  | _, _ => none

/-- The body of the loop of the single-colour overload, at index `i`:
`color_buffer_data [3*i] = red; color_buffer_data [3*i + 1] = green;
color_buffer_data [3*i + 2] = blue;`. -/
def colorStep (red green blue : ℚ) (color_buffer_data : List ℚ) (i : Nat) : List ℚ :=
  ((color_buffer_data.set (3 * i) red).set (3 * i + 1) green).set (3 * i + 2) blue

/-- The largest value of a C `int` (32 bits). -/
def INT_MAX : Int := 2147483647

/-- The array `new GLfloat [3*numVertices]`, whose initial contents are
indeterminate: they are read from `heap`. -/
def newArray (heap : Nat → ℚ) (numVertices : Nat) : List ℚ :=
  (List.range (3 * numVertices)).map heap

/-- One pass of the loop `for (int i=0; i<numVertices; i++)` of the
single-colour overload.  The index `3*i + 2` is an `int` expression: the pass
is undefined (`none`) when it leaves the range of `int`. -/
def colorPass (red green blue : ℚ) (color_buffer_data : Option (List ℚ)) (i : Nat) :
    Option (List ℚ) :=
  match color_buffer_data with
  | none => none
  | some data =>
    if INT_MAX < 3 * (i : Int) + 2 then none else some (colorStep red green blue data i)

/-- The colour array that the single-colour overload builds: the allocation
`new GLfloat [3*numVertices]` followed by the loop.  The size `3*numVertices`
is a product of two `int`s: when it is negative or exceeds `INT_MAX` the
product overflows or the allocation fails, and no array is built (`none`).
An allocation whose size is an `int` is taken to succeed: the memory of the
machine is not modelled. -/
def colorArray (heap : Nat → ℚ) (numVertices : Int) (red green blue : ℚ) :
    Option (List ℚ) :=
  if numVertices < 0 ∨ INT_MAX < 3 * numVertices then none
  else
    (List.range numVertices.toNat).foldl (colorPass red green blue)
      (some (newArray heap numVertices.toNat))

/-- The overload of `create3DObject` that takes one colour for all vertices
(in C++ it has the same name as the per-vertex overload): it builds the
colour array and calls the per-vertex overload with it.  The result is `none`
when the array cannot be built. -/
def create3DObjectCommon (names : Names) (heap : Nat → ℚ) (primitive_mode : Nat)
    (numVertices : Int) (vertex_buffer_data : List ℚ) (red green blue : ℚ)
    (fill_mode : Nat) : Option Object :=
  match colorArray heap numVertices red green blue with
  | none => none
  | some color_buffer_data =>
    create3DObject names primitive_mode numVertices vertex_buffer_data color_buffer_data
      fill_mode

end Geometry

namespace Assignment1

/-- The two calls into the C mathematical library made by the 2D game, with
the angle given in degrees: `sinDeg x` is `sin(x*M_PI/180.0f)` and
`cosDeg x` is `cos(x*M_PI/180.0f)`. -/
structure Trig where
  sinDeg : ℚ → ℚ
  cosDeg : ℚ → ℚ

/-- The values of the library calls at the two extreme cannon angles, 0 and 90
degrees, where sine and cosine are both rational (`sin 90 = 1`, `cos 90 = 0`,
`sin 0 = 0`, `cos 0 = 1`).  It is used to evaluate the game at concrete states
whose angle is 0 or 90; at any other angle it says nothing about the library. -/
def axisTrig : Trig where
  sinDeg := fun x => if x = 90 then 1 else 0
  cosDeg := fun x => if x = 0 then 1 else 0

/-- The class `coins`: integer position and the `appear` flag. -/
structure coins where
  pos_x : Int
  pos_y : Int
  appear : Int
  deriving DecidableEq, Repr

/-- The method `coins::set_coins(x, y)`. -/
def coins.set_coins (_c : coins) (x y : Int) : coins :=
  { pos_x := x, pos_y := y, appear := 1 }

/-- The global `int num_coins=4;` (never written after its initialiser). -/
abbrev num_coins : Nat := 4

/-- The global variables of the 2D game.  `trnsfrm` is a `glm::mat4` that only
ever holds the identity or a translation in the plane; it is kept as the
translation vector. -/
structure Game where
  canon_rotation : ℚ
  trnsfrm : ℚ × ℚ
  amm_amount : Int
  num_appear : Int
  time_travelled : ℚ
  flag : ℚ
  use : ℚ
  velocity_x : ℚ
  velocity_y : ℚ
  position_x : ℚ
  position_y : ℚ
  bounce : Int
  coin : Fin 4 → coins

/-- The state at program start: the initialisers of the globals; globals
without an initialiser (`position_x`, `position_y`, `coin`) are zero. -/
def Game.initial (T : Trig) : Game where
  canon_rotation := 90
  trnsfrm := (0, 0)
  amm_amount := 4
  num_appear := 0
  time_travelled := 0
  flag := 0
  use := 0
  velocity_x := 7 * T.cosDeg 90
  velocity_y := 7 * T.sinDeg 90
  position_x := 0
  position_y := 0
  bounce := 0
  coin := fun _ => { pos_x := 0, pos_y := 0, appear := 0 }

/-- The function `initlz()`. -/
def initlz (T : Trig) (g : Game) : Game :=
  { g with
    trnsfrm := (0, 0)
    time_travelled := 0
    flag := 0
    velocity_x := 7 * T.cosDeg g.canon_rotation
    velocity_y := 7 * T.sinDeg g.canon_rotation
    bounce := 0 }

/-- The test of `dist` for one coin:
`abs(position_x-coin[i].pos_x)<=0.4f or abs(position_y-coin[i].pos_y)<=0.4f`. -/
def hit (px py : ℚ) (c : coins) : Prop :=
  |px - (c.pos_x : ℚ)| ≤ 2 / 5 ∨ |py - (c.pos_y : ℚ)| ≤ 2 / 5

instance (px py : ℚ) (c : coins) : Decidable (hit px py c) := by
  unfold hit; infer_instance

/-- One iteration of the loop of `dist`, at index `i`. -/
def distStep (px py : ℚ) (coin : Fin 4 → coins) (i : Fin 4) : Fin 4 → coins :=
  if hit px py (coin i) then
    Function.update coin i { coin i with appear := 0 }
  else coin

/-- The function `dist(coin)`: the loop `for(int i=0;i<num_coins;i++)`, run
with the projectile at `(px, py)`. -/
def dist (px py : ℚ) (coin : Fin 4 → coins) : Fin 4 → coins :=
  (List.finRange num_coins).foldl (distStep px py) coin

/-- The values of the `action` argument of a GLFW key callback. -/
inductive Action where
  | GLFW_RELEASE
  | GLFW_PRESS
  | GLFW_REPEAT
  deriving DecidableEq, Repr

/-- The keys that `keyboard` names in its two `switch` statements; every other
key code is `other`. -/
inductive Key where
  | GLFW_KEY_C
  | GLFW_KEY_P
  | GLFW_KEY_X
  | GLFW_KEY_ESCAPE
  | GLFW_KEY_U
  | GLFW_KEY_D
  | GLFW_KEY_N
  | other
  deriving DecidableEq, Repr

/-- The key callback `keyboard(window, key, scancode, action, mods)`.  The
result is `none` when the handler calls `quit(window)`, which ends the
process. -/
def keyboard (T : Trig) (key : Key) (action : Action) (g : Game) : Option Game :=
  match action with
  | .GLFW_RELEASE => some g
  | .GLFW_PRESS =>
    match key with
    | .GLFW_KEY_ESCAPE => none
    | .GLFW_KEY_U =>
      some (if g.canon_rotation < 90 then
        { g with canon_rotation := g.canon_rotation + 10 } else g)
    | .GLFW_KEY_D =>
      some (if g.canon_rotation > 0 then
        { g with canon_rotation := g.canon_rotation - 10 } else g)
    | .GLFW_KEY_N =>
      some (if g.amm_amount > 0 then
        initlz T { g with use := 1, amm_amount := g.amm_amount - 1 } else g)
    | _ => some g
  | .GLFW_REPEAT => some g

/-- The block `if (num_appear==0) { coin[0].set_coins(3,3); ... num_appear++; }`
of `draw`. -/
def coinsInit (g : Game) : Game :=
  if g.num_appear = 0 then
    { g with
      coin := ![(g.coin 0).set_coins 3 3, (g.coin 1).set_coins 4 1,
                (g.coin 2).set_coins 2 4, (g.coin 3).set_coins 2 2]
      num_appear := g.num_appear + 1 }
  else g

/-- The value of the literal `1.2f`: the `float` nearest to 1.2, which is
`10066330 / 2^23 = 1.2000000476837158203125`. -/
def float_1_2 : ℚ := 5033165 / 4194304

/-- The translation of `translateBullet` in `draw`:
`(-4+1.2f*cos(canon_rotation*M_PI/180.0f), -4+1.2f*sin(canon_rotation*M_PI/180.0f))`. -/
def translateBullet (T : Trig) (g : Game) : ℚ × ℚ :=
  (-4 + float_1_2 * T.cosDeg g.canon_rotation, -4 + float_1_2 * T.sinDeg g.canon_rotation)

/-- The integration step of `draw`:
`position_x+=0.01f*velocity_x; position_y+=0.01f*(velocity_y+5-(10*time_travelled));`. -/
def integrate (g : Game) : Game :=
  { g with
    position_x := g.position_x + 1 / 100 * g.velocity_x
    position_y := g.position_y + 1 / 100 * (g.velocity_y + 5 - 10 * g.time_travelled) }

/-- The floor test of `draw`:
`position_y<=-(0.3f+1.0f*sin(canon_rotation*M_PI/180.0f))`. -/
def floorTest (T : Trig) (g : Game) : Prop :=
  g.position_y ≤ -(3 / 10 + 1 * T.sinDeg g.canon_rotation)

instance (T : Trig) (g : Game) : Decidable (floorTest T g) := by
  unfold floorTest; infer_instance

/-- The right-bound test of `draw`:
`position_x>=(8-cos(canon_rotation*M_PI/180.0f))`. -/
def wallTest (T : Trig) (g : Game) : Prop :=
  g.position_x ≥ 8 - T.cosDeg g.canon_rotation

instance (T : Trig) (g : Game) : Decidable (wallTest T g) := by
  unfold wallTest; infer_instance

/-- The `if (floor) { ... } else if (right bound) { ... }` statement of `draw`,
run after the integration step. -/
def bounceOrReflect (T : Trig) (g : Game) : Game :=
  if floorTest T g then
    let g1 := if g.bounce < 5 then
      { g with velocity_y := 1 / 2 * g.velocity_y, bounce := g.bounce + 1 } else g
    let g2 := { g1 with time_travelled := 0 }
    if g2.bounce ≥ 5 then { g2 with use := 0 } else g2
  else if wallTest T g then
    { g with velocity_x := -(1 / 2) * g.velocity_x }
  else g

/-- The game logic of one call of `draw()`: the coin initialisation of the
first frame, then, for an active projectile, either the launch frame
(`flag==0`) or the integration frame. -/
def draw (T : Trig) (g : Game) : Game :=
  let g0 := coinsInit g
  if g0.use ≠ 0 then
    if g0.flag = 0 then
      let g1 := initlz T g0
      { g1 with
        trnsfrm := translateBullet T g1
        position_x := 0
        position_y := 0
        flag := 1 }
    else
      let g1 := integrate g0
      let g2 := bounceOrReflect T g1
      let g3 := { g2 with time_travelled := g2.time_travelled + 1 / 100 }
      { g3 with coin := dist g3.position_x g3.position_y g3.coin }
  else g0

/-- The array `vertex_buffer_data` of `createBullet`. -/
def bulletVertexData (T : Trig) : List ℚ :=
  [
   0, 0, 0,
   T.cosDeg (15), T.sinDeg (15), 0,
   T.cosDeg (2 * 15), T.sinDeg (2 * 15), 0,
   0, 0, 0,
   T.cosDeg (2 * 15), T.sinDeg (2 * 15), 0,
   T.cosDeg (3 * 15), T.sinDeg (3 * 15), 0,
   0, 0, 0,
   T.cosDeg (3 * 15), T.sinDeg (3 * 15), 0,
   T.cosDeg (4 * 15), T.sinDeg (4 * 15), 0,
   0, 0, 0,
   T.cosDeg (4 * 15), T.sinDeg (4 * 15), 0,
   T.cosDeg (5 * 15), T.sinDeg (5 * 15), 0,
   0, 0, 0,
   T.cosDeg (5 * 15), T.sinDeg (5 * 15), 0,
   T.cosDeg (6 * 15), T.sinDeg (6 * 15), 0,
   0, 0, 0,
   T.cosDeg (6 * 15), T.sinDeg (6 * 15), 0,
   T.cosDeg (7 * 15), T.sinDeg (7 * 15), 0,
   0, 0, 0,
   T.cosDeg (7 * 15), T.sinDeg (7 * 15), 0,
   T.cosDeg (8 * 15), T.sinDeg (8 * 15), 0,
   0, 0, 0,
   T.cosDeg (8 * 15), T.sinDeg (8 * 15), 0,
   T.cosDeg (9 * 15), T.sinDeg (9 * 15), 0,
   0, 0, 0,
   T.cosDeg (9 * 15), T.sinDeg (9 * 15), 0,
   T.cosDeg (10 * 15), T.sinDeg (10 * 15), 0,
   0, 0, 0,
   T.cosDeg (10 * 15), T.sinDeg (10 * 15), 0,
   T.cosDeg (11 * 15), T.sinDeg (11 * 15), 0,
   0, 0, 0,
   T.cosDeg (11 * 15), T.sinDeg (11 * 15), 0,
   T.cosDeg (12 * 15), T.sinDeg (12 * 15), 0,
   0, 0, 0,
   T.cosDeg (12 * 15), T.sinDeg (12 * 15), 0,
   T.cosDeg (13 * 15), T.sinDeg (13 * 15), 0,
   0, 0, 0,
   T.cosDeg (13 * 15), T.sinDeg (13 * 15), 0,
   T.cosDeg (14 * 15), T.sinDeg (14 * 15), 0,
   0, 0, 0,
   T.cosDeg (14 * 15), T.sinDeg (14 * 15), 0,
   T.cosDeg (15 * 15), T.sinDeg (15 * 15), 0,
   0, 0, 0,
   T.cosDeg (15 * 15), T.sinDeg (15 * 15), 0,
   T.cosDeg (16 * 15), T.sinDeg (16 * 15), 0,
   0, 0, 0,
   T.cosDeg (16 * 15), T.sinDeg (16 * 15), 0,
   T.cosDeg (17 * 15), T.sinDeg (17 * 15), 0,
   0, 0, 0,
   T.cosDeg (17 * 15), T.sinDeg (17 * 15), 0,
   T.cosDeg (18 * 15), T.sinDeg (18 * 15), 0,
   0, 0, 0,
   T.cosDeg (18 * 15), T.sinDeg (18 * 15), 0,
   T.cosDeg (19 * 15), T.sinDeg (19 * 15), 0,
   0, 0, 0,
   T.cosDeg (19 * 15), T.sinDeg (19 * 15), 0,
   T.cosDeg (20 * 15), T.sinDeg (20 * 15), 0,
   0, 0, 0,
   T.cosDeg (20 * 15), T.sinDeg (20 * 15), 0,
   T.cosDeg (21 * 15), T.sinDeg (21 * 15), 0,
   0, 0, 0,
   T.cosDeg (21 * 15), T.sinDeg (21 * 15), 0,
   T.cosDeg (22 * 15), T.sinDeg (22 * 15), 0,
   0, 0, 0,
   T.cosDeg (22 * 15), T.sinDeg (22 * 15), 0,
   T.cosDeg (23 * 15), T.sinDeg (23 * 15), 0,
   0, 0, 0,
   T.cosDeg (23 * 15), T.sinDeg (23 * 15), 0,
   T.cosDeg (24 * 15), T.sinDeg (24 * 15), 0,
   0, 0, 0,
   T.cosDeg (24 * 15), T.sinDeg (24 * 15), 0,
   T.cosDeg (25 * 15), T.sinDeg (25 * 15), 0,
   0, 0, 0,
   T.cosDeg (25 * 15), T.sinDeg (25 * 15), 0,
   T.cosDeg (26 * 15), T.sinDeg (26 * 15), 0,
   0, 0, 0,
   T.cosDeg (26 * 15), T.sinDeg (26 * 15), 0,
   T.cosDeg (27 * 15), T.sinDeg (27 * 15), 0
  ]

/-- The array `color_buffer_data` of `createBullet`. -/
def bulletColorData (T : Trig) : List ℚ :=
  [
   0, 0, 0,
   T.cosDeg (15), T.sinDeg (15), 0,
   T.cosDeg (2 * 15), T.sinDeg (2 * 15), 0,
   0, 0, 0,
   T.cosDeg (2 * 15), T.sinDeg (2 * 15), 0,
   T.cosDeg (3 * 15), T.sinDeg (3 * 15), 0,
   0, 0, 0,
   T.cosDeg (3 * 15), T.sinDeg (3 * 15), 0,
   T.cosDeg (4 * 15), T.sinDeg (4 * 15), 0,
   0, 0, 0,
   T.cosDeg (4 * 15), T.sinDeg (4 * 15), 0,
   T.cosDeg (5 * 15), T.sinDeg (5 * 15), 0,
   0, 0, 0,
   T.cosDeg (5 * 15), T.sinDeg (5 * 15), 0,
   T.cosDeg (6 * 15), T.sinDeg (6 * 15), 0,
   0, 0, 0,
   T.cosDeg (6 * 15), T.sinDeg (6 * 15), 0,
   T.cosDeg (7 * 15), T.sinDeg (7 * 15), 0,
   0, 0, 0,
   T.cosDeg (7 * 15), T.sinDeg (7 * 15), 0,
   T.cosDeg (8 * 15), T.sinDeg (8 * 15), 0,
   0, 0, 0,
   T.cosDeg (8 * 15), T.sinDeg (8 * 15), 0,
   T.cosDeg (9 * 15), T.sinDeg (9 * 15), 0,
   0, 0, 0,
   T.cosDeg (9 * 15), T.sinDeg (9 * 15), 0,
   T.cosDeg (10 * 15), T.sinDeg (10 * 15), 0,
   0, 0, 0,
   T.cosDeg (10 * 15), T.sinDeg (10 * 15), 0,
   T.cosDeg (11 * 15), T.sinDeg (11 * 15), 0,
   0, 0, 0,
   T.cosDeg (11 * 15), T.sinDeg (11 * 15), 0,
   T.cosDeg (12 * 15), T.sinDeg (12 * 15), 0,
   0, 0, 0,
   T.cosDeg (12 * 15), T.sinDeg (12 * 15), 0,
   T.cosDeg (13 * 15), T.sinDeg (13 * 15), 0,
   0, 0, 0,
   T.cosDeg (13 * 15), T.sinDeg (13 * 15), 0,
   T.cosDeg (14 * 15), T.sinDeg (14 * 15), 0,
   0, 0, 0,
   T.cosDeg (14 * 15), T.sinDeg (14 * 15), 0,
   T.cosDeg (15 * 15), T.sinDeg (15 * 15), 0,
   0, 0, 0,
   T.cosDeg (15 * 15), T.sinDeg (15 * 15), 0,
   T.cosDeg (16 * 15), T.sinDeg (16 * 15), 0,
   0, 0, 0,
   T.cosDeg (16 * 15), T.sinDeg (16 * 15), 0,
   T.cosDeg (17 * 15), T.sinDeg (17 * 15), 0,
   0, 0, 0,
   T.cosDeg (17 * 15), T.sinDeg (17 * 15), 0,
   T.cosDeg (18 * 15), T.sinDeg (18 * 15), 0,
   0, 0, 0,
   T.cosDeg (18 * 15), T.sinDeg (18 * 15), 0,
   T.cosDeg (19 * 15), T.sinDeg (19 * 15), 0,
   0, 0, 0,
   T.cosDeg (19 * 15), T.sinDeg (19 * 15), 0,
   T.cosDeg (20 * 15), T.sinDeg (20 * 15), 0,
   0, 0, 0,
   T.cosDeg (20 * 15), T.sinDeg (20 * 15), 0,
   T.cosDeg (21 * 15), T.sinDeg (21 * 15), 0,
   0, 0, 0,
   T.cosDeg (21 * 15), T.sinDeg (21 * 15), 0,
   T.cosDeg (22 * 15), T.sinDeg (22 * 15), 0,
   0, 0, 0,
   T.cosDeg (22 * 15), T.sinDeg (22 * 15), 0,
   T.cosDeg (23 * 15), T.sinDeg (23 * 15), 0,
   0, 0, 0,
   T.cosDeg (23 * 15), T.sinDeg (23 * 15), 0,
   T.cosDeg (24 * 15), T.sinDeg (24 * 15), 0,
   0, 0, 0,
   T.cosDeg (24 * 15), T.sinDeg (24 * 15), 0,
   T.cosDeg (25 * 15), T.sinDeg (25 * 15), 0,
   0, 0, 0,
   T.cosDeg (25 * 15), T.sinDeg (25 * 15), 0,
   T.cosDeg (26 * 15), T.sinDeg (26 * 15), 0,
   0, 0, 0,
   T.cosDeg (26 * 15), T.sinDeg (26 * 15), 0,
   T.cosDeg (27 * 15), T.sinDeg (27 * 15), 0
  ]

/-- The function `createBullet()`: the object it stores in `bullet`. -/
def createBullet (T : Trig) (names : Geometry.Names) : Option Geometry.Object :=
  Geometry.create3DObject names Geometry.GL_TRIANGLES 78 (bulletVertexData T)
    (bulletColorData T) Geometry.GL_FILL

/-- The array `vertex_buffer_data` of `createCanon`. -/
def canonVertexData (T : Trig) : List ℚ :=
  [
   0, 0, 0,
   T.cosDeg (15), T.sinDeg (15), 0,
   T.cosDeg (2 * 15), T.sinDeg (2 * 15), 0,
   0, 0, 0,
   T.cosDeg (2 * 15), T.sinDeg (2 * 15), 0,
   T.cosDeg (3 * 15), T.sinDeg (3 * 15), 0,
   0, 0, 0,
   T.cosDeg (3 * 15), T.sinDeg (3 * 15), 0,
   T.cosDeg (4 * 15), T.sinDeg (4 * 15), 0,
   0, 0, 0,
   T.cosDeg (4 * 15), T.sinDeg (4 * 15), 0,
   T.cosDeg (5 * 15), T.sinDeg (5 * 15), 0,
   0, 0, 0,
   T.cosDeg (5 * 15), T.sinDeg (5 * 15), 0,
   T.cosDeg (6 * 15), T.sinDeg (6 * 15), 0,
   0, 0, 0,
   T.cosDeg (6 * 15), T.sinDeg (6 * 15), 0,
   T.cosDeg (7 * 15), T.sinDeg (7 * 15), 0,
   0, 0, 0,
   T.cosDeg (7 * 15), T.sinDeg (7 * 15), 0,
   T.cosDeg (8 * 15), T.sinDeg (8 * 15), 0,
   0, 0, 0,
   T.cosDeg (8 * 15), T.sinDeg (8 * 15), 0,
   T.cosDeg (9 * 15), T.sinDeg (9 * 15), 0,
   0, 0, 0,
   T.cosDeg (9 * 15), T.sinDeg (9 * 15), 0,
   T.cosDeg (10 * 15), T.sinDeg (10 * 15), 0,
   0, 0, 0,
   T.cosDeg (10 * 15), T.sinDeg (10 * 15), 0,
   T.cosDeg (11 * 15), T.sinDeg (11 * 15), 0,
   0, 0, 0,
   T.cosDeg (11 * 15), T.sinDeg (11 * 15), 0,
   T.cosDeg (12 * 15), T.sinDeg (12 * 15), 0,
   0, 0, 0,
   T.cosDeg (12 * 15), T.sinDeg (12 * 15), 0,
   T.cosDeg (13 * 15), T.sinDeg (13 * 15), 0,
   0, 0, 0,
   T.cosDeg (13 * 15), T.sinDeg (13 * 15), 0,
   T.cosDeg (14 * 15), T.sinDeg (14 * 15), 0,
   0, 0, 0,
   T.cosDeg (14 * 15), T.sinDeg (14 * 15), 0,
   T.cosDeg (15 * 15), T.sinDeg (15 * 15), 0,
   0, 0, 0,
   T.cosDeg (15 * 15), T.sinDeg (15 * 15), 0,
   T.cosDeg (16 * 15), T.sinDeg (16 * 15), 0,
   0, 0, 0,
   T.cosDeg (16 * 15), T.sinDeg (16 * 15), 0,
   T.cosDeg (17 * 15), T.sinDeg (17 * 15), 0,
   0, 0, 0,
   T.cosDeg (17 * 15), T.sinDeg (17 * 15), 0,
   T.cosDeg (18 * 15), T.sinDeg (18 * 15), 0,
   0, 0, 0,
   T.cosDeg (18 * 15), T.sinDeg (18 * 15), 0,
   T.cosDeg (19 * 15), T.sinDeg (19 * 15), 0,
   0, 0, 0,
   T.cosDeg (19 * 15), T.sinDeg (19 * 15), 0,
   T.cosDeg (20 * 15), T.sinDeg (20 * 15), 0,
   0, 0, 0,
   T.cosDeg (20 * 15), T.sinDeg (20 * 15), 0,
   T.cosDeg (21 * 15), T.sinDeg (21 * 15), 0,
   0, 0, 0,
   T.cosDeg (21 * 15), T.sinDeg (21 * 15), 0,
   T.cosDeg (22 * 15), T.sinDeg (22 * 15), 0,
   0, 0, 0,
   T.cosDeg (22 * 15), T.sinDeg (22 * 15), 0,
   T.cosDeg (23 * 15), T.sinDeg (23 * 15), 0,
   0, 0, 0,
   T.cosDeg (23 * 15), T.sinDeg (23 * 15), 0,
   T.cosDeg (24 * 15), T.sinDeg (24 * 15), 0,
   0, 0, 0,
   T.cosDeg (24 * 15), T.sinDeg (24 * 15), 0,
   T.cosDeg (25 * 15), T.sinDeg (25 * 15), 0,
   0, 0, 0,
   T.cosDeg (25 * 15), T.sinDeg (25 * 15), 0,
   T.cosDeg (26 * 15), T.sinDeg (26 * 15), 0,
   0, 0, 0,
   T.cosDeg (26 * 15), T.sinDeg (26 * 15), 0,
   T.cosDeg (27 * 15), T.sinDeg (27 * 15), 0,
   0, 0.25, 0,
   2, 0.25, 0,
   2, -0.25, 0,
   0, 0.25, 0,
   0, -0.25, 0,
   2, -0.25, 0
  ]

/-- The array `color_buffer_data` of `createCanon`. -/
def canonColorData : List ℚ :=
  [
   1, 1, 1, 1, 1, 1, 1, 1, 1, 1, 1, 1, 1, 1, 1, 1, 1, 1, 1, 1, 1, 1, 1, 1, 1, 1, 1,
   1, 1, 1, 1, 1, 1, 1, 1, 1, 1, 1, 1, 1, 1, 1, 1, 1, 1, 1, 1, 1, 1, 1, 1, 1, 1, 1,
   1, 1, 1, 1, 1, 1, 1, 1, 1, 1, 1, 1, 1, 1, 1, 1, 1, 1, 1, 1, 1, 1, 1, 1, 1, 1, 1,
   1, 1, 1, 1, 1, 1, 1, 1, 1, 1, 1, 1, 1, 1, 1, 1, 1, 1, 1, 1, 1, 1, 1, 1, 1, 1, 1,
   1, 1, 1, 1, 1, 1, 1, 1, 1, 1, 1, 1, 1, 1, 1, 1, 1, 1, 1, 1, 1, 1, 1, 1, 1, 1, 1,
   1, 1, 1, 1, 1, 1, 1, 1, 1, 1, 1, 1, 1, 1, 1, 1, 1, 1, 1, 1, 1, 1, 1, 1, 1, 1, 1,
   1, 1, 1, 1, 1, 1, 1, 1, 1, 1, 1, 1, 1, 1, 1, 1, 1, 1, 1, 1, 1, 1, 1, 1, 1, 1, 1,
   1, 1, 1, 1, 1, 1, 1, 1, 1, 1, 1, 1, 1, 1, 1, 1, 1, 1, 1, 1, 1, 1, 1, 1, 1, 1, 1,
   1, 1, 1, 1, 1, 1, 1, 1, 1, 1, 1, 1, 1, 1, 1, 1, 1, 1, 1, 1, 1, 1, 1, 1, 1, 1, 1,
   1, 1, 1, 1, 1, 1, 1, 1, 1
  ]

/-- The function `createCanon()`: the object it stores in `canon`. -/
def createCanon (T : Trig) (names : Geometry.Names) : Option Geometry.Object :=
  Geometry.create3DObject names Geometry.GL_TRIANGLES 84 (canonVertexData T)
    canonColorData Geometry.GL_FILL

/-- The array `vertex_buffer_data` of `createRectangle`. -/
def rectangleVertexData : List ℚ :=
  [
   -0.5, -0.5, 0,
   0.5, -0.5, 0,
   0.5, 0.5, 0,
   -0.5, -0.5, 0,
   -0.5, 0.5, 0,
   0.5, 0.5, 0
  ]

/-- The array `color_buffer_data` of `createRectangle`. -/
def rectangleColorData : List ℚ :=
  [
   1, 0, 0,
   0, 1, 0,
   0, 0, 1,
   1, 0, 0,
   0, 0, 1
  ]

/-- The function `createRectangle()`: the object it stores in `rectangle`. -/
def createRectangle (names : Geometry.Names) : Option Geometry.Object :=
  Geometry.create3DObject names Geometry.GL_TRIANGLES 6 rectangleVertexData
    rectangleColorData Geometry.GL_FILL

/-- A state in flight at cannon angle 90, below the floor bound after the next
integration step, with `b` bounces so far. -/
def fallingState (b : Int) : Game where
  canon_rotation := 90
  trnsfrm := (-4, -4 + float_1_2)
  amm_amount := 3
  num_appear := 1
  time_travelled := 1 / 2
  flag := 1
  use := 1
  velocity_x := 0
  velocity_y := 7
  position_x := 0
  position_y := -2
  bounce := b
  coin := ![⟨3, 3, 1⟩, ⟨4, 1, 1⟩, ⟨2, 4, 1⟩, ⟨2, 2, 1⟩]

/-- A state in flight at cannon angle 0 whose next integration step takes the
projectile both below the floor bound and past the right bound. -/
def cornerState : Game where
  canon_rotation := 0
  trnsfrm := (-4 + float_1_2, -4)
  amm_amount := 3
  num_appear := 1
  time_travelled := 53 / 50
  flag := 1
  use := 1
  velocity_x := 7
  velocity_y := 0
  position_x := 371 / 50
  position_y := -53 / 200
  bounce := 0
  coin := ![⟨3, 3, 0⟩, ⟨4, 1, 0⟩, ⟨2, 4, 0⟩, ⟨2, 2, 0⟩]

/-- A state in flight at cannon angle 0 whose next integration step takes the
projectile past the right bound while it is above the floor bound. -/
def wallState : Game where
  canon_rotation := 0
  trnsfrm := (-4 + float_1_2, -4)
  amm_amount := 3
  num_appear := 1
  time_travelled := 99 / 100
  flag := 1
  use := 1
  velocity_x := 7
  velocity_y := 0
  position_x := 693 / 100
  position_y := 99 / 2000
  bounce := 0
  coin := ![⟨3, 3, 0⟩, ⟨4, 1, 0⟩, ⟨2, 4, 0⟩, ⟨2, 2, 0⟩]

/-- A state in flight at cannon angle 90 with the projectile at rest at the
height of the coin at `(3, 3)` and far to its left. -/
def alignedState : Game where
  canon_rotation := 90
  trnsfrm := (-4, -4 + float_1_2)
  amm_amount := 3
  num_appear := 1
  time_travelled := 1 / 2
  flag := 1
  use := 1
  velocity_x := 0
  velocity_y := 0
  position_x := 0
  position_y := 3
  bounce := 0
  coin := ![⟨3, 3, 1⟩, ⟨4, 1, 1⟩, ⟨2, 4, 1⟩, ⟨2, 2, 1⟩]

/-- Rounding of a rational number to the nearest integer, a tie going to the
even neighbour: the rounding of `float` arithmetic. -/
def roundHalfEven (x : ℚ) : Int :=
  if x - ⌊x⌋ < 1 / 2 then ⌊x⌋
  else if 1 / 2 < x - ⌊x⌋ then ⌊x⌋ + 1
  else if ⌊x⌋ % 2 = 0 then ⌊x⌋ else ⌊x⌋ + 1

/-- The right-bound update of `draw`, `velocity_x=-0.5f*velocity_x;`, as the
`float` product it is, on a `float` velocity `v`.  Halving a `float` changes
its exponent alone, so the product is exact as long as it is a normal
`float`, of magnitude at least `2^-126`; below that the `float`s are the
multiples of `2^-149` and the product is rounded to the nearest of them. -/
def reflect (v : ℚ) : ℚ :=
  if (1 / 2) ^ 126 ≤ |-(1 / 2) * v| then -(1 / 2) * v
  else (roundHalfEven (-(1 / 2) * v * 2 ^ 149) : ℚ) / 2 ^ 149

/-- The frames of `draw` in which the right-bound update runs: the projectile
is active and launched, and after the integration step the floor test fails
and the right-bound test holds. -/
def reflectionFrame (T : Trig) (g : Game) : Prop :=
  g.use ≠ 0 ∧ g.flag ≠ 0 ∧ ¬ floorTest T (integrate (coinsInit g)) ∧
    wallTest T (integrate (coinsInit g))

/-- A state in flight at cannon angle 0 whose next integration steps take the
projectile past the right bound and keep it there, above the floor bound. -/
def pastWallState : Game where
  canon_rotation := 0
  trnsfrm := (-4 + float_1_2, -4)
  amm_amount := 3
  num_appear := 1
  time_travelled := 99 / 100
  flag := 1
  use := 1
  velocity_x := 7
  velocity_y := 0
  position_x := 699 / 100
  position_y := 99 / 2000
  bounce := 0
  coin := ![⟨3, 3, 0⟩, ⟨4, 1, 0⟩, ⟨2, 4, 0⟩, ⟨2, 2, 0⟩]

/-- The character callback `keyboardChar(window, key)`: `Q` and `q` call
`quit(window)` (the result is `none`), any other character does nothing. -/
def keyboardChar (key : Char) (g : Game) : Option Game :=
  if key = 'Q' ∨ key = 'q' then none else some g

/-- What the main loop of the 2D game does to the game variables: a call of
`draw()`, or a callback run by `glfwPollEvents()`. -/
inductive Event where
  | frame
  | key (key : Key) (action : Action)
  | char (key : Char)
  deriving DecidableEq, Repr

/-- One event of the main loop; `none` when the event ends the process. -/
def step (T : Trig) (e : Event) (g : Game) : Option Game :=
  match e with
  | .frame => some (draw T g)
  | .key k a => keyboard T k a g
  | .char c => keyboardChar c g

/-- A sequence of events of the main loop, in order. -/
def run (T : Trig) : List Event → Game → Option Game
  | [], g => some g
  | e :: es, g => (step T e g).bind (run T es)

/-- The states of the 2D game after the first frame: `main` calls `draw()`
before it polls for events, so the first event of a run is a frame from the
initial state, and any frames and callbacks follow it. -/
inductive Reachable (T : Trig) : Game → Prop where
  | first : Reachable T (draw T (Game.initial T))
  | next (e : Event) (g g1 : Game) : Reachable T g → step T e g = some g1 → Reachable T g1

/-- The state after the first frame and one press of the fire key N, at the
library values of the angle 90. -/
def firedState : Game :=
  initlz axisTrig
    { draw axisTrig (Game.initial axisTrig) with use := 1, amm_amount := 3 }

/-- A state in flight at cannon angle 90, below the floor bound after the next
integration step, with four bounces so far and with the coin at `(3, 3)`
already deactivated. -/
def lastBounceState : Game :=
  { fallingState 4 with coin := ![⟨3, 3, 0⟩, ⟨4, 1, 1⟩, ⟨2, 4, 1⟩, ⟨2, 2, 1⟩] }

/-- A state in vertical flight after a launch at cannon angle 90: the
projectile at `(0, py)` with the launch velocity `(0, 7)`, `t` after the
launch, and the coin at `(4, 1)` with the flag `appear1`. -/
def verticalFlight (py t : ℚ) (appear1 : Int) : Game where
  canon_rotation := 90
  trnsfrm := (-4, -4 + float_1_2)
  amm_amount := 3
  num_appear := 1
  time_travelled := t
  flag := 1
  use := 1
  velocity_x := 0
  velocity_y := 7
  position_x := 0
  position_y := py
  bounce := 0
  coin := ![⟨3, 3, 1⟩, ⟨4, 1, appear1⟩, ⟨2, 4, 1⟩, ⟨2, 2, 1⟩]

/-- The state six integration frames after a launch at cannon angle 90 from the
state after the first press of N: the projectile has come within 0.4 of the
height of the coin at `(4, 1)`, which is deactivated. -/
def coinHitState : Game := verticalFlight (141 / 200) (3 / 50) 0

/-- The point at which the integration branch of `draw` places the bullet:
the translation of the model matrix `trnsfrm*moveBullet*scaleBullet`, where
`moveBullet` is the translation by `(position_x, position_y)`. -/
def bulletModel (g : Game) : ℚ × ℚ :=
  (g.trnsfrm.1 + g.position_x, g.trnsfrm.2 + g.position_y)

/-- Where a call of `draw()` draws the bullet: `draw3DObject(bullet)` runs for
the projectile only in the integration branch, after the integration step and
the bounce and reflection tests; the result is `none` in a frame that does
not draw the projectile. -/
def drawnBullet (T : Trig) (g : Game) : Option (ℚ × ℚ) :=
  let g0 := coinsInit g
  if g0.use ≠ 0 then
    if g0.flag = 0 then none
    else some (bulletModel (bounceOrReflect T (integrate g0)))
  else none

/-- The cannon angle of the launch frame of the projectile in flight at the end
of a run started in `g`: the value of canon_rotation on entry to the most
recent frame of the run that took the launch branch of `draw` (`use != 0` and
`flag == 0`); `last` is that angle for the events before the run, if any. -/
def launchAngle (T : Trig) : List Event → Game → Option ℚ → Option ℚ
  | [], _, last => last
  | e :: es, g, last =>
    match step T e g with
    | some g1 =>
      launchAngle T es g1
        (if e = Event.frame ∧ g.use ≠ 0 ∧ g.flag = 0 then some g.canon_rotation else last)
    | none => last

/-- The state after the first frame with the cannon turned to the angle `c`,
at the library values of the angle 90. -/
def aimingState (c : ℚ) : Game where
  canon_rotation := c
  trnsfrm := (0, 0)
  amm_amount := 4
  num_appear := 1
  time_travelled := 0
  flag := 0
  use := 0
  velocity_x := 0
  velocity_y := 7
  position_x := 0
  position_y := 0
  bounce := 0
  coin := ![⟨3, 3, 1⟩, ⟨4, 1, 1⟩, ⟨2, 4, 1⟩, ⟨2, 2, 1⟩]

/-- The state at the start of the flight of a projectile launched at cannon
angle 0, after its launch frame. -/
def horizontalFlight : Game where
  canon_rotation := 0
  trnsfrm := (-4 + float_1_2, -4)
  amm_amount := 3
  num_appear := 1
  time_travelled := 0
  flag := 1
  use := 1
  velocity_x := 7
  velocity_y := 0
  position_x := 0
  position_y := 0
  bounce := 0
  coin := ![⟨3, 3, 1⟩, ⟨4, 1, 1⟩, ⟨2, 4, 1⟩, ⟨2, 2, 1⟩]

/-- The first frame, nine presses of D, which turn the cannon from 90 down to
0, a press of N and the launch frame. -/
def horizontalShot : List Event :=
  Event.frame :: (List.replicate 9 (Event.key Key.GLFW_KEY_D Action.GLFW_PRESS) ++
    [Event.key Key.GLFW_KEY_N Action.GLFW_PRESS, Event.frame])

/-- The number of events of a run, started in `g`, at which the fire branch of
`keyboard` runs (a press of N with `amm_amount > 0`). -/
def shots (T : Trig) : List Event → Game → Nat
  | [], _ => 0
  | e :: es, g =>
    (if e = Event.key Key.GLFW_KEY_N Action.GLFW_PRESS ∧ g.amm_amount > 0 then 1 else 0) +
      (match step T e g with
        | some g1 => shots T es g1
        | none => 0)

end Assignment1

namespace Assignment22

/-- A global table `int t[..][3]`: the entry at row `i`, column `j`. -/
abbrev Table := Nat → Nat → Int

/-- A table of a zero-initialised global array. -/
def Table.zero : Table := fun _ _ => 0

/-- The assignment `t[i][j] = v`. -/
def Table.set (t : Table) (i j : Nat) (v : Int) : Table :=
  fun a b => if a = i ∧ b = j then v else t a b

/-- The global variables of the 3D game: the hole table `arr`, the obstacle
table `obs`, and the avatar variables. -/
structure Maze where
  arr : Table
  obs : Table
  pos_x : Int
  pos_z : Int
  appear : Int
  lives : Int
  flag : Int

/-- The function `missing()`, as a map on the table `arr`. -/
def missing (arr : Table) : Table :=
  let arr1 := (List.range 4).foldl
    (fun (t : Table) (i : Nat) => (t.set i 0 (-2 * (i : Int))).set i 1 (-2 * (i : Int))) arr
  let arr2 := (List.range 4).foldl
    (fun (t : Table) (i : Nat) =>
      (t.set (i + 4) 0 (-2 * (i : Int))).set (i + 4) 1 (2 * (i : Int))) arr1
  (arr2.set 8 0 2).set 8 1 (-2)

/-- The function `obstacle()`, as a map on the table `obs`. -/
def obstacle (obs : Table) : Table :=
  let t := obs.set 0 0 2
  let t := t.set 0 1 2
  let t := t.set 1 0 4
  let t := t.set 1 0 6
  let t := t.set 2 0 2
  let t := t.set 2 1 (-4)
  let t := t.set 3 0 (-2)
  let t := t.set 3 1 (-4)
  let t := t.set 4 0 (-6)
  let t := t.set 4 1 8
  let t := t.set 5 0 8
  let t := t.set 5 1 10
  let t := t.set 6 0 6
  t.set 6 1 (-8)

/-- The state when `main` enters the GLUT loop: the initialisers of the
globals (`pos_x` and `pos_z` have none and are zero), after `missing()` and
`obstacle()` have run. -/
def Maze.initial : Maze where
  arr := missing Table.zero
  obs := obstacle Table.zero
  pos_x := 0
  pos_z := 0
  appear := 0
  lives := 4
  flag := 0

/-- The function `search(x, z)`. -/
def search (g : Maze) (x z : Int) : Int :=
  if (List.range 9).any (fun i => decide (g.arr i 0 = x ∧ g.arr i 1 = z)) then 1 else 0

/-- The value that a 32-bit `int` holds after an arithmetic result `x`: `x`
itself inside the range `-2147483648 .. 2147483647`, wrapped around modulo
`2^32` outside of it.  C++ leaves the overflow of an `int` undefined; the
wrap-around is what the two's-complement subtraction of the compiled program
gives. -/
def wrap32 (x : Int) : Int := (x + 2147483648) % 4294967296 - 2147483648

/-- The key-release callback `keyboardUp(key, x, y)`; the mouse position is
not used.  The updates of `d`, `a` and `w` run under a guard on the
coordinate they change (`pos_z <= 10`, `pos_z >= -10`, `pos_x <= 10`), which
keeps the sum or difference an `int`; `pos_x-=2` of `s` runs under a guard on
pos_z and is the one position update that can leave the range of `int`. -/
def keyboardUp (key : Char) (g : Maze) : Maze :=
  if key = 'n' then
    if g.appear = 0 then { g with appear := 1, pos_x := -10, pos_z := -10 } else g
  else if key = 'd' then
    if g.pos_z > 10 then { g with appear := 0, lives := g.lives - 1 }
    else { g with pos_z := g.pos_z + 2 }
  else if key = 'a' then
    if g.pos_z < -10 then { g with appear := 0, lives := g.lives - 1 }
    else { g with pos_z := g.pos_z - 2 }
  else if key = 'w' then
    if g.pos_x > 10 then { g with appear := 0, lives := g.lives - 1 }
    else { g with pos_x := g.pos_x + 2 }
  else if key = 's' then
    if g.pos_z < -10 then { g with appear := 0, lives := g.lives - 1 }
    else { g with pos_x := wrap32 (g.pos_x - 2) }
  else if key = 't' then
    { g with flag := 1 }
  else g

/-- The function `fallorcollide()`: the first loop runs over the nine hole
entries, the second over `i < 6` obstacle entries. -/
def fallorcollide (g : Maze) : Int :=
  if (List.range 9).any (fun i => decide (g.pos_x = g.arr i 0 ∧ g.pos_z = g.arr i 1)) then 1
  else if (List.range 6).any (fun i => decide (g.pos_x = g.obs i 0 ∧ g.pos_z = g.obs i 1)) then 1
  else 0

/-- The obstacle cubes that `draw()` draws, in the order of its loop
`for(int i=0;i<7;i++)`: the cell `(obs[i][0], obs[i][1])` of each. -/
def drawnObstacles (g : Maze) : List (Int × Int) :=
  (List.range 7).map (fun i => (g.obs i 0, g.obs i 1))

/-- The game logic of one call of `draw()`: the collision response
`if(fallorcollide()) { pos_x=-10; pos_z=-10; lives--; }`. -/
def draw (g : Maze) : Maze :=
  if fallorcollide g ≠ 0 then
    { g with pos_x := -10, pos_z := -10, lives := g.lives - 1 }
  else g

/-- The array `vertex_buffer_data` of `createTriangle`. -/
def triangleVertexData : List ℚ :=
  [
   -1.0, -1.0, -1.0,
   -1.0, -1.0, 1.0,
   -1.0, 1.0, 1.0,
   1.0, 1.0, -1.0,
   -1.0, -1.0, -1.0,
   -1.0, 1.0, -1.0,
   1.0, -1.0, 1.0,
   -1.0, -1.0, -1.0,
   1.0, -1.0, -1.0,
   1.0, 1.0, -1.0,
   1.0, -1.0, -1.0,
   -1.0, -1.0, -1.0,
   -1.0, -1.0, -1.0,
   -1.0, 1.0, 1.0,
   -1.0, 1.0, -1.0,
   1.0, -1.0, 1.0,
   -1.0, -1.0, 1.0,
   -1.0, -1.0, -1.0,
   -1.0, 1.0, 1.0,
   -1.0, -1.0, 1.0,
   1.0, -1.0, 1.0,
   1.0, 1.0, 1.0,
   1.0, -1.0, -1.0,
   1.0, 1.0, -1.0,
   1.0, -1.0, -1.0,
   1.0, 1.0, 1.0,
   1.0, -1.0, 1.0,
   1.0, 1.0, 1.0,
   1.0, 1.0, -1.0,
   -1.0, 1.0, -1.0,
   1.0, 1.0, 1.0,
   -1.0, 1.0, -1.0,
   -1.0, 1.0, 1.0,
   1.0, 1.0, 1.0,
   -1.0, 1.0, 1.0,
   1.0, -1.0, 1.0
  ]

/-- The array `color_buffer_data` of `createTriangle`. -/
def triangleColorData : List ℚ :=
  [
   0.583, 0.771, 0.014,
   0.609, 0.115, 0.436,
   0.327, 0.483, 0.844,
   0.822, 0.569, 0.201,
   0.435, 0.602, 0.223,
   0.310, 0.747, 0.185,
   0.597, 0.770, 0.761,
   0.559, 0.436, 0.730,
   0.359, 0.583, 0.152,
   0.483, 0.596, 0.789,
   0.559, 0.861, 0.639,
   0.195, 0.548, 0.859,
   0.014, 0.184, 0.576,
   0.771, 0.328, 0.970,
   0.406, 0.615, 0.116,
   0.676, 0.977, 0.133,
   0.971, 0.572, 0.833,
   0.140, 0.616, 0.489,
   0.997, 0.513, 0.064,
   0.945, 0.719, 0.592,
   0.543, 0.021, 0.978,
   0.279, 0.317, 0.505,
   0.167, 0.620, 0.077,
   0.347, 0.857, 0.137,
   0.055, 0.953, 0.042,
   0.714, 0.505, 0.345,
   0.783, 0.290, 0.734,
   0.722, 0.645, 0.174,
   0.302, 0.455, 0.848,
   0.225, 0.587, 0.040,
   0.517, 0.713, 0.338,
   0.053, 0.959, 0.120,
   0.393, 0.621, 0.362,
   0.673, 0.211, 0.457,
   0.820, 0.883, 0.371,
   0.982, 0.099, 0.879
  ]

/-- The function `createTriangle()`: the object it stores in `triangle`. -/
def createTriangle (names : Geometry.Names) : Option Geometry.Object :=
  Geometry.create3DObject names Geometry.GL_TRIANGLES 36 triangleVertexData
    triangleColorData Geometry.GL_FILL

/-- The array `vertex_buffer_data` of `createRectangle`. -/
def rectangleVertexData : List ℚ :=
  [
   -1.2, -1, 0,
   1.2, -1, 0,
   1.2, 1, 0,
   1.2, 1, 0,
   -1.2, 1, 0,
   -1.2, -1, 0
  ]

/-- The array `color_buffer_data` of `createRectangle`. -/
def rectangleColorData : List ℚ :=
  [
   1, 0, 0,
   0, 0, 1,
   0, 1, 0,
   0, 1, 0,
   0.3, 0.3, 0.3,
   1, 0, 0
  ]

/-- The function `createRectangle()`: the object it stores in `rectangle`. -/
def createRectangle (names : Geometry.Names) : Option Geometry.Object :=
  Geometry.create3DObject names Geometry.GL_TRIANGLES 6 rectangleVertexData
    rectangleColorData Geometry.GL_FILL

/-- The avatar on the board edge `pos_z = 10`, at `pos_x = -10`. -/
def edgeState : Maze :=
  { Maze.initial with pos_x := -10, pos_z := 10, appear := 1 }

/-- The avatar beyond the board edge, at `pos_z = 12`. -/
def beyondState : Maze :=
  { Maze.initial with pos_x := -10, pos_z := 12, appear := 1 }

/-- The avatar on the cell `(6, -8)` of the seventh obstacle, `obs[6]`. -/
def seventhObstacleState : Maze :=
  { Maze.initial with pos_x := 6, pos_z := -8, appear := 1 }

/-- The avatar on the cell `(2, 2)` of the first obstacle, `obs[0]`. -/
def firstObstacleState : Maze :=
  { Maze.initial with pos_x := 2, pos_z := 2, appear := 1 }

/-- The key-press callback `keyboardDown(key, x, y)`: `Q`, `q` and ESC (27)
call `exit(0)` (the result is `none`), any other key does nothing. -/
def keyboardDown (key : Char) (g : Maze) : Option Maze :=
  if key = 'Q' ∨ key = 'q' ∨ key.toNat = 27 then none else some g

/-- The list of assignments `obs[i][j] = v` that `obstacle()` makes, as
`(i, j, v)`, in the order of the source. -/
def obstacleWrites : List (Nat × Nat × Int) :=
  [(0, 0, 2), (0, 1, 2), (1, 0, 4), (1, 0, 6), (2, 0, 2), (2, 1, -4), (3, 0, -2),
   (3, 1, -4), (4, 0, -6), (4, 1, 8), (5, 0, 8), (5, 1, 10), (6, 0, 6), (6, 1, -8)]

/-- What the GLUT main loop of the 3D game does to the game variables: a call
of `draw()` (display or idle callback), a key release or a key press. -/
inductive Event where
  | frame
  | keyUp (key : Char)
  | keyDown (key : Char)
  deriving DecidableEq, Repr

/-- One event of the main loop; `none` when the event ends the process. -/
def step (e : Event) (g : Maze) : Option Maze :=
  match e with
  | .frame => some (draw g)
  | .keyUp c => some (keyboardUp c g)
  | .keyDown c => keyboardDown c g

/-- A sequence of events of the main loop, in order. -/
def run : List Event → Maze → Option Maze
  | [], g => some g
  | e :: es, g => (step e g).bind (run es)

/-- The eight cubes of one iteration `(k, i, j)` of the triple loop of
`draw()`, in the order of the source: the translation of the model matrix of
each cube, and whether `draw3DObject(triangle)` is called for it (`false`
when the empty `if` branch is taken). -/
def cubeDraws (g : Maze) (k i j : Nat) : List ((Int × Int × Int) × Bool) :=
  let I : Int := i
  let J : Int := j
  let K : Int := k
  [((2 * I, 2 * J, 2 * K), !decide (search g (2 * I) (2 * K) = 1 ∧ j = 5)),
   ((2 * I, 2 * J + -4 * J, 2 * K), true),
   ((2 * I, 2 * J + -4 * J, 2 * K + -4 * K), true),
   ((2 * I, 2 * J, 2 * K + -4 * K), !decide (search g (2 * I) (-2 * K) ≠ 0 ∧ j = 5)),
   ((-2 * I, 2 * J, -2 * K), !decide (search g (-2 * I) (-2 * K) ≠ 0 ∧ j = 5)),
   ((-2 * I, 2 * J + -4 * J, -2 * K), true),
   ((-2 * I, 2 * J + -4 * J, -2 * K + 4 * K), true),
   ((-2 * I, 2 * J, -2 * K + 4 * K), !decide (search g (-2 * I) (2 * K) ≠ 0 ∧ j = 5))]

/-- The cubes of the triple loop `for k, for i, for j` of `draw()`, each index
running over `0..5`. -/
def boardDraws (g : Maze) : List ((Int × Int × Int) × Bool) :=
  (List.range 6).flatMap fun k =>
    (List.range 6).flatMap fun i =>
      (List.range 6).flatMap fun j => cubeDraws g k i j

/-- The avatar on the start cell after the first frame and a spawn with the
key `n`. -/
def spawnState : Maze := keyboardUp 'n' (draw Maze.initial)

/-- The state 1073741819 releases of `s` after the spawn: the avatar in the
row `pos_z = -10` with pos_x at `INT_MIN`. -/
def intMinState : Maze := { spawnState with pos_x := -2147483648 }

end Assignment22

namespace Shader

/-- The files that `LoadShaders` may open: `none` for a path whose stream is
not open after construction, otherwise the lines that the successive calls of
`getline` return. -/
abbrev Files := String → Option (List String)

/-- The object names that `glCreateShader(GL_VERTEX_SHADER)`,
`glCreateShader(GL_FRAGMENT_SHADER)` and `glCreateProgram()` return; they are
chosen by the GL. -/
structure Names where
  VertexShaderID : Nat
  FragmentShaderID : Nat
  ProgramID : Nat
  deriving DecidableEq, Repr

/-- The values that the queries `glGetShaderiv(.., GL_INFO_LOG_LENGTH, ..)` and
`glGetProgramiv(.., GL_INFO_LOG_LENGTH, ..)` write into `InfoLogLength`; they
are chosen by the GL, for a shader from its name and its source, and are 0
when the object has no info log. -/
structure Driver where
  shaderInfoLogLength : Nat → String → Int
  programInfoLogLength : Nat → Int

/-- The GL commands that `LoadShaders` issues to build the program and to
fetch the info logs, the latter with the buffer size they are given.  The
queries of the compile and link status are left out: `Result` is never
read. -/
inductive Command where
  | glShaderSource (shader : Nat) (source : String)
  | glCompileShader (shader : Nat)
  | glGetShaderInfoLog (shader : Nat) (bufSize : Int)
  | glAttachShader (program shader : Nat)
  | glLinkProgram (program : Nat)
  | glGetProgramInfoLog (program : Nat) (bufSize : Int)
  | glDeleteShader (shader : Nat)
  deriving DecidableEq, Repr

/-- The expression `&Message[0]` on a `std::vector<char> Message(size)`: it
is defined when the vector has an element 0, that is when `size >= 1`. -/
def firstElement (size : Int) : Option Unit :=
  if 1 ≤ size then some () else none

/-- The reading of one shader file in `LoadShaders`: the code is empty unless
the stream is open, and then the loop
`while(getline(Stream, Line)) Code += "\n" + Line;` runs over the lines. -/
def readCode (files : Files) (path : String) : String :=
  match files path with
  | some lines => lines.foldl (fun code line => code ++ ("\n" ++ line)) ""
  | none => ""

/-- The function `LoadShaders(vertex_file_path, fragment_file_path)`: the
handle it returns and the GL commands it issues, in order.  The two shader
logs are fetched into `std::vector<char> Message(InfoLogLength)` through
`&Message[0]`, the program log into a vector of `max(InfoLogLength, int(1))`
elements; the result is `none` when one of these expressions is undefined. -/
def LoadShaders (files : Files) (names : Names) (gl : Driver)
    (vertex_file_path fragment_file_path : String) : Option (Nat × List Command) :=
  let VertexShaderCode := readCode files vertex_file_path
  let FragmentShaderCode := readCode files fragment_file_path
  let vertexLength := gl.shaderInfoLogLength names.VertexShaderID VertexShaderCode
  let fragmentLength := gl.shaderInfoLogLength names.FragmentShaderID FragmentShaderCode
  let programLength := gl.programInfoLogLength names.ProgramID
  match firstElement vertexLength, firstElement fragmentLength,
        firstElement (max programLength 1) with
  | some _, some _, some _ =>
    some (names.ProgramID,
      [Command.glShaderSource names.VertexShaderID VertexShaderCode,
       Command.glCompileShader names.VertexShaderID,
       Command.glGetShaderInfoLog names.VertexShaderID vertexLength,
       Command.glShaderSource names.FragmentShaderID FragmentShaderCode,
       Command.glCompileShader names.FragmentShaderID,
       Command.glGetShaderInfoLog names.FragmentShaderID fragmentLength,
       Command.glAttachShader names.ProgramID names.VertexShaderID,
       Command.glAttachShader names.ProgramID names.FragmentShaderID,
       Command.glLinkProgram names.ProgramID,
       Command.glGetProgramInfoLog names.ProgramID programLength,
       Command.glDeleteShader names.VertexShaderID,
       Command.glDeleteShader names.FragmentShaderID])
  | _, _, _ => none

/-- A directory in which only the vertex shader can be opened; it has two
lines. -/
def onlyVertexFile : Files :=
  fun path => if path = "Sample_GL.vert" then some ["#version 330", "in vec3 position;"] else none

/-- A directory in which both shader files can be opened. -/
def bothFiles : Files :=
  fun path =>
    if path = "Sample_GL.vert" then some ["#version 330", "in vec3 position;"]
    else if path = "Sample_GL.frag" then some ["#version 330", "out vec3 color;"]
    else none

/-- A GL that has nothing to report: every info log is empty. -/
def quietDriver : Driver where
  shaderInfoLogLength := fun _ _ => 0
  programInfoLogLength := fun _ => 0

/-- A GL that reports a shader log of 24 characters for every shader and no
program log. -/
def verboseDriver : Driver where
  shaderInfoLogLength := fun _ _ => 24
  programInfoLogLength := fun _ => 0

end Shader

/-! ## The 2D game: frames and key events -/

namespace Assignment1

theorem coinsInit_fields (g : Game) :
    (coinsInit g).canon_rotation = g.canon_rotation ∧ (coinsInit g).trnsfrm = g.trnsfrm ∧
    (coinsInit g).amm_amount = g.amm_amount ∧ (coinsInit g).time_travelled = g.time_travelled ∧
    (coinsInit g).flag = g.flag ∧ (coinsInit g).use = g.use ∧
    (coinsInit g).velocity_x = g.velocity_x ∧ (coinsInit g).velocity_y = g.velocity_y ∧
    (coinsInit g).position_x = g.position_x ∧ (coinsInit g).position_y = g.position_y ∧
    (coinsInit g).bounce = g.bounce := by
  unfold coinsInit
  split <;> simp

/-- The integration frame, written out: what `draw` returns when the projectile
is active and already launched. -/
theorem draw_integration (T : Trig) (g : Game) (huse : g.use ≠ 0) (hflag : g.flag ≠ 0) :
    draw T g =
      { bounceOrReflect T (integrate (coinsInit g)) with
        time_travelled := (bounceOrReflect T (integrate (coinsInit g))).time_travelled + 1 / 100
        coin := dist (bounceOrReflect T (integrate (coinsInit g))).position_x
          (bounceOrReflect T (integrate (coinsInit g))).position_y
          (bounceOrReflect T (integrate (coinsInit g))).coin } := by
  obtain ⟨-, -, -, -, hf, hu, -⟩ := coinsInit_fields g
  unfold draw
  simp only [hf, hu, ne_eq, huse, hflag, not_false_eq_true, if_true, if_false]

theorem floorTest_integrate (T : Trig) (g : Game) :
    floorTest T (integrate (coinsInit g)) ↔
      g.position_y + 1 / 100 * (g.velocity_y + 5 - 10 * g.time_travelled) ≤
        -(3 / 10 + T.sinDeg g.canon_rotation) := by
  obtain ⟨hc, -, -, ht, -, -, -, hvy, -, hpy, -⟩ := coinsInit_fields g
  simp only [floorTest, integrate, hc, ht, hvy, hpy, one_mul]

theorem wallTest_integrate (T : Trig) (g : Game) :
    wallTest T (integrate (coinsInit g)) ↔
      g.position_x + 1 / 100 * g.velocity_x ≥ 8 - T.cosDeg g.canon_rotation := by
  obtain ⟨hc, -, -, -, -, -, hvx, -, hpx, -, -⟩ := coinsInit_fields g
  simp only [wallTest, integrate, hc, hvx, hpx]

/-- What the `if (floor) ...` statement leaves when the floor test holds. -/
theorem bounceOrReflect_floor (T : Trig) (g : Game) (h : floorTest T g) :
    (bounceOrReflect T g).velocity_y = (if g.bounce < 5 then 1 / 2 * g.velocity_y else g.velocity_y) ∧
    (bounceOrReflect T g).bounce = (if g.bounce < 5 then g.bounce + 1 else g.bounce) ∧
    (bounceOrReflect T g).time_travelled = 0 ∧
    (bounceOrReflect T g).use = (if g.bounce < 4 then g.use else 0) ∧
    (bounceOrReflect T g).velocity_x = g.velocity_x ∧
    (bounceOrReflect T g).position_x = g.position_x ∧
    (bounceOrReflect T g).position_y = g.position_y ∧
    (bounceOrReflect T g).coin = g.coin := by
  unfold bounceOrReflect
  rw [if_pos h]
  by_cases h5 : g.bounce < 5
  · by_cases h4 : g.bounce < 4
    · have h6 : ¬ (g.bounce + 1 ≥ 5) := by omega
      simp [h5, h4, h6]
    · have h6 : g.bounce + 1 ≥ 5 := by omega
      simp [h5, h4, h6]
  · have h4 : ¬ g.bounce < 4 := by omega
    have h6 : g.bounce ≥ 5 := by omega
    simp [h5, h4, h6]

/-- What the `if (floor) ... else if (right bound) ...` statement leaves when
the floor test fails. -/
theorem bounceOrReflect_noFloor (T : Trig) (g : Game) (h : ¬ floorTest T g) :
    (bounceOrReflect T g).velocity_y = g.velocity_y ∧
    (bounceOrReflect T g).bounce = g.bounce ∧
    (bounceOrReflect T g).time_travelled = g.time_travelled ∧
    (bounceOrReflect T g).use = g.use ∧
    (bounceOrReflect T g).velocity_x =
      (if wallTest T g then -(1 / 2) * g.velocity_x else g.velocity_x) ∧
    (bounceOrReflect T g).position_x = g.position_x ∧
    (bounceOrReflect T g).position_y = g.position_y ∧
    (bounceOrReflect T g).coin = g.coin := by
  unfold bounceOrReflect
  rw [if_neg h]
  by_cases hw : wallTest T g <;> simp [hw]

/-- C1: in an integration frame (`use != 0`, `flag != 0`) whose position_y
after the integration step is at or below `-(0.3 + sin(canon_rotation))` and
whose bounce count on entry is below 5, the frame halves velocity_y, adds one
to bounce, and resets time_travelled, so that after the end-of-frame increment
it is `0 + 0.01`; position_y after the frame is the integrated position. -/
theorem draw_bounce_rule (T : Trig) (g : Game) (huse : g.use ≠ 0) (hflag : g.flag ≠ 0)
    (hfloor : g.position_y + 1 / 100 * (g.velocity_y + 5 - 10 * g.time_travelled) ≤
      -(3 / 10 + T.sinDeg g.canon_rotation))
    (hb : g.bounce < 5) :
    (draw T g).velocity_y = 1 / 2 * g.velocity_y ∧
    (draw T g).bounce = g.bounce + 1 ∧
    (draw T g).time_travelled = 0 + 1 / 100 ∧
    (draw T g).position_y =
      g.position_y + 1 / 100 * (g.velocity_y + 5 - 10 * g.time_travelled) := by
  have hf := (floorTest_integrate T g).2 hfloor
  obtain ⟨-, -, -, ht, -, -, -, hvy, -, hpy, hbo⟩ := coinsInit_fields g
  obtain ⟨h1, h2, h3, -, -, -, h7, -⟩ := bounceOrReflect_floor T _ hf
  have hb1 : (integrate (coinsInit g)).bounce < 5 := by simpa [integrate, hbo] using hb
  rw [draw_integration T g huse hflag]
  simp only [h1, h2, h3, h7, hb1, if_true]
  simp only [integrate, hvy, hbo, hpy, ht, and_self]

/-- C1, at a concrete frame: the falling state with no bounce so far. -/
theorem draw_bounce_rule_witness :
    (draw axisTrig (fallingState 0)).velocity_y = 1 / 2 * (fallingState 0).velocity_y ∧
    (draw axisTrig (fallingState 0)).bounce = (fallingState 0).bounce + 1 ∧
    (draw axisTrig (fallingState 0)).time_travelled = 0 + 1 / 100 ∧
    (draw axisTrig (fallingState 0)).position_y =
      (fallingState 0).position_y + 1 / 100 *
        ((fallingState 0).velocity_y + 5 - 10 * (fallingState 0).time_travelled) :=
  draw_bounce_rule axisTrig (fallingState 0) (by norm_num [fallingState])
    (by norm_num [fallingState]) (by norm_num [fallingState, axisTrig])
    (by norm_num [fallingState])

/-- C2: in a floor-crossing integration frame entered with bounce count 5,
whatever velocity_y is, the projectile becomes inactive (`use = 0`) and
velocity_y and bounce are left as they were. -/
theorem draw_bounce_ceiling (T : Trig) (g : Game) (huse : g.use ≠ 0) (hflag : g.flag ≠ 0)
    (hfloor : g.position_y + 1 / 100 * (g.velocity_y + 5 - 10 * g.time_travelled) ≤
      -(3 / 10 + T.sinDeg g.canon_rotation))
    (hb : g.bounce = 5) :
    (draw T g).use = 0 ∧ (draw T g).velocity_y = g.velocity_y ∧
    (draw T g).bounce = g.bounce := by
  have hf := (floorTest_integrate T g).2 hfloor
  obtain ⟨-, -, -, -, -, -, -, hvy, -, -, hbo⟩ := coinsInit_fields g
  obtain ⟨h1, h2, -, h4, -⟩ := bounceOrReflect_floor T _ hf
  have hb1 : (integrate (coinsInit g)).bounce = 5 := by simpa [integrate, hbo] using hb
  rw [draw_integration T g huse hflag]
  simp only [h1, h2, h4, hb1]
  simp [integrate, hvy, hb]

/-- C2, at a concrete frame: the falling state entered with five bounces. -/
theorem draw_bounce_ceiling_witness :
    (draw axisTrig (fallingState 5)).use = 0 ∧
    (draw axisTrig (fallingState 5)).velocity_y = (fallingState 5).velocity_y ∧
    (draw axisTrig (fallingState 5)).bounce = (fallingState 5).bounce :=
  draw_bounce_ceiling axisTrig (fallingState 5) (by norm_num [fallingState])
    (by norm_num [fallingState]) (by norm_num [fallingState, axisTrig])
    (by norm_num [fallingState])

/-- C3 as stated fails: `cornerState` is an integration frame whose position_x
after the integration step is past the right bound, yet the frame leaves
velocity_x at 7 instead of replacing it by `-0.5 * 7`, because the floor
branch runs and the right-bound test sits in its `else`. -/
theorem draw_reflection_counterexample :
    cornerState.use ≠ 0 ∧ cornerState.flag ≠ 0 ∧
    cornerState.position_x + 1 / 100 * cornerState.velocity_x ≥
      8 - axisTrig.cosDeg cornerState.canon_rotation ∧
    (draw axisTrig cornerState).velocity_x = 7 ∧
    (draw axisTrig cornerState).velocity_x ≠ -(1 / 2) * cornerState.velocity_x := by
  have hf : floorTest axisTrig (integrate (coinsInit cornerState)) := by
    rw [floorTest_integrate]; norm_num [cornerState, axisTrig]
  obtain ⟨-, -, -, -, h5, -⟩ := bounceOrReflect_floor axisTrig _ hf
  obtain ⟨-, -, -, -, -, -, hvx, -⟩ := coinsInit_fields cornerState
  have hv : (draw axisTrig cornerState).velocity_x = 7 := by
    rw [draw_integration axisTrig cornerState (by norm_num [cornerState])
      (by norm_num [cornerState])]
    simp only [h5]
    show (coinsInit cornerState).velocity_x = 7
    rw [hvx]
    rfl
  refine ⟨by norm_num [cornerState], by norm_num [cornerState],
    by norm_num [cornerState, axisTrig], hv, ?_⟩
  rw [hv]; norm_num [cornerState]

/-- C3, amended: in an integration frame whose position_x after the
integration step is past the right bound `8 - cos(canon_rotation)`, the frame
replaces velocity_x by `-0.5 * velocity_x` when position_y after the step is
above the floor bound, and leaves velocity_x unchanged when position_y is at
or below the floor bound. -/
theorem draw_reflection (T : Trig) (g : Game) (huse : g.use ≠ 0) (hflag : g.flag ≠ 0)
    (hwall : g.position_x + 1 / 100 * g.velocity_x ≥ 8 - T.cosDeg g.canon_rotation) :
    (draw T g).velocity_x =
      (if g.position_y + 1 / 100 * (g.velocity_y + 5 - 10 * g.time_travelled) ≤
            -(3 / 10 + T.sinDeg g.canon_rotation)
        then g.velocity_x else -(1 / 2) * g.velocity_x) := by
  obtain ⟨-, -, -, -, -, -, hvx, -⟩ := coinsInit_fields g
  have hw := (wallTest_integrate T g).2 hwall
  rw [draw_integration T g huse hflag]
  by_cases hfloor : g.position_y + 1 / 100 * (g.velocity_y + 5 - 10 * g.time_travelled) ≤
      -(3 / 10 + T.sinDeg g.canon_rotation)
  · have hf := (floorTest_integrate T g).2 hfloor
    obtain ⟨-, -, -, -, h5, -⟩ := bounceOrReflect_floor T _ hf
    simp only [h5, if_pos hfloor]
    simp [integrate, hvx]
  · have hf : ¬ floorTest T (integrate (coinsInit g)) :=
      fun h => hfloor ((floorTest_integrate T g).1 h)
    obtain ⟨-, -, -, -, h5, -⟩ := bounceOrReflect_noFloor T _ hf
    simp only [h5, if_neg hfloor, if_pos hw]
    simp [integrate, hvx]

/-- C3 amended, at a concrete frame: `wallState` crosses the right bound above
the floor bound and its velocity_x goes from 7 to `-7/2`. -/
theorem draw_reflection_witness :
    (draw axisTrig wallState).velocity_x = -(7 / 2) := by
  have h := draw_reflection axisTrig wallState (by norm_num [wallState])
    (by norm_num [wallState]) (by norm_num [wallState, axisTrig])
  rw [h]
  norm_num [wallState, axisTrig]

/-- The loop of `dist` over a list of distinct indices touches coin `i` only
at index `i`. -/
theorem foldl_distStep (px py : ℚ) (l : List (Fin 4)) (hl : l.Nodup) (coin : Fin 4 → coins)
    (i : Fin 4) :
    (l.foldl (distStep px py) coin) i =
      (if i ∈ l ∧ hit px py (coin i) then { coin i with appear := 0 } else coin i) := by
  induction l generalizing coin with
  | nil => simp
  | cons a l ih =>
    have ha : a ∉ l := (List.nodup_cons.1 hl).1
    rw [List.foldl_cons, ih (List.nodup_cons.1 hl).2]
    by_cases hia : i = a
    · subst hia
      by_cases hh : hit px py (coin i) <;> simp [ha, distStep, hh]
    · have hstep : distStep px py coin a i = coin i := by
        unfold distStep
        split
        · exact Function.update_noteq hia _ _
        · rfl
      simp [hstep, hia]

/-- The effect of `dist` on coin `i`: its `appear` flag is cleared when the hit
test holds, and the coin is otherwise untouched. -/
theorem dist_apply (px py : ℚ) (coin : Fin 4 → coins) (i : Fin 4) :
    dist px py coin i = (if hit px py (coin i) then { coin i with appear := 0 } else coin i) := by
  unfold dist
  rw [foldl_distStep px py _ (List.nodup_finRange _)]
  simp

/-- The coins that `dist` sees in an integration frame are those left by the
first-frame initialisation, tested against the integrated position. -/
theorem draw_coin (T : Trig) (g : Game) (huse : g.use ≠ 0) (hflag : g.flag ≠ 0) :
    (draw T g).position_x = g.position_x + 1 / 100 * g.velocity_x ∧
    (draw T g).position_y =
      g.position_y + 1 / 100 * (g.velocity_y + 5 - 10 * g.time_travelled) ∧
    (draw T g).coin = dist (g.position_x + 1 / 100 * g.velocity_x)
      (g.position_y + 1 / 100 * (g.velocity_y + 5 - 10 * g.time_travelled))
      (coinsInit g).coin := by
  obtain ⟨-, -, -, ht, -, -, hvx, hvy, hpx, hpy, -⟩ := coinsInit_fields g
  rw [draw_integration T g huse hflag]
  by_cases hf : floorTest T (integrate (coinsInit g))
  · obtain ⟨-, -, -, -, -, h6, h7, h8⟩ := bounceOrReflect_floor T _ hf
    simp only [h6, h7, h8]
    simp only [integrate, hvx, hvy, hpx, hpy, ht, and_self]
  · obtain ⟨-, -, -, -, -, h6, h7, h8⟩ := bounceOrReflect_noFloor T _ hf
    simp only [h6, h7, h8]
    simp only [integrate, hvx, hvy, hpx, hpy, ht, and_self]

/-- After the first frame (`num_appear != 0`) the coin initialisation of `draw`
does nothing. -/
theorem coinsInit_started (g : Game) (h : g.num_appear ≠ 0) : coinsInit g = g := by
  unfold coinsInit
  rw [if_neg h]

/-- C4: in an integration frame, a coin that is active before the frame is
inactive after it if and only if `|px - tx| <= 0.4` or `|py - ty| <= 0.4`,
where `(px, py)` is the projectile position when `dist` runs (the position
after the integration step, which is also the position after the frame) and
`(tx, ty)` is the coin's position when `dist` runs (`coinsInit g`: the coin's
own position, once the first frame has placed the coins); the frame does not
move the coin. -/
theorem draw_target_deactivation (T : Trig) (g : Game) (huse : g.use ≠ 0)
    (hflag : g.flag ≠ 0) (i : Fin 4) (hact : (g.coin i).appear ≠ 0) :
    (draw T g).position_x = g.position_x + 1 / 100 * g.velocity_x ∧
    (draw T g).position_y =
      g.position_y + 1 / 100 * (g.velocity_y + 5 - 10 * g.time_travelled) ∧
    (((draw T g).coin i).appear = 0 ↔
      (|(draw T g).position_x - ((((coinsInit g).coin i).pos_x : Int) : ℚ)| ≤ 2 / 5 ∨
       |(draw T g).position_y - ((((coinsInit g).coin i).pos_y : Int) : ℚ)| ≤ 2 / 5)) ∧
    ((draw T g).coin i).pos_x = ((coinsInit g).coin i).pos_x ∧
    ((draw T g).coin i).pos_y = ((coinsInit g).coin i).pos_y := by
  obtain ⟨hx, hy, hc⟩ := draw_coin T g huse hflag
  have hact0 : ((coinsInit g).coin i).appear ≠ 0 := by
    unfold coinsInit
    split
    · fin_cases i <;> simp [coins.set_coins]
    · exact hact
  refine ⟨hx, hy, ?_, ?_, ?_⟩
  · rw [hc, dist_apply, ← hx, ← hy]
    by_cases hh : hit (draw T g).position_x (draw T g).position_y ((coinsInit g).coin i)
    · rw [if_pos hh]
      exact ⟨fun _ => hh, fun _ => rfl⟩
    · rw [if_neg hh]
      exact ⟨fun h0 => absurd h0 hact0, fun h0 => absurd h0 hh⟩
  · rw [hc, dist_apply]
    split <;> rfl
  · rw [hc, dist_apply]
    split <;> rfl

/-- C4, at a concrete frame: with the projectile at `(0, 3)` the coin at
`(3, 3)` is deactivated, through the test on the y axis alone. -/
theorem draw_target_deactivation_witness :
    ((draw axisTrig alignedState).coin 0).appear = 0 := by
  obtain ⟨-, hy, hiff, -, -⟩ := draw_target_deactivation axisTrig alignedState
    (by norm_num [alignedState]) (by norm_num [alignedState]) 0 (by simp [alignedState])
  apply hiff.2
  right
  rw [hy, coinsInit_started _ (by norm_num [alignedState])]
  norm_num [alignedState]

/-- C6: a press of the fire key N in a state with `amm_amount = a > 0` gives
`amm_amount = a - 1`, marks the projectile active (`use = 1`), resets
time_travelled, bounce and flag to 0 and sets the velocity to
`(7*cos(t), 7*sin(t))` for the cannon's rotation angle `t`, which the press
does not change; from the initial state, where `amm_amount = 4` and the angle
is 90, it gives `amm_amount = 3` with the same resets. -/
theorem keyboard_fire (T : Trig) (g : Game) (ha : 0 < g.amm_amount) :
    (∃ g1, keyboard T Key.GLFW_KEY_N Action.GLFW_PRESS g = some g1 ∧
      g1.amm_amount = g.amm_amount - 1 ∧ g1.use = 1 ∧ g1.time_travelled = 0 ∧
      g1.bounce = 0 ∧ g1.flag = 0 ∧
      g1.velocity_x = 7 * T.cosDeg g.canon_rotation ∧
      g1.velocity_y = 7 * T.sinDeg g.canon_rotation ∧
      g1.canon_rotation = g.canon_rotation) ∧
    (Game.initial T).amm_amount = 4 ∧
    (∃ g1, keyboard T Key.GLFW_KEY_N Action.GLFW_PRESS (Game.initial T) = some g1 ∧
      g1.amm_amount = 3 ∧ g1.use = 1 ∧ g1.time_travelled = 0 ∧
      g1.bounce = 0 ∧ g1.flag = 0 ∧
      g1.velocity_x = 7 * T.cosDeg 90 ∧ g1.velocity_y = 7 * T.sinDeg 90) := by
  have h4 : (0 : Int) < (Game.initial T).amm_amount := by
    show (0 : Int) < 4
    decide
  refine ⟨⟨initlz T { g with use := 1, amm_amount := g.amm_amount - 1 }, ?_, ?_⟩, rfl,
    ⟨initlz T { Game.initial T with use := 1, amm_amount := (Game.initial T).amm_amount - 1 },
      ?_, ?_⟩⟩
  · simp only [keyboard, gt_iff_lt, ha, if_true]
  · simp [initlz]
  · simp only [keyboard, gt_iff_lt, h4, if_true]
  · simp [initlz, Game.initial]

/-- C6, at the initial state with the library values of the angle 90: one
press of N leaves three projectiles and a launch velocity of `(0, 7)`. -/
theorem keyboard_fire_witness :
    ∃ g1, keyboard axisTrig Key.GLFW_KEY_N Action.GLFW_PRESS (Game.initial axisTrig) = some g1 ∧
      g1.amm_amount = 3 ∧ g1.use = 1 ∧ g1.time_travelled = 0 ∧
      g1.bounce = 0 ∧ g1.flag = 0 ∧
      g1.velocity_x = 7 * axisTrig.cosDeg 90 ∧ g1.velocity_y = 7 * axisTrig.sinDeg 90 :=
  (keyboard_fire axisTrig (Game.initial axisTrig) (by decide)).2.2

end Assignment1

/-! ## The 3D game: key events and the collision check -/

namespace Assignment22

/-- C5 as stated fails: on the board edge `pos_z = 10` the step of the key `d`
would take pos_z to 12, outside `[-10, 10]`, yet the key event moves the
avatar there and changes neither appear nor lives. -/
theorem keyboardUp_edge_counterexample :
    ¬ (-10 ≤ edgeState.pos_z + 2 ∧ edgeState.pos_z + 2 ≤ 10) ∧
    (keyboardUp 'd' edgeState).pos_z = 12 ∧
    (keyboardUp 'd' edgeState).pos_z ≠ edgeState.pos_z ∧
    (keyboardUp 'd' edgeState).appear = 1 ∧
    (keyboardUp 'd' edgeState).lives = 4 ∧
    (keyboardUp 'd' edgeState).lives ≠ edgeState.lives - 1 := by
  decide

/-- C5, amended: for each of the movement keys `d`, `a` and `w`, in every state
in which the coordinate that the key moves is already beyond the bound on the
side of the motion (`pos_z > 10` for `d`, `pos_z < -10` for `a`, `pos_x > 10`
for `w`), the key event sets appear to 0, decrements lives by exactly 1 and
leaves pos_x and pos_z unchanged. -/
theorem keyboardUp_beyond_bound (key : Char) (g : Maze)
    (h : (key = 'd' ∧ 10 < g.pos_z) ∨ (key = 'a' ∧ g.pos_z < -10) ∨
      (key = 'w' ∧ 10 < g.pos_x)) :
    (keyboardUp key g).appear = 0 ∧ (keyboardUp key g).lives = g.lives - 1 ∧
    (keyboardUp key g).pos_x = g.pos_x ∧ (keyboardUp key g).pos_z = g.pos_z := by
  rcases h with ⟨rfl, h⟩ | ⟨rfl, h⟩ | ⟨rfl, h⟩ <;> simp [keyboardUp, h]

/-- C5 amended, at a concrete event: the key `d` pressed at `pos_z = 12`. -/
theorem keyboardUp_beyond_bound_witness :
    (keyboardUp 'd' beyondState).appear = 0 ∧
    (keyboardUp 'd' beyondState).lives = beyondState.lives - 1 ∧
    (keyboardUp 'd' beyondState).pos_x = beyondState.pos_x ∧
    (keyboardUp 'd' beyondState).pos_z = beyondState.pos_z :=
  keyboardUp_beyond_bound 'd' beyondState (Or.inl ⟨rfl, by decide⟩)

/-- The function `fallorcollide()` returns 1 when the avatar position equals one
of the hole entries `arr[0..8]` or one of the obstacle entries `obs[0..5]`. -/
theorem fallorcollide_match (g : Maze)
    (h : (∃ i, i < 9 ∧ g.pos_x = g.arr i 0 ∧ g.pos_z = g.arr i 1) ∨
      (∃ i, i < 6 ∧ g.pos_x = g.obs i 0 ∧ g.pos_z = g.obs i 1)) :
    fallorcollide g = 1 := by
  unfold fallorcollide
  simp only [List.any_eq_true, List.mem_range, decide_eq_true_eq]
  rcases h with h1 | h2
  · rw [if_pos h1]
  · by_cases h1 : ∃ i, i < 9 ∧ g.pos_x = g.arr i 0 ∧ g.pos_z = g.arr i 1
    · rw [if_pos h1]
    · rw [if_neg h1, if_pos h2]

/-- The function `fallorcollide()` returns 0 when the avatar position equals
none of the entries `arr[0..8]` and `obs[0..5]`. -/
theorem fallorcollide_noMatch (g : Maze)
    (h1 : ¬ ∃ i, i < 9 ∧ g.pos_x = g.arr i 0 ∧ g.pos_z = g.arr i 1)
    (h2 : ¬ ∃ i, i < 6 ∧ g.pos_x = g.obs i 0 ∧ g.pos_z = g.obs i 1) :
    fallorcollide g = 0 := by
  unfold fallorcollide
  simp only [List.any_eq_true, List.mem_range, decide_eq_true_eq]
  rw [if_neg h1, if_neg h2]

/-- A frame drawn with the avatar on one of the six obstacle entries that
`fallorcollide()` reads, `obs[0..5]`, decrements lives. -/
theorem draw_checked_obstacle (g : Maze) (i : Nat) (hi : i < 6)
    (hx : g.pos_x = g.obs i 0) (hz : g.pos_z = g.obs i 1) :
    (draw g).lives = g.lives - 1 := by
  have h : fallorcollide g = 1 := fallorcollide_match g (Or.inr ⟨i, hi, hx, hz⟩)
  simp [draw, h]

/-- C7 fails at the seventh obstacle: after `obstacle()` the entry `obs[6]` is
`(6, -8)` and `draw()` draws a cube on that cell, but with the avatar on it
`fallorcollide()` returns 0 and the frame leaves lives at 4 and the avatar
where it is. -/
theorem draw_seventh_obstacle_missed :
    (seventhObstacleState.obs 6 0, seventhObstacleState.obs 6 1) = (6, -8) ∧
    (seventhObstacleState.pos_x, seventhObstacleState.pos_z) = (6, -8) ∧
    (6, -8) ∈ drawnObstacles seventhObstacleState ∧
    fallorcollide seventhObstacleState = 0 ∧
    seventhObstacleState.lives = 4 ∧
    (draw seventhObstacleState).lives = 4 ∧
    ((draw seventhObstacleState).pos_x, (draw seventhObstacleState).pos_z) = (6, -8) := by
  decide

/-- C8 as stated fails: with the active avatar (`appear = 1`) on the obstacle
cell `(2, 2)` the collision check finds a match and the frame decrements
lives, but appear is still 1 after the frame. -/
theorem draw_collision_counterexample :
    (firstObstacleState.pos_x, firstObstacleState.pos_z) =
      (firstObstacleState.obs 0 0, firstObstacleState.obs 0 1) ∧
    fallorcollide firstObstacleState = 1 ∧
    firstObstacleState.appear = 1 ∧
    (draw firstObstacleState).lives = firstObstacleState.lives - 1 ∧
    (draw firstObstacleState).appear = 1 ∧
    (draw firstObstacleState).appear ≠ 0 := by
  decide

/-- C8, amended: in every frame in which the collision check finds an exact
match of the avatar position with one of the hole entries `arr[0..8]` or one
of the obstacle entries `obs[0..5]`, the avatar is moved to the cell
`(-10, -10)`, lives is decremented by 1 and appear is left unchanged. -/
theorem draw_collision_response (g : Maze)
    (hmatch : (∃ i, i < 9 ∧ g.pos_x = g.arr i 0 ∧ g.pos_z = g.arr i 1) ∨
      (∃ i, i < 6 ∧ g.pos_x = g.obs i 0 ∧ g.pos_z = g.obs i 1)) :
    (draw g).pos_x = -10 ∧ (draw g).pos_z = -10 ∧ (draw g).lives = g.lives - 1 ∧
    (draw g).appear = g.appear := by
  have h : fallorcollide g = 1 := fallorcollide_match g hmatch
  simp [draw, h]

/-- C8 amended, at a concrete frame: the avatar on the obstacle cell `(2, 2)`. -/
theorem draw_collision_response_witness :
    (draw firstObstacleState).pos_x = -10 ∧ (draw firstObstacleState).pos_z = -10 ∧
    (draw firstObstacleState).lives = firstObstacleState.lives - 1 ∧
    (draw firstObstacleState).appear = firstObstacleState.appear :=
  draw_collision_response firstObstacleState (Or.inr ⟨0, by decide, by decide, by decide⟩)

end Assignment22

/-! ## The geometry registry -/

namespace Geometry

/-- One iteration of the colour loop keeps the length of the array. -/
theorem length_colorStep (red green blue : ℚ) (l : List ℚ) (i : Nat) :
    (colorStep red green blue l i).length = l.length := by
  simp [colorStep]

/-- The entries of the array after iteration `k` of the colour loop. -/
theorem getElem?_colorStep (red green blue : ℚ) (l : List ℚ) (k j : Nat)
    (hk : 3 * k + 2 < l.length) :
    (colorStep red green blue l k)[j]? =
      (if j = 3 * k then some red else if j = 3 * k + 1 then some green
        else if j = 3 * k + 2 then some blue else l[j]?) := by
  unfold colorStep
  simp only [List.getElem?_set, List.length_set]
  by_cases h0 : j = 3 * k
  · subst h0
    have h1 : 3 * k < l.length := by omega
    simp [h1]
  · by_cases h1 : j = 3 * k + 1
    · subst h1
      have h2 : 3 * k + 1 < l.length := by omega
      simp [h2]
    · by_cases h2 : j = 3 * k + 2
      · subst h2
        simp [hk]
      · have e0 : ¬ 3 * k = j := fun h => h0 h.symm
        have e1 : ¬ 3 * k + 1 = j := fun h => h1 h.symm
        have e2 : ¬ 3 * k + 2 = j := fun h => h2 h.symm
        simp [h0, h1, h2, e0, e1, e2]

/-- The invariant of the colour loop: after `k` iterations the array still has
`3 * n` entries and the first `k` vertices carry the colour. -/
theorem colorLoop_invariant (heap : Nat → ℚ) (n : Nat) (red green blue : ℚ) (k : Nat)
    (hk : k ≤ n) :
    ((List.range k).foldl (colorStep red green blue) (newArray heap n)).length = 3 * n ∧
    ∀ i, i < k →
      ((List.range k).foldl (colorStep red green blue) (newArray heap n))[3 * i]? = some red ∧
      ((List.range k).foldl (colorStep red green blue) (newArray heap n))[3 * i + 1]? =
        some green ∧
      ((List.range k).foldl (colorStep red green blue) (newArray heap n))[3 * i + 2]? =
        some blue := by
  induction k with
  | zero =>
    refine ⟨by simp [newArray], fun i hi => absurd hi (Nat.not_lt_zero i)⟩
  | succ k ih =>
    obtain ⟨hlen, hent⟩ := ih (Nat.le_of_succ_le hk)
    rw [List.range_succ, List.foldl_append, List.foldl_cons, List.foldl_nil]
    have hb : 3 * k + 2 < ((List.range k).foldl (colorStep red green blue)
        (newArray heap n)).length := by omega
    refine ⟨by rw [length_colorStep, hlen], fun i hi => ?_⟩
    rw [getElem?_colorStep _ _ _ _ _ _ hb, getElem?_colorStep _ _ _ _ _ _ hb,
      getElem?_colorStep _ _ _ _ _ _ hb]
    by_cases hik : i = k
    · subst hik
      simp
    · have hlt : i < k := by omega
      obtain ⟨h0, h1, h2⟩ := hent i hlt
      have a0 : ¬ 3 * i = 3 * k := by omega
      have a1 : ¬ 3 * i = 3 * k + 1 := by omega
      have a2 : ¬ 3 * i = 3 * k + 2 := by omega
      have b0 : ¬ 3 * i + 1 = 3 * k := by omega
      have b1 : ¬ 3 * i + 1 = 3 * k + 1 := by omega
      have b2 : ¬ 3 * i + 1 = 3 * k + 2 := by omega
      have c0 : ¬ 3 * i + 2 = 3 * k := by omega
      have c1 : ¬ 3 * i + 2 = 3 * k + 1 := by omega
      have c2 : ¬ 3 * i + 2 = 3 * k + 2 := by omega
      simp only [a0, a1, a2, b0, b1, b2, c0, c1, c2, if_false, h0, h1, h2, and_self]

/-- While the index `3*k + 2` stays in the range of `int`, the passes of the
colour loop are the plain array writes. -/
theorem foldl_colorPass (red green blue : ℚ) (l : List ℚ) (k : Nat)
    (hk : 3 * (k : Int) ≤ INT_MAX) :
    (List.range k).foldl (colorPass red green blue) (some l) =
      some ((List.range k).foldl (colorStep red green blue) l) := by
  induction k with
  | zero => rfl
  | succ k ih =>
    have hk1 : 3 * (k : Int) ≤ INT_MAX := by
      have h : ((k + 1 : Nat) : Int) = (k : Int) + 1 := by push_cast; rfl
      rw [h] at hk
      omega
    have hidx : ¬ INT_MAX < 3 * (k : Int) + 2 := by
      have h : ((k + 1 : Nat) : Int) = (k : Int) + 1 := by push_cast; rfl
      rw [h] at hk
      omega
    rw [List.range_succ, List.foldl_append, List.foldl_cons, List.foldl_nil, ih hk1,
      List.foldl_append, List.foldl_cons, List.foldl_nil]
    simp only [colorPass, if_neg hidx]

/-- The single-colour overload at a vertex count whose triple is an `int`. -/
theorem colorArray_eq (heap : Nat → ℚ) (n : Int) (red green blue : ℚ) (hn : 0 ≤ n)
    (hmax : 3 * n ≤ INT_MAX) :
    colorArray heap n red green blue =
      some ((List.range n.toNat).foldl (colorStep red green blue) (newArray heap n.toNat)) := by
  have hg : ¬ (n < 0 ∨ INT_MAX < 3 * n) := by
    rintro (h | h)
    · exact absurd hn (not_le.2 h)
    · exact absurd hmax (not_le.2 h)
  unfold colorArray
  rw [if_neg hg]
  apply foldl_colorPass
  rw [Int.toNat_of_nonneg hn]
  exact hmax

/-- C9 as stated fails at the vertex count `715827883`: the size
`3 * 715827883 = 2147483649` of the colour array is not an `int`, no array of
`3 * n` scalars is built and the overload returns no object, whatever the
positions are. -/
theorem create3DObject_broadcast_counterexample :
    (0 : Int) ≤ 715827883 ∧
    colorArray (fun _ => 0) 715827883 1 (1 / 2) 0 = none ∧
    (∀ vertex_buffer_data : List ℚ,
      create3DObjectCommon ⟨1, 2, 3⟩ (fun _ => 0) GL_TRIANGLES 715827883 vertex_buffer_data
        1 (1 / 2) 0 GL_FILL = none) := by
  have hg : (715827883 : Int) < 0 ∨ INT_MAX < 3 * 715827883 := Or.inr (by decide)
  have hc : colorArray (fun _ => 0) 715827883 1 (1 / 2) 0 = none := by
    unfold colorArray
    rw [if_pos hg]
  refine ⟨by decide, hc, fun vertex_buffer_data => ?_⟩
  unfold create3DObjectCommon
  rw [hc]

/-- C9, with the bound that the `int` size of the array needs: for every
vertex count `n` with `0 <= n` and `3 * n <= INT_MAX` (that is,
`n <= 715827882`) and colour `(red, green, blue)`, the single-colour overload
of `create3DObject` builds a colour array of exactly `3 * n` scalars whose
entries `3i`, `3i+1`, `3i+2` are `red`, `green`, `blue` for every `i < n`,
whatever the allocation held before, and its result is the result of the
per-vertex overload called with that array and the same topology, vertex
count, positions and fill mode. -/
theorem create3DObject_broadcast (names : Names) (heap : Nat → ℚ) (primitive_mode : Nat)
    (n : Int) (vertex_buffer_data : List ℚ) (red green blue : ℚ) (fill_mode : Nat)
    (hn : 0 ≤ n) (hmax : 3 * n ≤ INT_MAX) :
    ∃ color_buffer_data : List ℚ,
      colorArray heap n red green blue = some color_buffer_data ∧
      color_buffer_data.length = 3 * n.toNat ∧
      (∀ i, i < n.toNat →
        color_buffer_data[3 * i]? = some red ∧
        color_buffer_data[3 * i + 1]? = some green ∧
        color_buffer_data[3 * i + 2]? = some blue) ∧
      create3DObjectCommon names heap primitive_mode n vertex_buffer_data red green blue
          fill_mode =
        create3DObject names primitive_mode n vertex_buffer_data color_buffer_data
          fill_mode := by
  obtain ⟨hlen, hent⟩ := colorLoop_invariant heap n.toNat red green blue n.toNat (Nat.le_refl _)
  have hc := colorArray_eq heap n red green blue hn hmax
  refine ⟨_, hc, hlen, hent, ?_⟩
  unfold create3DObjectCommon
  rw [hc]

/-- C9, at a concrete call: two vertices in the colour `(1, 1/2, 0)`, with an
allocation that held the values `7, 8, 9, ...`; the colour array is
`[1, 1/2, 0, 1, 1/2, 0]` and the object is the one the per-vertex overload
returns for it. -/
theorem create3DObject_broadcast_witness :
    colorArray (fun j => (j : ℚ) + 7) 2 1 (1 / 2) 0 = some [1, 1 / 2, 0, 1, 1 / 2, 0] ∧
    create3DObjectCommon ⟨1, 2, 3⟩ (fun j => (j : ℚ) + 7) GL_TRIANGLES 2
        [0, 0, 0, 1, 1, 0] 1 (1 / 2) 0 GL_FILL =
      create3DObject ⟨1, 2, 3⟩ GL_TRIANGLES 2 [0, 0, 0, 1, 1, 0]
        [1, 1 / 2, 0, 1, 1 / 2, 0] GL_FILL := by
  obtain ⟨c, hc, _, _, heq⟩ := create3DObject_broadcast ⟨1, 2, 3⟩ (fun j => (j : ℚ) + 7)
    GL_TRIANGLES 2 [0, 0, 0, 1, 1, 0] 1 (1 / 2) 0 GL_FILL (by decide) (by decide)
  have hc2 : colorArray (fun j => (j : ℚ) + 7) 2 1 (1 / 2) 0 =
      some [1, 1 / 2, 0, 1, 1 / 2, 0] := by
    rw [colorArray_eq _ _ _ _ _ (by decide) (by decide)]
    simp [newArray, colorStep, List.range_succ]
  have hcc : c = [1, 1 / 2, 0, 1, 1 / 2, 0] := by
    rw [hc2] at hc
    exact (Option.some.inj hc).symm
  subst hcc
  exact ⟨hc2, heq⟩

end Geometry

/-! ## The drawables created at start-up -/

namespace Assignment1

set_option maxRecDepth 4000 in
/-- C10 fails at the rectangle of Assignment-1: the arrays of the bullet and
the canon of Assignment-1 and of the triangle and the rectangle of
Assignment-2.2 hold `3 * numVertices` scalars, and so does the position array
of the rectangle of Assignment-1, but its colour array holds 15 scalars for
the 6 vertices passed to `create3DObject`, so the colour upload of 18 scalars
reads past the end of the array. -/
theorem createRectangle_color_array_short (T : Trig) (names : Geometry.Names) :
    (3 * 78 ≤ (bulletVertexData T).length ∧ 3 * 78 ≤ (bulletColorData T).length) ∧
    (3 * 84 ≤ (canonVertexData T).length ∧ 3 * 84 ≤ canonColorData.length) ∧
    (3 * 36 ≤ Assignment22.triangleVertexData.length ∧
      3 * 36 ≤ Assignment22.triangleColorData.length) ∧
    (3 * 6 ≤ Assignment22.rectangleVertexData.length ∧
      3 * 6 ≤ Assignment22.rectangleColorData.length) ∧
    3 * 6 ≤ rectangleVertexData.length ∧
    rectangleColorData.length = 15 ∧
    ¬ (3 * 6 ≤ rectangleColorData.length) ∧
    Geometry.glBufferData (3 * 6) rectangleColorData = none ∧
    createRectangle names = none := by
  refine ⟨⟨?_, ?_⟩, ⟨?_, ?_⟩, ⟨?_, ?_⟩, ⟨?_, ?_⟩, ?_, ?_, ?_, ?_, ?_⟩
  · exact Nat.le_of_eq (rfl : 234 = (bulletVertexData T).length)
  · exact Nat.le_of_eq (rfl : 234 = (bulletColorData T).length)
  · exact Nat.le_of_eq (rfl : 252 = (canonVertexData T).length)
  · exact Nat.le_of_eq (rfl : 252 = canonColorData.length)
  · simp [Assignment22.triangleVertexData]
  · simp [Assignment22.triangleColorData]
  · simp [Assignment22.rectangleVertexData]
  · simp [Assignment22.rectangleColorData]
  · simp [rectangleVertexData]
  · simp [rectangleColorData]
  · simp [rectangleColorData]
  · simp [Geometry.glBufferData, rectangleColorData]
  · simp [createRectangle, Geometry.create3DObject, Geometry.glBufferData,
      rectangleVertexData, rectangleColorData]

end Assignment1

/-! ## The 2D game: integration, reflection and the bounce ceiling -/

namespace Assignment1

/-- C11: in every integration frame (`use != 0`, `flag != 0`) the position
advances by the fixed step 0.01, `position_x' = position_x + 0.01 * velocity_x`
and `position_y' = position_y + 0.01 * (velocity_y + 5 - 10 * time_travelled)`,
and velocity_x is unchanged by the frame unless the right-bound reflection
fires in it, that is unless the integrated position is above the floor bound
and past the right bound, in which case velocity_x becomes
`-0.5 * velocity_x` (exact arithmetic). -/
theorem draw_integration_step (T : Trig) (g : Game) (huse : g.use ≠ 0)
    (hflag : g.flag ≠ 0) :
    (draw T g).position_x = g.position_x + 1 / 100 * g.velocity_x ∧
    (draw T g).position_y =
      g.position_y + 1 / 100 * (g.velocity_y + 5 - 10 * g.time_travelled) ∧
    ((draw T g).velocity_x = g.velocity_x ∨
      (¬ (g.position_y + 1 / 100 * (g.velocity_y + 5 - 10 * g.time_travelled) ≤
          -(3 / 10 + T.sinDeg g.canon_rotation)) ∧
        g.position_x + 1 / 100 * g.velocity_x ≥ 8 - T.cosDeg g.canon_rotation ∧
        (draw T g).velocity_x = -(1 / 2) * g.velocity_x)) := by
  obtain ⟨hx, hy, -⟩ := draw_coin T g huse hflag
  obtain ⟨-, -, -, -, -, -, hvx, -⟩ := coinsInit_fields g
  refine ⟨hx, hy, ?_⟩
  rw [draw_integration T g huse hflag]
  by_cases hf : floorTest T (integrate (coinsInit g))
  · obtain ⟨-, -, -, -, h5, -⟩ := bounceOrReflect_floor T _ hf
    left
    simp only [h5]
    simp [integrate, hvx]
  · obtain ⟨-, -, -, -, h5, -⟩ := bounceOrReflect_noFloor T _ hf
    by_cases hw : wallTest T (integrate (coinsInit g))
    · right
      refine ⟨fun h => hf ((floorTest_integrate T g).2 h), (wallTest_integrate T g).1 hw, ?_⟩
      simp only [h5, if_pos hw]
      simp [integrate, hvx]
    · left
      simp only [h5, if_neg hw]
      simp [integrate, hvx]

/-- C11, at a concrete frame: the falling state moves from `(0, -2)` to
`(0, -193/100)` and keeps its velocity_x. -/
theorem draw_integration_step_witness :
    (draw axisTrig (fallingState 0)).position_x = 0 ∧
    (draw axisTrig (fallingState 0)).position_y = -(193 / 100) ∧
    (draw axisTrig (fallingState 0)).velocity_x = 0 := by
  obtain ⟨hx, hy, hv⟩ := draw_integration_step axisTrig (fallingState 0)
    (by norm_num [fallingState]) (by norm_num [fallingState])
  refine ⟨?_, ?_, ?_⟩
  · rw [hx]; norm_num [fallingState]
  · rw [hy]; norm_num [fallingState]
  · rcases hv with h | ⟨-, -, h⟩
    · rw [h]; rfl
    · rw [h]; norm_num [fallingState]

/-- The variables of the bounce rule after a floor-crossing integration frame,
in terms of the state on entry. -/
theorem draw_floor_frame (T : Trig) (g : Game) (huse : g.use ≠ 0) (hflag : g.flag ≠ 0)
    (hfloor : g.position_y + 1 / 100 * (g.velocity_y + 5 - 10 * g.time_travelled) ≤
      -(3 / 10 + T.sinDeg g.canon_rotation)) :
    (draw T g).velocity_y = (if g.bounce < 5 then 1 / 2 * g.velocity_y else g.velocity_y) ∧
    (draw T g).bounce = (if g.bounce < 5 then g.bounce + 1 else g.bounce) ∧
    (draw T g).use = (if g.bounce < 4 then g.use else 0) := by
  have hf := (floorTest_integrate T g).2 hfloor
  obtain ⟨-, -, -, -, -, hu, -, hvy, -, -, hbo⟩ := coinsInit_fields g
  obtain ⟨h1, h2, -, h4, -⟩ := bounceOrReflect_floor T _ hf
  rw [draw_integration T g huse hflag]
  simp only [h1, h2, h4]
  simp only [integrate, hvy, hbo, hu, and_self]

/-- C17: in every floor-crossing integration frame the projectile is active
after the frame if and only if the bounce count on entry was below 4; entered
with a bounce count of 4 the frame halves velocity_y, sets bounce to 5 and
sets use to 0, so the projectile is deactivated in the very frame in which
its bounce count reaches 5. -/
theorem draw_ceiling_deactivation (T : Trig) (g : Game) (huse : g.use ≠ 0)
    (hflag : g.flag ≠ 0)
    (hfloor : g.position_y + 1 / 100 * (g.velocity_y + 5 - 10 * g.time_travelled) ≤
      -(3 / 10 + T.sinDeg g.canon_rotation)) :
    ((draw T g).use ≠ 0 ↔ g.bounce < 4) ∧
    (g.bounce = 4 →
      (draw T g).velocity_y = 1 / 2 * g.velocity_y ∧ (draw T g).bounce = 5 ∧
      (draw T g).use = 0) := by
  obtain ⟨hv, hb, hu⟩ := draw_floor_frame T g huse hflag hfloor
  constructor
  · rw [hu]
    by_cases h4 : g.bounce < 4
    · simp [h4, huse]
    · simp [h4]
  · intro h4
    rw [hv, hb, hu, h4]
    simp

/-- C17, at a concrete frame: the falling state entered with four bounces
leaves the frame inactive, with five bounces and velocity_y halved from 7. -/
theorem draw_ceiling_deactivation_witness :
    (draw axisTrig lastBounceState).velocity_y = 7 / 2 ∧
    (draw axisTrig lastBounceState).bounce = 5 ∧
    (draw axisTrig lastBounceState).use = 0 := by
  obtain ⟨-, h⟩ := draw_ceiling_deactivation axisTrig lastBounceState
    (by norm_num [lastBounceState, fallingState])
    (by norm_num [lastBounceState, fallingState])
    (by norm_num [lastBounceState, fallingState, axisTrig])
  obtain ⟨hv, hb, hu⟩ := h rfl
  refine ⟨?_, hb, hu⟩
  rw [hv]
  norm_num [lastBounceState, fallingState]

end Assignment1

/-! ## The 2D game: runs of the main loop -/

namespace Assignment1

/-- A frame with no active projectile only runs the coin initialisation. -/
theorem draw_inactive (T : Trig) (g : Game) (huse : g.use = 0) : draw T g = coinsInit g := by
  obtain ⟨-, -, -, -, -, hu, -⟩ := coinsInit_fields g
  unfold draw
  simp only [hu, huse, ne_eq, not_true_eq_false, if_false]

/-- The launch frame, written out: what `draw` returns when the projectile is
active and `flag` is 0. -/
theorem draw_launch (T : Trig) (g : Game) (huse : g.use ≠ 0) (hflag : g.flag = 0) :
    draw T g =
      { initlz T (coinsInit g) with
        trnsfrm := translateBullet T (initlz T (coinsInit g))
        position_x := 0
        position_y := 0
        flag := 1 } := by
  obtain ⟨-, -, -, -, hf, hu, -⟩ := coinsInit_fields g
  unfold draw
  simp only [hf, hu, ne_eq, huse, hflag, not_false_eq_true, if_true]

/-- The `if (floor) ... else if (right bound) ...` statement writes none of
`flag`, `num_appear`, `canon_rotation`, `amm_amount` and `trnsfrm`. -/
theorem bounceOrReflect_rest (T : Trig) (g : Game) :
    (bounceOrReflect T g).flag = g.flag ∧
    (bounceOrReflect T g).num_appear = g.num_appear ∧
    (bounceOrReflect T g).canon_rotation = g.canon_rotation ∧
    (bounceOrReflect T g).amm_amount = g.amm_amount ∧
    (bounceOrReflect T g).trnsfrm = g.trnsfrm := by
  unfold bounceOrReflect
  dsimp only
  split_ifs <;> simp

/-- A key callback of `keyboard` writes neither the coins nor `num_appear`,
and leaves `time_travelled` at 0 whenever it leaves `flag` at 0. -/
theorem keyboard_keeps (T : Trig) (k : Key) (a : Action) (g g1 : Game)
    (h : keyboard T k a g = some g1) :
    g1.coin = g.coin ∧ g1.num_appear = g.num_appear ∧
    ((g.flag = 0 → g.time_travelled = 0) → g1.flag = 0 → g1.time_travelled = 0) := by
  cases a <;> cases k <;> simp only [keyboard, Option.some.injEq] at h <;>
    first
    | (subst h; exact ⟨rfl, rfl, fun h => h⟩)
    | (split at h <;> subst h <;> simp [initlz])
    | exact absurd h (by simp)

/-- A frame keeps the two facts that hold after the first frame: `num_appear`
is 1, and `time_travelled` is 0 while `flag` is 0. -/
theorem draw_keeps_started (T : Trig) (g : Game) (hn : g.num_appear = 1)
    (ht : g.flag = 0 → g.time_travelled = 0) :
    (draw T g).num_appear = 1 ∧ ((draw T g).flag = 0 → (draw T g).time_travelled = 0) := by
  have hc : coinsInit g = g := coinsInit_started g (by rw [hn]; decide)
  by_cases huse : g.use = 0
  · rw [draw_inactive T g huse, hc]
    exact ⟨hn, ht⟩
  · by_cases hflag : g.flag = 0
    · rw [draw_launch T g huse hflag, hc]
      refine ⟨hn, fun h => ?_⟩
      exact absurd h (by norm_num)
    · rw [draw_integration T g huse hflag, hc]
      obtain ⟨h1, h2, -⟩ := bounceOrReflect_rest T (integrate g)
      refine ⟨?_, fun h => ?_⟩
      · show (bounceOrReflect T (integrate g)).num_appear = 1
        rw [h2]
        exact hn
      · have h3 : (bounceOrReflect T (integrate g)).flag = 0 := h
        rw [h1] at h3
        exact absurd h3 hflag

/-- After the first frame the coins have been placed (`num_appear = 1`, so the
coin initialisation of `draw` never runs again) and `time_travelled` is 0
whenever `flag` is 0. -/
theorem Reachable.started (T : Trig) (g : Game) (h : Reachable T g) :
    g.num_appear = 1 ∧ (g.flag = 0 → g.time_travelled = 0) := by
  induction h with
  | first =>
    have h0 : (Game.initial T).use = 0 := rfl
    rw [draw_inactive T _ h0]
    exact ⟨by simp [coinsInit, Game.initial], fun _ => by simp [coinsInit, Game.initial]⟩
  | next e g g1 _ hstep ih =>
    obtain ⟨hn, ht⟩ := ih
    cases e with
    | frame =>
      simp only [step, Option.some.injEq] at hstep
      subst hstep
      exact draw_keeps_started T g hn ht
    | key k a =>
      obtain ⟨-, h2, h3⟩ := keyboard_keeps T k a g g1 hstep
      exact ⟨by rw [h2, hn], h3 ht⟩
    | char c =>
      simp only [step, keyboardChar] at hstep
      split at hstep
      · exact absurd hstep (by simp)
      · simp only [Option.some.injEq] at hstep
        subst hstep
        exact ⟨hn, ht⟩

/-- The states reached by a run from a state after the first frame are states
after the first frame. -/
theorem Reachable.run (T : Trig) (es : List Event) (g g1 : Game) (h : Reachable T g)
    (hrun : run T es g = some g1) : Reachable T g1 := by
  induction es generalizing g with
  | nil =>
    simp only [Assignment1.run, Option.some.injEq] at hrun
    subst hrun
    exact h
  | cons e es ih =>
    simp only [Assignment1.run] at hrun
    cases hs : step T e g with
    | none => rw [hs] at hrun; exact absurd hrun (by simp)
    | some g2 =>
      rw [hs] at hrun
      exact ih g2 (Reachable.next e g g2 h hs) hrun

/-- The state after the first frame and one press of N is a state of the main
loop. -/
theorem firedState_reachable : Reachable axisTrig firedState := by
  refine Reachable.next (Event.key Key.GLFW_KEY_N Action.GLFW_PRESS) _ _ Reachable.first ?_
  have h0 : (Game.initial axisTrig).use = 0 := rfl
  have ha : (draw axisTrig (Game.initial axisTrig)).amm_amount = 4 := by
    rw [draw_inactive _ _ h0, (coinsInit_fields _).2.2.1]
    rfl
  simp only [step, keyboard, ha, firedState]
  norm_num

/-- The cannon angle, the ammo and the coins after the first frame and one
press of N. -/
theorem firedState_fields :
    firedState.canon_rotation = 90 ∧ firedState.amm_amount = 3 ∧
    firedState.coin = ![⟨3, 3, 1⟩, ⟨4, 1, 1⟩, ⟨2, 4, 1⟩, ⟨2, 2, 1⟩] := by
  have h0 : (Game.initial axisTrig).use = 0 := rfl
  have hd := draw_inactive axisTrig _ h0
  refine ⟨?_, rfl, ?_⟩
  · show (draw axisTrig (Game.initial axisTrig)).canon_rotation = 90
    rw [hd, (coinsInit_fields _).1]
    rfl
  · show (draw axisTrig (Game.initial axisTrig)).coin = _
    rw [hd]
    simp [coinsInit, Game.initial, coins.set_coins]

/-- C18: in every frame entered, after the first frame of the run, with the
projectile active and `flag = 0`, `draw` sets the velocity to
`(7*cos(t), 7*sin(t))` and `trnsfrm` to the launch offset for the cannon's
rotation angle `t` at that frame, sets bounce to 0, the position to `(0, 0)`
and `flag` to 1, and changes nothing else: the position is not integrated,
`use` is not cleared, the coins, the ammo and `time_travelled`, which is 0 on
entry, are as before the frame. -/
theorem draw_launch_frame (T : Trig) (g : Game) (hr : Reachable T g) (huse : g.use ≠ 0)
    (hflag : g.flag = 0) :
    draw T g =
      { g with
        trnsfrm := (-4 + float_1_2 * T.cosDeg g.canon_rotation,
          -4 + float_1_2 * T.sinDeg g.canon_rotation)
        velocity_x := 7 * T.cosDeg g.canon_rotation
        velocity_y := 7 * T.sinDeg g.canon_rotation
        bounce := 0
        position_x := 0
        position_y := 0
        flag := 1 } ∧
    g.time_travelled = 0 ∧ (draw T g).time_travelled = 0 ∧
    (draw T g).coin = g.coin ∧ (draw T g).amm_amount = g.amm_amount ∧
    (draw T g).use = g.use := by
  obtain ⟨hn, ht⟩ := Reachable.started T g hr
  have ht0 : g.time_travelled = 0 := ht hflag
  have hc : coinsInit g = g := coinsInit_started g (by rw [hn]; decide)
  have hd : draw T g =
      { g with
        trnsfrm := (-4 + float_1_2 * T.cosDeg g.canon_rotation,
          -4 + float_1_2 * T.sinDeg g.canon_rotation)
        velocity_x := 7 * T.cosDeg g.canon_rotation
        velocity_y := 7 * T.sinDeg g.canon_rotation
        bounce := 0
        position_x := 0
        position_y := 0
        flag := 1 } := by
    rw [draw_launch T g huse hflag, hc]
    simp only [initlz, translateBullet, ht0]
  refine ⟨hd, ht0, ?_, ?_, ?_, ?_⟩ <;> rw [hd]
  exact ht0

/-- C18, at a concrete frame: the frame after the first press of N, at angle
90, launches with velocity `(0, 7)` from `(0, 0)` and leaves three
projectiles and all four coins visible. -/
theorem draw_launch_frame_witness :
    (draw axisTrig firedState).velocity_x = 0 ∧ (draw axisTrig firedState).velocity_y = 7 ∧
    (draw axisTrig firedState).position_x = 0 ∧ (draw axisTrig firedState).position_y = 0 ∧
    (draw axisTrig firedState).flag = 1 ∧ (draw axisTrig firedState).time_travelled = 0 ∧
    (draw axisTrig firedState).amm_amount = 3 ∧
    (draw axisTrig firedState).coin = firedState.coin := by
  obtain ⟨hd, -, ht, hc, ha, -⟩ := draw_launch_frame axisTrig firedState firedState_reachable
    (by norm_num [firedState, initlz]) (by norm_num [firedState, initlz])
  refine ⟨?_, ?_, ?_, ?_, ?_, ht, ?_, hc⟩
  · rw [hd]; norm_num [firedState_fields.1, axisTrig]
  · rw [hd]; norm_num [firedState_fields.1, axisTrig]
  · rw [hd]
  · rw [hd]
  · rw [hd]
  · rw [ha]; rfl

/-- The state after the first frame and one press of N, written out. -/
theorem firedState_eq :
    firedState =
      { canon_rotation := 90, trnsfrm := (0, 0), amm_amount := 3, num_appear := 1,
        time_travelled := 0, flag := 0, use := 1, velocity_x := 0, velocity_y := 7,
        position_x := 0, position_y := 0, bounce := 0,
        coin := ![⟨3, 3, 1⟩, ⟨4, 1, 1⟩, ⟨2, 4, 1⟩, ⟨2, 2, 1⟩] } := by
  have h0 : (Game.initial axisTrig).use = 0 := rfl
  unfold firedState
  rw [draw_inactive axisTrig _ h0]
  simp [coinsInit, Game.initial, initlz, axisTrig, coins.set_coins]

/-- The launch frame at angle 90 starts the vertical flight at `(0, 0)`. -/
theorem draw_firedState : draw axisTrig firedState = verticalFlight 0 0 1 := by
  rw [draw_launch axisTrig firedState (by rw [firedState_eq]; norm_num)
    (by rw [firedState_eq])]
  rw [firedState_eq]
  simp [coinsInit, initlz, translateBullet, axisTrig, verticalFlight]

/-- An integration frame of the vertical flight that stays above the floor
bound and below the height 1.4: the projectile rises by the integration step
and only the coin at `(4, 1)` can be hit, when the new height is at least
0.6. -/
theorem draw_verticalFlight (py t : ℚ) (a1 : Int)
    (h1 : -(13 / 10) < py + 1 / 100 * (12 - 10 * t))
    (h2 : py + 1 / 100 * (12 - 10 * t) ≤ 7 / 5) :
    draw axisTrig (verticalFlight py t a1) =
      verticalFlight (py + 1 / 100 * (12 - 10 * t)) (t + 1 / 100)
        (if 3 / 5 ≤ py + 1 / 100 * (12 - 10 * t) then 0 else a1) := by
  have hc : coinsInit (verticalFlight py t a1) = verticalFlight py t a1 :=
    coinsInit_started _ (by simp [verticalFlight])
  have hi : integrate (verticalFlight py t a1) =
      verticalFlight (py + 1 / 100 * (12 - 10 * t)) t a1 := by
    simp [integrate, verticalFlight]
    norm_num
  have hf : ¬ floorTest axisTrig (verticalFlight (py + 1 / 100 * (12 - 10 * t)) t a1) := by
    simp only [floorTest, verticalFlight, axisTrig]
    norm_num
    linarith
  have hw : ¬ wallTest axisTrig (verticalFlight (py + 1 / 100 * (12 - 10 * t)) t a1) := by
    simp only [wallTest, verticalFlight, axisTrig]
    norm_num
  have hb : bounceOrReflect axisTrig (verticalFlight (py + 1 / 100 * (12 - 10 * t)) t a1) =
      verticalFlight (py + 1 / 100 * (12 - 10 * t)) t a1 := by
    unfold bounceOrReflect
    rw [if_neg hf, if_neg hw]
  rw [draw_integration axisTrig _ (by simp [verticalFlight]) (by simp [verticalFlight]), hc, hi, hb]
  clear hc hi hf hw hb
  generalize py + 1 / 100 * (12 - 10 * t) = q at *
  simp only [verticalFlight, Game.mk.injEq, true_and, and_true]
  funext i
  rw [dist_apply]
  fin_cases i
  · have hn : ¬ hit 0 q ⟨3, 3, 1⟩ := by
      simp only [hit, abs_le, not_or, not_and, not_le]
      norm_num
      intro _
      linarith
    show (if hit 0 q ⟨3, 3, 1⟩ then _ else _) = _
    rw [if_neg hn]
    rfl
  · show (if hit 0 q ⟨4, 1, a1⟩ then _ else _) = (⟨4, 1, if 3 / 5 ≤ q then 0 else a1⟩ : coins)
    by_cases h3 : 3 / 5 ≤ q
    · have hy : hit 0 q ⟨4, 1, a1⟩ := by
        simp only [hit, abs_le]
        right
        norm_num
        constructor <;> linarith
      rw [if_pos hy, if_pos h3]
      rfl
    · have hn : ¬ hit 0 q ⟨4, 1, a1⟩ := by
        simp only [hit, abs_le, not_or, not_and, not_le]
        norm_num
        intro h
        linarith
      rw [if_neg hn, if_neg h3]
      rfl
  · have hn : ¬ hit 0 q ⟨2, 4, 1⟩ := by
      simp only [hit, abs_le, not_or, not_and, not_le]
      norm_num
      intro _
      linarith
    show (if hit 0 q ⟨2, 4, 1⟩ then _ else _) = _
    rw [if_neg hn]
    rfl
  · have hn : ¬ hit 0 q ⟨2, 2, 1⟩ := by
      simp only [hit, abs_le, not_or, not_and, not_le]
      norm_num
      intro _
      linarith
    show (if hit 0 q ⟨2, 2, 1⟩ then _ else _) = _
    rw [if_neg hn]
    rfl

/-- Six integration frames after the launch at angle 90 the coin at `(4, 1)`
has been hit. -/
theorem coinHitState_reachable : Reachable axisTrig coinHitState := by
  have r0 : Reachable axisTrig (verticalFlight 0 0 1) :=
    Reachable.next Event.frame _ _ firedState_reachable
      (by rw [step, draw_firedState])
  have e1 : draw axisTrig (verticalFlight 0 0 1) = verticalFlight (3 / 25) (1 / 100) 1 := by
    rw [draw_verticalFlight _ _ _ (by norm_num) (by norm_num)]
    norm_num
  have e2 : draw axisTrig (verticalFlight (3 / 25) (1 / 100) 1) =
      verticalFlight (239 / 1000) (1 / 50) 1 := by
    rw [draw_verticalFlight _ _ _ (by norm_num) (by norm_num)]
    norm_num
  have e3 : draw axisTrig (verticalFlight (239 / 1000) (1 / 50) 1) =
      verticalFlight (357 / 1000) (3 / 100) 1 := by
    rw [draw_verticalFlight _ _ _ (by norm_num) (by norm_num)]
    norm_num
  have e4 : draw axisTrig (verticalFlight (357 / 1000) (3 / 100) 1) =
      verticalFlight (237 / 500) (1 / 25) 1 := by
    rw [draw_verticalFlight _ _ _ (by norm_num) (by norm_num)]
    norm_num
  have e5 : draw axisTrig (verticalFlight (237 / 500) (1 / 25) 1) =
      verticalFlight (59 / 100) (1 / 20) 1 := by
    rw [draw_verticalFlight _ _ _ (by norm_num) (by norm_num)]
    norm_num
  have e6 : draw axisTrig (verticalFlight (59 / 100) (1 / 20) 1) =
      verticalFlight (141 / 200) (3 / 50) 0 := by
    rw [draw_verticalFlight _ _ _ (by norm_num) (by norm_num)]
    norm_num
  have r1 := Reachable.next Event.frame _ _ r0 (by rw [step, e1])
  have r2 := Reachable.next Event.frame _ _ r1 (by rw [step, e2])
  have r3 := Reachable.next Event.frame _ _ r2 (by rw [step, e3])
  have r4 := Reachable.next Event.frame _ _ r3 (by rw [step, e4])
  have r5 := Reachable.next Event.frame _ _ r4 (by rw [step, e5])
  exact Reachable.next Event.frame _ _ r5 (by rw [step, e6]; rfl)

/-- One event of the main loop, after the first frame, leaves a deactivated
coin deactivated. -/
theorem step_keeps_deactivated (T : Trig) (e : Event) (g g1 : Game) (hn : g.num_appear = 1)
    (i : Fin 4) (h0 : (g.coin i).appear = 0) (hs : step T e g = some g1) :
    (g1.coin i).appear = 0 := by
  have hc : coinsInit g = g := coinsInit_started g (by rw [hn]; decide)
  cases e with
  | frame =>
    simp only [step, Option.some.injEq] at hs
    subst hs
    by_cases huse : g.use = 0
    · rw [draw_inactive T g huse, hc]
      exact h0
    · by_cases hflag : g.flag = 0
      · rw [draw_launch T g huse hflag, hc]
        exact h0
      · rw [(draw_coin T g huse hflag).2.2, hc, dist_apply]
        split
        · rfl
        · exact h0
  | key k a =>
    rw [(keyboard_keeps T k a g g1 hs).1]
    exact h0
  | char c =>
    simp only [step, keyboardChar] at hs
    split at hs
    · exact absurd hs (by simp)
    · simp only [Option.some.injEq] at hs
      subst hs
      exact h0

/-- C19: in every state after the first frame, a coin whose appear flag is 0
still has it 0 after every later sequence of frames and key events; the
coins are placed exactly once, on the first frame: afterwards `num_appear` is
1 and the coin initialisation of `draw` changes nothing. -/
theorem coins_stay_deactivated (T : Trig) (g : Game) (hr : Reachable T g) (i : Fin 4)
    (h0 : (g.coin i).appear = 0) (es : List Event) (g1 : Game)
    (hrun : run T es g = some g1) :
    (g1.coin i).appear = 0 ∧ g1.num_appear = 1 ∧ coinsInit g1 = g1 := by
  induction es generalizing g with
  | nil =>
    simp only [run, Option.some.injEq] at hrun
    subst hrun
    have hn := (Reachable.started T g hr).1
    exact ⟨h0, hn, coinsInit_started g (by rw [hn]; decide)⟩
  | cons e es ih =>
    simp only [run] at hrun
    cases hs : step T e g with
    | none => rw [hs] at hrun; exact absurd hrun (by simp)
    | some g2 =>
      rw [hs] at hrun
      exact ih g2 (Reachable.next e g g2 hr hs)
        (step_keeps_deactivated T e g g2 (Reachable.started T g hr).1 i h0 hs) hrun

/-- C19, at a concrete run: the coin at `(4, 1)`, hit six frames after the
first launch, is still deactivated after a turn of the cannon, a second shot
and two more frames. -/
theorem coins_stay_deactivated_witness :
    ∃ g1, run axisTrig [Event.key Key.GLFW_KEY_D Action.GLFW_PRESS,
        Event.key Key.GLFW_KEY_N Action.GLFW_PRESS, Event.frame, Event.frame]
        coinHitState = some g1 ∧ (g1.coin 1).appear = 0 := by
  refine ⟨_, rfl, ?_⟩
  exact (coins_stay_deactivated axisTrig coinHitState coinHitState_reachable 1 rfl
    [Event.key Key.GLFW_KEY_D Action.GLFW_PRESS,
      Event.key Key.GLFW_KEY_N Action.GLFW_PRESS, Event.frame, Event.frame] _ rfl).1

end Assignment1

/-! ## The 3D game: the tables, the first frame and the lives counter -/

namespace Assignment22

/-- The hole entries `arr[0..8]` after `missing()` has run on the
zero-initialised table. -/
theorem missing_entries :
    (List.range 9).map (fun i => (missing Table.zero i 0, missing Table.zero i 1)) =
      [(0, 0), (-2, -2), (-4, -4), (-6, -6), (0, 0), (-2, 2), (-4, 4), (-6, 6), (2, -2)] := by
  decide

/-- The obstacle entries `obs[0..5]`, the ones that `fallorcollide()` reads,
after `obstacle()` has run on the zero-initialised table. -/
theorem obstacle_entries :
    (List.range 6).map (fun i => (obstacle Table.zero i 0, obstacle Table.zero i 1)) =
      [(2, 2), (6, 0), (2, -4), (-2, -4), (-6, 8), (8, 10)] := by
  decide

/-- C13: `obstacle()` is the sequence of assignments `obstacleWrites`, in which
`obs[1][0]` is assigned twice (4, then 6) and `obs[1][1]` never, so that
`obs[1][1]` keeps the value it had; after `obstacle()` has run on the
zero-initialised table entry 1 is `(6, 0)` and the other six assigned entries
are `(2,2)`, `(2,-4)`, `(-2,-4)`, `(-6,8)`, `(8,10)` and `(6,-8)`. -/
theorem obstacle_table (t : Table) :
    obstacle t = obstacleWrites.foldl (fun u w => u.set w.1 w.2.1 w.2.2) t ∧
    (obstacleWrites.filter (fun w => w.1 = 1 ∧ w.2.1 = 0)).map (fun w => w.2.2) = [4, 6] ∧
    obstacleWrites.filter (fun w => w.1 = 1 ∧ w.2.1 = 1) = [] ∧
    obstacle t 1 0 = 6 ∧ obstacle t 1 1 = t 1 1 ∧
    (obstacle Table.zero 1 0, obstacle Table.zero 1 1) = (6, 0) ∧
    [0, 2, 3, 4, 5, 6].map (fun i => (obstacle Table.zero i 0, obstacle Table.zero i 1)) =
      [(2, 2), (2, -4), (-2, -4), (-6, 8), (8, 10), (6, -8)] := by
  refine ⟨rfl, by decide, by decide, ?_, ?_, by decide, by decide⟩
  · simp [obstacle, Table.set]
  · simp [obstacle, Table.set]

/-- C20: in the initial state (`pos_x = pos_z = 0`, `appear = 0`, `lives = 4`,
tables filled by `missing()` and `obstacle()`) the cell `(0, 0)` is the hole
entry `arr[0]`, so the first frame reports a collision: after it `lives = 3`
and the position is `(-10, -10)`, with `appear` still 0, no avatar having
been spawned and no key pressed. -/
theorem draw_initial_collision :
    (Maze.initial.pos_x, Maze.initial.pos_z) = (0, 0) ∧ Maze.initial.appear = 0 ∧
    Maze.initial.lives = 4 ∧
    (Maze.initial.arr 0 0, Maze.initial.arr 0 1) = (0, 0) ∧
    fallorcollide Maze.initial = 1 ∧
    (draw Maze.initial).lives = 3 ∧
    ((draw Maze.initial).pos_x, (draw Maze.initial).pos_z) = (-10, -10) ∧
    (draw Maze.initial).appear = 0 := by
  decide

/-- The first loop of `fallorcollide()` finds a match exactly when the avatar
cell is among the entries `arr[0..8]`, the second when it is among
`obs[0..5]`. -/
theorem any_range_iff (t : Table) (n : Nat) (x z : Int) :
    (List.range n).any (fun i => decide (x = t i 0 ∧ z = t i 1)) = true ↔
      (x, z) ∈ (List.range n).map (fun i => (t i 0, t i 1)) := by
  simp only [List.any_eq_true, List.mem_range, decide_eq_true_eq, List.mem_map, Prod.mk.injEq]
  constructor
  · rintro ⟨i, hi, hx, hz⟩
    exact ⟨i, hi, hx.symm, hz.symm⟩
  · rintro ⟨i, hi, hx, hz⟩
    exact ⟨i, hi, hx.symm, hz.symm⟩

/-- The two nested tests of `fallorcollide()`, by cases. -/
theorem collide_cases (A O : Bool) (P Q : Prop) (hA : A = true ↔ P) (hO : O = true ↔ Q) :
    ((if A = true then (1 : Int) else if O = true then 1 else 0) = 1 ↔ P ∨ Q) ∧
    ((if A = true then (1 : Int) else if O = true then 1 else 0) = 0 ↔ ¬ (P ∨ Q)) := by
  rw [← hA, ← hO]
  cases A <;> cases O <;> simp

/-- C16: with the tables filled by `missing()` and `obstacle()`,
`fallorcollide()` returns 1 if and only if `(pos_x, pos_z)` is one of the
cells `(0,0)`, `(-2,-2)`, `(-4,-4)`, `(-6,-6)`, `(-2,2)`, `(-4,4)`, `(-6,6)`,
`(2,-2)`, which are the values of the nine hole entries `arr[0..8]`, or one
of the cells `(2,2)`, `(6,0)`, `(2,-4)`, `(-2,-4)`, `(-6,8)`, `(8,10)`, which
are the values of the six obstacle entries `obs[0..5]`; it returns 0
otherwise, and its result does not depend on `appear` or `lives`. -/
theorem fallorcollide_tables (g : Maze) (harr : g.arr = missing Table.zero)
    (hobs : g.obs = obstacle Table.zero) :
    (fallorcollide g = 1 ↔
      (g.pos_x, g.pos_z) ∈
          [((0 : Int), (0 : Int)), (-2, -2), (-4, -4), (-6, -6), (-2, 2), (-4, 4), (-6, 6),
            (2, -2)] ∨
        (g.pos_x, g.pos_z) ∈
          [((2 : Int), (2 : Int)), (6, 0), (2, -4), (-2, -4), (-6, 8), (8, 10)]) ∧
    (fallorcollide g = 0 ↔
      ¬ ((g.pos_x, g.pos_z) ∈
          [((0 : Int), (0 : Int)), (-2, -2), (-4, -4), (-6, -6), (-2, 2), (-4, 4), (-6, 6),
            (2, -2)] ∨
        (g.pos_x, g.pos_z) ∈
          [((2 : Int), (2 : Int)), (6, 0), (2, -4), (-2, -4), (-6, 8), (8, 10)])) ∧
    (∀ p : Int × Int,
      (∃ i, i < 9 ∧ p = (g.arr i 0, g.arr i 1)) ↔
        p ∈ [((0 : Int), (0 : Int)), (-2, -2), (-4, -4), (-6, -6), (-2, 2), (-4, 4), (-6, 6),
          (2, -2)]) ∧
    (∀ p : Int × Int,
      (∃ i, i < 6 ∧ p = (g.obs i 0, g.obs i 1)) ↔
        p ∈ [((2 : Int), (2 : Int)), (6, 0), (2, -4), (-2, -4), (-6, 8), (8, 10)]) ∧
    (∀ a l : Int, fallorcollide { g with appear := a, lives := l } = fallorcollide g) := by
  have hA := any_range_iff g.arr 9 g.pos_x g.pos_z
  have hO := any_range_iff g.obs 6 g.pos_x g.pos_z
  rw [harr, missing_entries] at hA
  rw [hobs, obstacle_entries] at hO
  have hP : ∀ (t : Table) (n : Nat) (p : Int × Int),
      (∃ i, i < n ∧ p = (t i 0, t i 1)) ↔ p ∈ (List.range n).map (fun i => (t i 0, t i 1)) := by
    intro t n p
    simp only [List.mem_map, List.mem_range]
    constructor
    · rintro ⟨i, hi, hp⟩
      exact ⟨i, hi, hp.symm⟩
    · rintro ⟨i, hi, hp⟩
      exact ⟨i, hi, hp.symm⟩
  have hA3 : ∀ p : Int × Int, p ∈
      [((0 : Int), (0 : Int)), (-2, -2), (-4, -4), (-6, -6), (0, 0), (-2, 2), (-4, 4), (-6, 6),
        (2, -2)] ↔ p ∈
      [((0 : Int), (0 : Int)), (-2, -2), (-4, -4), (-6, -6), (-2, 2), (-4, 4), (-6, 6),
        (2, -2)] := by
    intro p
    simp only [List.mem_cons, List.mem_singleton, List.not_mem_nil, or_false]
    constructor
    · intro h
      rcases h with h | h | h | h | h | h | h | h | h <;> simp [h]
    · intro h
      rcases h with h | h | h | h | h | h | h | h <;> simp [h]
  rw [hA3] at hA
  refine ⟨?_, ?_, ?_, ?_, fun a l => by simp only [fallorcollide]⟩
  · unfold fallorcollide
    rw [harr, hobs]
    exact (collide_cases _ _ _ _ hA hO).1
  · unfold fallorcollide
    rw [harr, hobs]
    exact (collide_cases _ _ _ _ hA hO).2
  · intro p
    rw [hP, harr, missing_entries, hA3]
  · intro p
    rw [hP, hobs, obstacle_entries]

/-- C16, at two concrete states: on the obstacle cell `(2, 2)` the check
returns 1, on the cell `(-10, 12)` beyond the board it returns 0. -/
theorem fallorcollide_tables_witness :
    fallorcollide firstObstacleState = 1 ∧ fallorcollide beyondState = 0 :=
  ⟨(fallorcollide_tables firstObstacleState rfl rfl).1.2 (Or.inr (by decide)),
    (fallorcollide_tables beyondState rfl rfl).2.1.2 (by decide)⟩

/-- A run of two sequences of events is the run of the second from the state
the first one reaches. -/
theorem run_append (es1 es2 : List Event) (g : Maze) :
    run (es1 ++ es2) g = (run es1 g).bind (run es2) := by
  induction es1 generalizing g with
  | nil => rfl
  | cons e es ih =>
    simp only [List.cons_append, run]
    cases step e g with
    | none => rfl
    | some g1 => exact ih g1

/-- Beyond the board edge `pos_z < -10` every release of the key `a` takes one
life, whatever the value of `lives`: `n` releases take `n` lives. -/
theorem run_replicate_a (n : Nat) (g : Maze) (hz : g.pos_z < -10) :
    ∃ g1, run (List.replicate n (Event.keyUp 'a')) g = some g1 ∧
      g1.lives = g.lives - (n : Int) ∧ g1.pos_z = g.pos_z := by
  induction n generalizing g with
  | zero => exact ⟨g, rfl, by simp, rfl⟩
  | succ n ih =>
    have hk : (keyboardUp 'a' g).pos_z = g.pos_z ∧ (keyboardUp 'a' g).lives = g.lives - 1 := by
      simp [keyboardUp, hz]
    obtain ⟨g1, hrun, hl, hp⟩ := ih (keyboardUp 'a' g) (by rw [hk.1]; exact hz)
    refine ⟨g1, ?_, ?_, ?_⟩
    · rw [List.replicate_succ]
      simp only [run, step, Option.bind]
      exact hrun
    · rw [hl, hk.2]
      push_cast
      ring
    · rw [hp, hk.1]

/-- C12: from the initial state (`lives = 4`) the first frame, a spawn with
`n`, and one release of `a` put the avatar beyond the board edge with
`lives = 3`, and `k` more releases of `a` leave `lives = 3 - k`, for every
`k`: the run with `k = 4` ends with `lives = -1`, and no key release and no
frame ends the run or keeps lives at 0. -/
theorem lives_go_negative :
    (∃ g, run [Event.frame, Event.keyUp 'n', Event.keyUp 'a', Event.keyUp 'a',
        Event.keyUp 'a', Event.keyUp 'a', Event.keyUp 'a'] Maze.initial = some g ∧
      g.lives = -1 ∧ g.lives < 0) ∧
    (∀ k : Nat, ∃ g,
      run ([Event.frame, Event.keyUp 'n', Event.keyUp 'a'] ++
        List.replicate k (Event.keyUp 'a')) Maze.initial = some g ∧
      g.lives = 3 - (k : Int)) ∧
    (∀ (c : Char) (g : Maze), ∃ g1, step (Event.keyUp c) g = some g1) ∧
    (∀ g : Maze, ∃ g1, step Event.frame g = some g1) := by
  have hgen : ∀ k : Nat, ∃ g,
      run ([Event.frame, Event.keyUp 'n', Event.keyUp 'a'] ++
        List.replicate k (Event.keyUp 'a')) Maze.initial = some g ∧
      g.lives = 3 - (k : Int) := by
    intro k
    have h3 : run [Event.frame, Event.keyUp 'n', Event.keyUp 'a'] Maze.initial =
        some (keyboardUp 'a' (keyboardUp 'n' (draw Maze.initial))) := rfl
    have hz : (keyboardUp 'a' (keyboardUp 'n' (draw Maze.initial))).pos_z < -10 := by decide
    have hl : (keyboardUp 'a' (keyboardUp 'n' (draw Maze.initial))).lives = 3 := by decide
    obtain ⟨g1, hrun, hl1, -⟩ := run_replicate_a k _ hz
    refine ⟨g1, ?_, ?_⟩
    · rw [run_append, h3]
      exact hrun
    · rw [hl1, hl]
  refine ⟨?_, hgen, fun c g => ⟨_, rfl⟩, fun g => ⟨_, rfl⟩⟩
  obtain ⟨g, hrun, hl⟩ := hgen 4
  refine ⟨g, hrun, ?_, ?_⟩
  · rw [hl]; decide
  · rw [hl]; decide

end Assignment22

/-! ## The shader loader -/

namespace Shader

/-- The code read from a path that cannot be opened is empty; the code read
from a file is the concatenation of `"\n" + line` over its lines. -/
theorem readCode_eq (files : Files) (path : String) :
    (files path = none → readCode files path = "") ∧
    (∀ lines, files path = some lines →
      readCode files path = String.join (lines.map (fun line => "\n" ++ line))) := by
  constructor
  · intro h
    simp only [readCode, h]
  · intro lines h
    simp only [readCode, h, String.join, List.foldl_map]

/-- The vector of the program log always has an element 0. -/
theorem firstElement_max (size : Int) : firstElement (max size 1) = some () := by
  unfold firstElement
  rw [if_pos (le_max_right size 1)]

/-- When both shaders have an info log, `LoadShaders` hands each stage the
code read from its path, compiles both, links the program and returns its
handle, whatever the files hold and whether or not the program has a log. -/
theorem LoadShaders_defined (files : Files) (names : Names) (gl : Driver)
    (vertex_file_path fragment_file_path : String)
    (hv : 1 ≤ gl.shaderInfoLogLength names.VertexShaderID (readCode files vertex_file_path))
    (hf : 1 ≤ gl.shaderInfoLogLength names.FragmentShaderID
      (readCode files fragment_file_path)) :
    ∃ commands, LoadShaders files names gl vertex_file_path fragment_file_path =
        some (names.ProgramID, commands) ∧
      Command.glShaderSource names.VertexShaderID (readCode files vertex_file_path) ∈
        commands ∧
      Command.glShaderSource names.FragmentShaderID (readCode files fragment_file_path) ∈
        commands ∧
      Command.glCompileShader names.VertexShaderID ∈ commands ∧
      Command.glCompileShader names.FragmentShaderID ∈ commands ∧
      Command.glLinkProgram names.ProgramID ∈ commands := by
  unfold LoadShaders
  simp only [firstElement_max]
  simp only [firstElement, if_pos hv, if_pos hf]
  exact ⟨_, rfl, by simp, by simp, by simp, by simp, by simp⟩

/-- When a shader has no info log, `LoadShaders` takes the address of element
0 of an empty vector and has no defined result. -/
theorem LoadShaders_undefined (files : Files) (names : Names) (gl : Driver)
    (vertex_file_path fragment_file_path : String)
    (h : gl.shaderInfoLogLength names.VertexShaderID (readCode files vertex_file_path) < 1 ∨
      gl.shaderInfoLogLength names.FragmentShaderID (readCode files fragment_file_path) < 1) :
    LoadShaders files names gl vertex_file_path fragment_file_path = none := by
  unfold LoadShaders
  rcases h with h | h
  · simp only [firstElement, if_neg (not_le.2 h)]
  · simp only [firstElement, if_neg (not_le.2 h)]
    split <;> first | rfl | contradiction

/-- C15 fails on a GL that has no shader log to report (`InfoLogLength = 0`):
with both files readable, and also with only the vertex file readable,
`LoadShaders` indexes an empty vector and has no defined result, it returns no
handle.  On a GL that reports a log for each shader and none for the program
the same calls return the handle 3 after the compile and link commands, the
unreadable fragment stage having got the empty string: the vector of the
program log is guarded by `max(InfoLogLength, int(1))`, the two vectors of the
shader logs are not. -/
theorem LoadShaders_empty_log :
    LoadShaders bothFiles ⟨1, 2, 3⟩ quietDriver "Sample_GL.vert" "Sample_GL.frag" = none ∧
    LoadShaders onlyVertexFile ⟨1, 2, 3⟩ quietDriver "Sample_GL.vert" "Sample_GL.frag" =
      none ∧
    LoadShaders onlyVertexFile ⟨1, 2, 3⟩ verboseDriver "Sample_GL.vert" "Sample_GL.frag" =
      some (3,
        [Command.glShaderSource 1 "\n#version 330\nin vec3 position;",
         Command.glCompileShader 1,
         Command.glGetShaderInfoLog 1 24,
         Command.glShaderSource 2 "",
         Command.glCompileShader 2,
         Command.glGetShaderInfoLog 2 24,
         Command.glAttachShader 3 1,
         Command.glAttachShader 3 2,
         Command.glLinkProgram 3,
         Command.glGetProgramInfoLog 3 0,
         Command.glDeleteShader 1,
         Command.glDeleteShader 2]) := by
  refine ⟨?_, ?_, ?_⟩
  · exact LoadShaders_undefined _ _ _ _ _ (Or.inl (by decide))
  · exact LoadShaders_undefined _ _ _ _ _ (Or.inl (by decide))
  · decide

end Shader

/-! ## The 3D game: respawn, the key `s` and the holes of the board -/

namespace Assignment22

/-- A frame without a collision changes nothing. -/
theorem draw_noCollision (g : Maze) (h : fallorcollide g = 0) : draw g = g := by
  unfold draw
  rw [h]
  rfl

/-- With the tables of `missing()` and `obstacle()`, the collision check finds
nothing on the respawn cell `(-10, -10)`. -/
theorem fallorcollide_respawn (g : Maze) (harr : g.arr = missing Table.zero)
    (hobs : g.obs = obstacle Table.zero) (hx : g.pos_x = -10) (hz : g.pos_z = -10) :
    fallorcollide g = 0 := by
  apply fallorcollide_noMatch
  · rintro ⟨i, hi, h1, h2⟩
    rw [harr, hx] at h1
    rw [harr, hz] at h2
    have hmem : (missing Table.zero i 0, missing Table.zero i 1) ∈
        (List.range 9).map (fun i => (missing Table.zero i 0, missing Table.zero i 1)) :=
      List.mem_map_of_mem
        (fun i => (missing Table.zero i 0, missing Table.zero i 1)) (List.mem_range.2 hi)
    rw [missing_entries, ← h1, ← h2] at hmem
    exact absurd hmem (by decide)
  · rintro ⟨i, hi, h1, h2⟩
    rw [hobs, hx] at h1
    rw [hobs, hz] at h2
    have hmem : (obstacle Table.zero i 0, obstacle Table.zero i 1) ∈
        (List.range 6).map (fun i => (obstacle Table.zero i 0, obstacle Table.zero i 1)) :=
      List.mem_map_of_mem
        (fun i => (obstacle Table.zero i 0, obstacle Table.zero i 1)) (List.mem_range.2 hi)
    rw [obstacle_entries, ← h1, ← h2] at hmem
    exact absurd hmem (by decide)

/-- C21: with the tables of `missing()` and `obstacle()`, a frame that handles
a collision takes one life and puts the avatar on `(-10, -10)`, a cell on
which `fallorcollide()` is 0; every later frame without a key event in
between leaves the whole state, and so lives, pos_x and pos_z, as that frame
left it: lives has dropped by exactly 1, however many frames follow. -/
theorem draw_one_life_per_collision (g : Maze) (harr : g.arr = missing Table.zero)
    (hobs : g.obs = obstacle Table.zero) (hcol : fallorcollide g ≠ 0) :
    (draw g).lives = g.lives - 1 ∧
    ((draw g).pos_x, (draw g).pos_z) = (-10, -10) ∧
    fallorcollide (draw g) = 0 ∧
    ∀ n : Nat,
      Nat.iterate draw n (draw g) = draw g ∧
      fallorcollide (Nat.iterate draw n (draw g)) = 0 ∧
      (Nat.iterate draw n (draw g)).lives = g.lives - 1 ∧
      ((Nat.iterate draw n (draw g)).pos_x, (Nat.iterate draw n (draw g)).pos_z) =
        (-10, -10) := by
  have hd : draw g = { g with pos_x := -10, pos_z := -10, lives := g.lives - 1 } := by
    unfold draw
    rw [if_pos hcol]
  have h0 : fallorcollide (draw g) = 0 := by
    rw [hd]
    exact fallorcollide_respawn _ harr hobs rfl rfl
  have hit : ∀ n : Nat, Nat.iterate draw n (draw g) = draw g := by
    intro n
    induction n with
    | zero => rfl
    | succ n ih => rw [Function.iterate_succ_apply', ih, draw_noCollision _ h0]
  refine ⟨by rw [hd], by rw [hd], h0, fun n => ?_⟩
  rw [hit n]
  exact ⟨rfl, h0, by rw [hd], by rw [hd]⟩

/-- C21, at a concrete frame: the avatar on the obstacle cell `(2, 2)` loses
one life in the frame of the collision and none in the three frames after
it. -/
theorem draw_one_life_per_collision_witness :
    (draw firstObstacleState).lives = 3 ∧
    (Nat.iterate draw 3 (draw firstObstacleState)).lives = 3 ∧
    fallorcollide (Nat.iterate draw 3 (draw firstObstacleState)) = 0 := by
  obtain ⟨h1, -, -, h4⟩ := draw_one_life_per_collision firstObstacleState rfl rfl (by decide)
  obtain ⟨-, h5, h6, -⟩ := h4 3
  exact ⟨by rw [h1]; decide, by rw [h6]; decide, h5⟩

/-- Inside the range of `int` the stored value is the arithmetic result. -/
theorem wrap32_of_range (x : Int) (hlo : -2147483648 ≤ x) (hhi : x ≤ 2147483647) :
    wrap32 x = x := by
  unfold wrap32
  omega

/-- Releases of the key `s` in a row, from a state with `pos_z >= -10` and
pos_x an `int`, as long as pos_x stays at or above `INT_MIN`: each one moves
pos_x down by 2 and changes nothing else. -/
theorem iterate_keyboardUp_s (g : Maze) (hz : g.pos_z ≥ -10) (hhi : g.pos_x ≤ 2147483647)
    (n : Nat) (hlo : -2147483648 ≤ g.pos_x - 2 * (n : Int)) :
    Nat.iterate (keyboardUp 's') n g = { g with pos_x := g.pos_x - 2 * (n : Int) } := by
  induction n with
  | zero => simp
  | succ n ih =>
    have hc : ((n + 1 : Nat) : Int) = (n : Int) + 1 := by push_cast; rfl
    rw [hc] at hlo
    rw [Function.iterate_succ_apply', ih (by omega)]
    have h : ¬ (g.pos_z < -10) := not_lt.2 hz
    have hw : wrap32 (g.pos_x - 2 * (n : Int) - 2) = g.pos_x - 2 * ((n + 1 : Nat) : Int) := by
      rw [wrap32_of_range _ (by omega) (by omega), hc]
      ring
    simp only [keyboardUp, Char.reduceEq, if_false, if_true, h, hw]

/-- The spawn cell. -/
theorem spawnState_cell : spawnState.pos_x = -10 ∧ spawnState.pos_z = -10 := by decide

/-- C22 as stated fails at `INT_MIN`: 1073741819 releases of `s` from the
spawn cell take the avatar to `intMinState`, with pos_x at `-2147483648` and
pos_z still -10; the next release makes the 32-bit pos_x `2147483646`, it
does not decrease it by 2, and after `n = 1073741820` releases pos_x is not
`-10 - 2n`. -/
theorem keyboardUp_s_guard_counterexample :
    intMinState.pos_z ≥ -10 ∧ intMinState.pos_x = -2147483648 ∧
    (keyboardUp 's' intMinState).pos_x = 2147483646 ∧
    (keyboardUp 's' intMinState).pos_x ≠ intMinState.pos_x - 2 ∧
    Nat.iterate (keyboardUp 's') 1073741819 spawnState = intMinState ∧
    (Nat.iterate (keyboardUp 's') 1073741820 spawnState).pos_x ≠ -10 - 2 * 1073741820 := by
  have hx : spawnState.pos_x = -10 := spawnState_cell.1
  have hz : spawnState.pos_z = -10 := spawnState_cell.2
  have hit : Nat.iterate (keyboardUp 's') 1073741819 spawnState = intMinState := by
    rw [iterate_keyboardUp_s spawnState (by rw [hz]) (by rw [hx]; decide) 1073741819
      (by rw [hx]; decide), hx]
    rfl
  have hstep : (keyboardUp 's' intMinState).pos_x = 2147483646 := by
    have h : ¬ (intMinState.pos_z < -10) := by
      show ¬ (spawnState.pos_z < -10)
      rw [hz]
      decide
    simp only [keyboardUp, Char.reduceEq, if_false, if_true, h]
    decide
  have hnext : Nat.iterate (keyboardUp 's') 1073741820 spawnState =
      keyboardUp 's' (Nat.iterate (keyboardUp 's') 1073741819 spawnState) :=
    Function.iterate_succ_apply' (keyboardUp 's') 1073741819 spawnState
  refine ⟨?_, rfl, hstep, ?_, hit, ?_⟩
  · show spawnState.pos_z ≥ -10
    rw [hz]
  · rw [hstep]
    decide
  · rw [hnext, hit, hstep]
    decide

/-- C22, inside the range of `int`: the handler of the key `s` tests pos_z and
moves pos_x: in every state with `pos_z >= -10` whose pos_x is an `int` above
`INT_MIN + 1` a release of `s` decreases pos_x by 2 and changes nothing
else, whatever pos_x is, so that no guard bounds pos_x from below: `n`
releases in a row give `pos_x - 2n` as long as that is not below `INT_MIN`,
and from the spawn cell `-10 - 2n` for every `n <= 1073741819`, where pos_x
is `INT_MIN`; in every state with `pos_z < -10` the release sets appear to 0,
decrements lives and moves nothing, whatever pos_x is. -/
theorem keyboardUp_s_guard (g : Maze) :
    (g.pos_z ≥ -10 → -2147483646 ≤ g.pos_x → g.pos_x ≤ 2147483647 →
      keyboardUp 's' g = { g with pos_x := g.pos_x - 2 }) ∧
    (g.pos_z ≥ -10 → g.pos_x ≤ 2147483647 → ∀ n : Nat,
      -2147483648 ≤ g.pos_x - 2 * (n : Int) →
      (Nat.iterate (keyboardUp 's') n g).pos_x = g.pos_x - 2 * (n : Int) ∧
      (Nat.iterate (keyboardUp 's') n g).appear = g.appear ∧
      (Nat.iterate (keyboardUp 's') n g).lives = g.lives) ∧
    (g.pos_z < -10 → keyboardUp 's' g = { g with appear := 0, lives := g.lives - 1 }) ∧
    (spawnState.pos_x, spawnState.pos_z) = (-10, -10) ∧
    (∀ n : Nat, n ≤ 1073741819 →
      (Nat.iterate (keyboardUp 's') n spawnState).pos_x = -10 - 2 * (n : Int)) ∧
    (Nat.iterate (keyboardUp 's') 1073741819 spawnState).pos_x = -2147483648 := by
  have hx : spawnState.pos_x = -10 := spawnState_cell.1
  have hsz : spawnState.pos_z ≥ -10 := by rw [spawnState_cell.2]
  have hsx : spawnState.pos_x ≤ 2147483647 := by rw [hx]; decide
  refine ⟨fun hz hlo hhi => ?_, fun hz hhi n hlo => ?_, fun hz => ?_, by decide,
    fun n hn => ?_, ?_⟩
  · have h : ¬ (g.pos_z < -10) := not_lt.2 hz
    have hw : wrap32 (g.pos_x - 2) = g.pos_x - 2 :=
      wrap32_of_range _ (by omega) (by omega)
    simp only [keyboardUp, Char.reduceEq, if_false, if_true, h, hw]
  · rw [iterate_keyboardUp_s g hz hhi n hlo]
    exact ⟨rfl, rfl, rfl⟩
  · simp [keyboardUp, hz]
  · rw [iterate_keyboardUp_s spawnState hsz hsx n (by rw [hx]; omega)]
    show spawnState.pos_x - 2 * (n : Int) = -10 - 2 * (n : Int)
    rw [hx]
  · rw [iterate_keyboardUp_s spawnState hsz hsx 1073741819 (by rw [hx]; decide)]
    show spawnState.pos_x - 2 * ((1073741819 : Nat) : Int) = -2147483648
    rw [hx]
    decide

/-- C22, at concrete states: from the spawn cell three releases of `s` take
pos_x to -16 with lives and appear untouched, and beyond the edge
`pos_z = 12` of `beyondState` a release of `s` still moves pos_x. -/
theorem keyboardUp_s_guard_witness :
    (Nat.iterate (keyboardUp 's') 3 spawnState).pos_x = -16 ∧
    (Nat.iterate (keyboardUp 's') 3 spawnState).lives = spawnState.lives ∧
    (keyboardUp 's' beyondState).pos_x = beyondState.pos_x - 2 := by
  obtain ⟨-, h2, -, -, -, -⟩ := keyboardUp_s_guard spawnState
  obtain ⟨h3, -, h5⟩ := h2 (by decide) (by decide) 3 (by decide)
  obtain ⟨h6, -⟩ := keyboardUp_s_guard beyondState
  refine ⟨?_, h5, ?_⟩
  · rw [h3]; decide
  · rw [h6 (by decide) (by decide) (by decide)]

/-- The function `search` returns 0 or 1. -/
theorem search_cases (g : Maze) (x z : Int) : search g x z = 0 ∨ search g x z = 1 := by
  unfold search
  split
  · exact Or.inr rfl
  · exact Or.inl rfl

/-- The function `search` returns 1 exactly on the nine hole entries. -/
theorem search_eq_one (g : Maze) (x z : Int) :
    search g x z = 1 ↔ ∃ n, n < 9 ∧ g.arr n 0 = x ∧ g.arr n 1 = z := by
  unfold search
  simp only [List.any_eq_true, List.mem_range, decide_eq_true_eq]
  constructor
  · intro h
    by_contra hn
    rw [if_neg hn] at h
    exact absurd h (by decide)
  · intro h
    rw [if_pos h]

/-- The two forms of the test that skips a top cube, `search(..)==1 and j==5`
and `search(..) and j==5`, hold exactly on the top layer `2*j = 10` over a
cell on which `search` is 1. -/
theorem skip_iff (g : Maze) (x z : Int) (j : Nat) (J : Int) (hJ : J = j) :
    ((!decide (search g x z ≠ 0 ∧ j = 5)) = false ↔ (2 * J = 10 ∧ search g x z = 1)) ∧
    ((!decide (search g x z = 1 ∧ j = 5)) = false ↔ (2 * J = 10 ∧ search g x z = 1)) := by
  subst hJ
  have hj : j = 5 ↔ 2 * (j : Int) = 10 := by omega
  rcases search_cases g x z with h | h <;> simp [h, hj]

/-- The cubes of the triple loop are those of its iterations. -/
theorem mem_boardDraws (g : Maze) (e : (Int × Int × Int) × Bool) :
    e ∈ boardDraws g ↔ ∃ k i j, k < 6 ∧ i < 6 ∧ j < 6 ∧ e ∈ cubeDraws g k i j := by
  simp only [boardDraws, List.mem_flatMap, List.mem_range]
  constructor
  · rintro ⟨k, hk, i, hi, j, hj, he⟩
    exact ⟨k, i, j, hk, hi, hj, he⟩
  · rintro ⟨k, i, j, hk, hi, hj, he⟩
    exact ⟨k, hk, i, hi, j, hj, he⟩

/-- In an iteration of the triple loop a cube is skipped exactly when it is on
the top layer, at height 10, over a cell on which `search` is 1. -/
theorem cubeDraws_skipped (g : Maze) (k i j : Nat) (e : (Int × Int × Int) × Bool)
    (he : e ∈ cubeDraws g k i j) :
    e.2 = false ↔ (e.1.2.1 = 10 ∧ search g e.1.1 e.1.2.2 = 1) := by
  have e1 : (2 * (k : Int) + -4 * (k : Int)) = -2 * (k : Int) := by ring
  have e2 : (-2 * (k : Int) + 4 * (k : Int)) = 2 * (k : Int) := by ring
  have hlow : ¬ (2 * (j : Int) + -4 * (j : Int) = 10) := by omega
  simp only [cubeDraws, List.mem_cons, List.mem_singleton, List.not_mem_nil, or_false, e1, e2] at he
  rcases he with rfl | rfl | rfl | rfl | rfl | rfl | rfl | rfl
  · exact (skip_iff g _ _ j _ rfl).2
  · exact ⟨fun h => by simp at h, fun h => absurd h.1 hlow⟩
  · exact ⟨fun h => by simp at h, fun h => absurd h.1 hlow⟩
  · exact (skip_iff g _ _ j _ rfl).1
  · exact (skip_iff g _ _ j _ rfl).1
  · exact ⟨fun h => by simp at h, fun h => absurd h.1 hlow⟩
  · exact ⟨fun h => by simp at h, fun h => absurd h.1 hlow⟩
  · exact (skip_iff g _ _ j _ rfl).1

/-- C26: among the cubes of the triple loop of `draw()`, a cube is skipped if
and only if it is on the top layer (height `2*5 = 10`) and `search` is 1 on
its cell `(x, z)`, so no cube below the top layer is skipped; for every
`i, k` in `0..5` the loop reaches the top cube of each of the four cells
`(2i, 2k)`, `(2i, -2k)`, `(-2i, -2k)`, `(-2i, 2k)` and draws it exactly when
`search` is not 1 there; `search(x, z)` is 1 if and only if `(x, z)` is one
of the nine hole entries `arr[0..8]`, which are the entries that the first
loop of `fallorcollide()` tests. -/
theorem board_holes (g : Maze) :
    (∀ e, e ∈ boardDraws g → (e.2 = false ↔ (e.1.2.1 = 10 ∧ search g e.1.1 e.1.2.2 = 1))) ∧
    (∀ k i : Nat, k < 6 → i < 6 →
      ((2 * (i : Int), 10, 2 * (k : Int)),
          !decide (search g (2 * (i : Int)) (2 * (k : Int)) = 1)) ∈ boardDraws g ∧
      ((2 * (i : Int), 10, -2 * (k : Int)),
          !decide (search g (2 * (i : Int)) (-2 * (k : Int)) = 1)) ∈ boardDraws g ∧
      ((-2 * (i : Int), 10, -2 * (k : Int)),
          !decide (search g (-2 * (i : Int)) (-2 * (k : Int)) = 1)) ∈ boardDraws g ∧
      ((-2 * (i : Int), 10, 2 * (k : Int)),
          !decide (search g (-2 * (i : Int)) (2 * (k : Int)) = 1)) ∈ boardDraws g) ∧
    (∀ x z : Int, search g x z = 1 ↔ ∃ n, n < 9 ∧ g.arr n 0 = x ∧ g.arr n 1 = z) ∧
    (search g g.pos_x g.pos_z = 1 ↔
      ∃ n, n < 9 ∧ g.pos_x = g.arr n 0 ∧ g.pos_z = g.arr n 1) ∧
    (search g g.pos_x g.pos_z = 1 → fallorcollide g = 1) := by
  have hs : search g g.pos_x g.pos_z = 1 ↔
      ∃ n, n < 9 ∧ g.pos_x = g.arr n 0 ∧ g.pos_z = g.arr n 1 := by
    rw [search_eq_one]
    constructor
    · rintro ⟨n, hn, h1, h2⟩
      exact ⟨n, hn, h1.symm, h2.symm⟩
    · rintro ⟨n, hn, h1, h2⟩
      exact ⟨n, hn, h1.symm, h2.symm⟩
  refine ⟨fun e he => ?_, fun k i hk hi => ?_, search_eq_one g, hs,
    fun h => fallorcollide_match g (Or.inl (hs.1 h))⟩
  · obtain ⟨k, i, j, -, -, -, he⟩ := (mem_boardDraws g e).1 he
    exact cubeDraws_skipped g k i j e he
  · have e1 : (2 * (k : Int) + -4 * (k : Int)) = -2 * (k : Int) := by ring
    have e2 : (-2 * (k : Int) + 4 * (k : Int)) = 2 * (k : Int) := by ring
    have h01 : ∀ x z : Int,
        decide (search g x z = 1) = !decide (search g x z = 0) := by
      intro x z
      rcases search_cases g x z with h | h <;> simp [h]
    refine ⟨?_, ?_, ?_, ?_⟩ <;>
      refine (mem_boardDraws g _).2 ⟨k, i, 5, hk, hi, by decide, ?_⟩
    · simp [cubeDraws, h01]
    · simp only [cubeDraws, e1, e2]
      refine List.mem_cons_of_mem _ (List.mem_cons_of_mem _ (List.mem_cons_of_mem _ ?_))
      simp [h01]
    · simp [cubeDraws, h01]
    · simp only [cubeDraws, e1, e2]
      refine List.mem_cons_of_mem _ (List.mem_cons_of_mem _ (List.mem_cons_of_mem _
        (List.mem_cons_of_mem _ (List.mem_cons_of_mem _ (List.mem_cons_of_mem _
        (List.mem_cons_of_mem _ ?_))))))
      simp [h01]

/-- C26, at the initial tables: the top cube over the hole `(0, 0)` is
skipped, the top cube over `(2, 2)`, which is no hole, is drawn. -/
theorem board_holes_witness :
    ((0, 10, 0), false) ∈ boardDraws Maze.initial ∧
    ((2, 10, 2), true) ∈ boardDraws Maze.initial := by
  obtain ⟨-, h, -⟩ := board_holes Maze.initial
  exact ⟨(h 0 0 (by decide) (by decide)).1, (h 1 1 (by decide) (by decide)).1⟩

end Assignment22

/-! ## The 2D game: invariants of the runs from the initial state -/

namespace Assignment1

/-- What a key callback of `keyboard` can do to the state: nothing, a turn of
the cannon up or down, or a shot. -/
theorem keyboard_cases (T : Trig) (k : Key) (a : Action) (g g1 : Game)
    (h : keyboard T k a g = some g1) :
    g1 = g ∨
    (k = Key.GLFW_KEY_U ∧ a = Action.GLFW_PRESS ∧ g.canon_rotation < 90 ∧
      g1 = { g with canon_rotation := g.canon_rotation + 10 }) ∨
    (k = Key.GLFW_KEY_D ∧ a = Action.GLFW_PRESS ∧ g.canon_rotation > 0 ∧
      g1 = { g with canon_rotation := g.canon_rotation - 10 }) ∨
    (k = Key.GLFW_KEY_N ∧ a = Action.GLFW_PRESS ∧ g.amm_amount > 0 ∧
      g1 = initlz T { g with use := 1, amm_amount := g.amm_amount - 1 }) := by
  cases a with
  | GLFW_RELEASE =>
    simp only [keyboard, Option.some.injEq] at h
    exact Or.inl h.symm
  | GLFW_REPEAT =>
    simp only [keyboard, Option.some.injEq] at h
    exact Or.inl h.symm
  | GLFW_PRESS =>
    cases k with
    | GLFW_KEY_ESCAPE => simp [keyboard] at h
    | GLFW_KEY_U =>
      simp only [keyboard, Option.some.injEq] at h
      by_cases hc : g.canon_rotation < 90
      · rw [if_pos hc] at h
        exact Or.inr (Or.inl ⟨rfl, rfl, hc, h.symm⟩)
      · rw [if_neg hc] at h
        exact Or.inl h.symm
    | GLFW_KEY_D =>
      simp only [keyboard, Option.some.injEq] at h
      by_cases hc : g.canon_rotation > 0
      · rw [if_pos hc] at h
        exact Or.inr (Or.inr (Or.inl ⟨rfl, rfl, hc, h.symm⟩))
      · rw [if_neg hc] at h
        exact Or.inl h.symm
    | GLFW_KEY_N =>
      simp only [keyboard, Option.some.injEq] at h
      by_cases hc : g.amm_amount > 0
      · rw [if_pos hc] at h
        exact Or.inr (Or.inr (Or.inr ⟨rfl, rfl, hc, h.symm⟩))
      · rw [if_neg hc] at h
        exact Or.inl h.symm
    | GLFW_KEY_C =>
      simp only [keyboard, Option.some.injEq] at h
      exact Or.inl h.symm
    | GLFW_KEY_P =>
      simp only [keyboard, Option.some.injEq] at h
      exact Or.inl h.symm
    | GLFW_KEY_X =>
      simp only [keyboard, Option.some.injEq] at h
      exact Or.inl h.symm
    | other =>
      simp only [keyboard, Option.some.injEq] at h
      exact Or.inl h.symm

/-- A frame writes neither the cannon angle nor the ammo. -/
theorem draw_rest (T : Trig) (g : Game) :
    (draw T g).canon_rotation = g.canon_rotation ∧ (draw T g).amm_amount = g.amm_amount := by
  obtain ⟨hc, -, ha, -⟩ := coinsInit_fields g
  by_cases huse : g.use = 0
  · rw [draw_inactive T g huse]
    exact ⟨hc, ha⟩
  · by_cases hflag : g.flag = 0
    · rw [draw_launch T g huse hflag]
      exact ⟨hc, ha⟩
    · rw [draw_integration T g huse hflag]
      obtain ⟨-, -, h3, h4, -⟩ := bounceOrReflect_rest T (integrate (coinsInit g))
      exact ⟨h3.trans hc, h4.trans ha⟩

/-- An integer is its own rounding. -/
theorem roundHalfEven_intCast (z : Int) : roundHalfEven (z : ℚ) = z := by
  unfold roundHalfEven
  rw [Int.floor_intCast]
  simp

/-- In the normal range the `float` product is exact. -/
theorem reflect_normal (v : ℚ) (h : (1 / 2) ^ 126 ≤ |-(1 / 2) * v|) :
    reflect v = -(1 / 2) * v := by
  unfold reflect
  rw [if_pos h]

/-- The `float` product is exact whenever the exact product is a multiple of
`2^-149`. -/
theorem reflect_of_int (v : ℚ) (z : Int) (h : -(1 / 2) * v * 2 ^ 149 = (z : ℚ)) :
    reflect v = -(1 / 2) * v := by
  unfold reflect
  split
  · rfl
  · rw [h, roundHalfEven_intCast, ← h]
    field_simp
    ring

/-- From the launch speed 7 the first 149 reflections are exact: the results
`7 * 2^-k` are `float`s down to `7 * 2^-149`. -/
theorem iterate_reflect_seven (k : Nat) (hk : k ≤ 149) :
    Nat.iterate reflect k 7 = (-(1 / 2)) ^ k * 7 := by
  induction k with
  | zero => simp
  | succ k ih =>
    rw [Function.iterate_succ_apply', ih (by omega)]
    have h2 : (2 : ℚ) ^ 149 = 2 ^ (k + 1) * 2 ^ (148 - k) := by
      rw [← pow_add]
      congr 1
      omega
    rw [reflect_of_int _ ((-1) ^ (k + 1) * 7 * 2 ^ (148 - k)), pow_succ]
    · ring
    · push_cast
      rw [h2]
      have h3 : (-(1 / 2) : ℚ) ^ (k + 1) * 2 ^ (k + 1) = (-1) ^ (k + 1) := by
        rw [← mul_pow]
        norm_num
      calc -(1 / 2) * ((-(1 / 2)) ^ k * 7) * (2 ^ (k + 1) * 2 ^ (148 - k))
          = ((-(1 / 2) : ℚ) ^ (k + 1) * 2 ^ (k + 1)) * 7 * 2 ^ (148 - k) := by ring
        _ = (-1) ^ (k + 1) * 7 * 2 ^ (148 - k) := by rw [h3]

/-- The tie `7/2` is rounded to the even neighbour 4. -/
theorem roundHalfEven_seven_halves : roundHalfEven (7 / 2) = 4 := by
  have hfl : ⌊(7 / 2 : ℚ)⌋ = 3 := by
    rw [Int.floor_eq_iff]
    norm_num
  unfold roundHalfEven
  rw [hfl]
  norm_num

/-- The tie `-1/2` is rounded to the even neighbour 0. -/
theorem roundHalfEven_neg_half : roundHalfEven (-(1 / 2)) = 0 := by
  have hfl : ⌊(-(1 / 2) : ℚ)⌋ = -1 := by
    rw [Int.floor_eq_iff]
    norm_num
  unfold roundHalfEven
  rw [hfl]
  norm_num

/-- The 150th reflection from 7: the exact product `7 * 2^-150` is `3.5`
units of `2^-149` and is rounded to 4 units. -/
theorem reflect_150 : reflect ((-(1 / 2)) ^ 149 * 7) = 4 / 2 ^ 149 := by
  have hp : -(1 / 2) * ((-(1 / 2) : ℚ) ^ 149 * 7) * 2 ^ 149 = 7 / 2 := by norm_num
  have hs : ¬ ((1 / 2 : ℚ) ^ 126 ≤ |-(1 / 2) * ((-(1 / 2) : ℚ) ^ 149 * 7)|) := by
    norm_num [abs_of_pos]
  unfold reflect
  rw [if_neg hs, hp, roundHalfEven_seven_halves]
  norm_num

/-- The reflection of the smallest positive `float` is zero. -/
theorem reflect_153 : reflect (1 / 2 ^ 149) = 0 := by
  have hp : -(1 / 2) * (1 / 2 ^ 149 : ℚ) * 2 ^ 149 = -(1 / 2) := by norm_num
  have hs : ¬ ((1 / 2 : ℚ) ^ 126 ≤ |-(1 / 2) * (1 / 2 ^ 149 : ℚ)|) := by
    norm_num [abs_of_pos]
  unfold reflect
  rw [if_neg hs, hp, roundHalfEven_neg_half]
  norm_num

/-- The reflection of zero is zero. -/
theorem reflect_zero : reflect 0 = 0 := by
  rw [reflect_of_int 0 0 (by norm_num)]
  norm_num

/-- C14 as stated fails from the launch speed `v = 7` at `n = 150`: the `float`
products underflow, 150 reflections give `4 * 2^-149`, which is not
`(-1/2)^150 * 7`, and from 153 reflections on the value is zero, so that after
the even number 154 of reflections the result does not have the sign of
`v`. -/
theorem reflection_parity_counterexample :
    Nat.iterate reflect 150 7 = 4 / 2 ^ 149 ∧
    Nat.iterate reflect 150 7 ≠ (-(1 / 2)) ^ 150 * 7 ∧
    Nat.iterate reflect 154 7 = 0 ∧
    Even 154 ∧
    SignType.sign (Nat.iterate reflect 154 7) ≠ SignType.sign (7 : ℚ) := by
  have h150 : Nat.iterate reflect 150 7 = 4 / 2 ^ 149 := by
    show Nat.iterate reflect (149 + 1) 7 = _
    rw [Function.iterate_succ_apply', iterate_reflect_seven 149 (le_refl _), reflect_150]
  have h151 : Nat.iterate reflect 151 7 = -(2 / 2 ^ 149) := by
    show Nat.iterate reflect (150 + 1) 7 = _
    rw [Function.iterate_succ_apply', h150, reflect_of_int _ (-2) (by norm_num)]
    norm_num
  have h152 : Nat.iterate reflect 152 7 = 1 / 2 ^ 149 := by
    show Nat.iterate reflect (151 + 1) 7 = _
    rw [Function.iterate_succ_apply', h151, reflect_of_int _ 1 (by norm_num)]
    norm_num
  have h153 : Nat.iterate reflect 153 7 = 0 := by
    show Nat.iterate reflect (152 + 1) 7 = _
    rw [Function.iterate_succ_apply', h152, reflect_153]
  have h154 : Nat.iterate reflect 154 7 = 0 := by
    show Nat.iterate reflect (153 + 1) 7 = _
    rw [Function.iterate_succ_apply', h153, reflect_zero]
  refine ⟨h150, ?_, h154, by decide, ?_⟩
  · rw [h150]
    norm_num
  · rw [h154]
    have h7 : SignType.sign (7 : ℚ) = 1 := sign_pos (by norm_num)
    rw [h7, sign_zero]
    decide

/-- The velocity and the position after a frame in which the right-bound
update runs, and the variables that its tests read. -/
theorem draw_reflectionFrame (T : Trig) (g : Game) (h : reflectionFrame T g) :
    (draw T g).velocity_x = -(1 / 2) * g.velocity_x ∧
    (draw T g).velocity_y = g.velocity_y ∧
    (draw T g).position_x = g.position_x + 1 / 100 * g.velocity_x ∧
    (draw T g).position_y =
      g.position_y + 1 / 100 * (g.velocity_y + 5 - 10 * g.time_travelled) ∧
    (draw T g).time_travelled = g.time_travelled + 1 / 100 ∧
    (draw T g).use = g.use ∧ (draw T g).flag = g.flag ∧
    (draw T g).canon_rotation = g.canon_rotation := by
  obtain ⟨huse, hflag, hf, hw⟩ := h
  obtain ⟨hx, hy, -⟩ := draw_coin T g huse hflag
  obtain ⟨-, -, -, ht, hfl, hu, hvx, hvy, -⟩ := coinsInit_fields g
  obtain ⟨h1, -, h3, h4, h5, -⟩ := bounceOrReflect_noFloor T _ hf
  obtain ⟨h6, -⟩ := bounceOrReflect_rest T (integrate (coinsInit g))
  refine ⟨?_, ?_, hx, hy, ?_, ?_, ?_, (draw_rest T g).1⟩ <;>
    rw [draw_integration T g huse hflag]
  · show (bounceOrReflect T (integrate (coinsInit g))).velocity_x = _
    rw [h5, if_pos hw]
    show -(1 / 2) * (coinsInit g).velocity_x = _
    rw [hvx]
  · show (bounceOrReflect T (integrate (coinsInit g))).velocity_y = _
    rw [h1]
    exact hvy
  · show (bounceOrReflect T (integrate (coinsInit g))).time_travelled + 1 / 100 = _
    rw [h3]
    show (coinsInit g).time_travelled + 1 / 100 = _
    rw [ht]
  · show (bounceOrReflect T (integrate (coinsInit g))).use = _
    rw [h4]
    exact hu
  · show (bounceOrReflect T (integrate (coinsInit g))).flag = _
    rw [h6]
    exact hfl

/-- The frames in which the right-bound update runs, in terms of the state on
entry. -/
theorem reflectionFrame_iff (T : Trig) (g : Game) :
    reflectionFrame T g ↔
      g.use ≠ 0 ∧ g.flag ≠ 0 ∧
      ¬ (g.position_y + 1 / 100 * (g.velocity_y + 5 - 10 * g.time_travelled) ≤
        -(3 / 10 + T.sinDeg g.canon_rotation)) ∧
      g.position_x + 1 / 100 * g.velocity_x ≥ 8 - T.cosDeg g.canon_rotation := by
  unfold reflectionFrame
  rw [floorTest_integrate, wallTest_integrate]

/-- Over consecutive frames in which the right-bound update runs, velocity_x
is multiplied by `-1/2` in each. -/
theorem iterate_draw_reflection (T : Trig) (g : Game) (n : Nat)
    (hfire : ∀ k, k < n → reflectionFrame T (Nat.iterate (draw T) k g)) (k : Nat)
    (hk : k ≤ n) :
    (Nat.iterate (draw T) k g).velocity_x = (-(1 / 2)) ^ k * g.velocity_x := by
  induction k with
  | zero => simp
  | succ k ih =>
    rw [Function.iterate_succ_apply', (draw_reflectionFrame T _ (hfire k (by omega))).1,
      ih (by omega), pow_succ]
    ring

/-- The `float` products of consecutive reflections are exact as long as the
last of them is a normal `float`. -/
theorem iterate_reflect_normal (v : ℚ) (n : Nat) (hnorm : (1 / 2) ^ 126 ≤ |v| * (1 / 2) ^ n)
    (k : Nat) (hk : k ≤ n) :
    Nat.iterate reflect k v = (-(1 / 2)) ^ k * v := by
  induction k with
  | zero => simp
  | succ k ih =>
    rw [Function.iterate_succ_apply', ih (by omega)]
    have hpow : ((1 / 2 : ℚ)) ^ n ≤ (1 / 2) ^ (k + 1) :=
      pow_le_pow_of_le_one (by norm_num) (by norm_num) hk
    have habs : |-(1 / 2) * ((-(1 / 2)) ^ k * v)| = |v| * (1 / 2) ^ (k + 1) := by
      rw [abs_mul, abs_mul, abs_pow, abs_neg, abs_of_pos (by norm_num : (0 : ℚ) < 1 / 2),
        pow_succ]
      ring
    rw [reflect_normal _ (by
      rw [habs]
      exact le_trans hnorm (mul_le_mul_of_nonneg_left hpow (abs_nonneg v))), pow_succ]
    ring

/-- The sign of `(-1/2)^n * v` is the sign of `v` exactly when `n` is even. -/
theorem sign_neg_half_pow (n : Nat) (v : ℚ) (hv : v ≠ 0) :
    SignType.sign ((-(1 / 2)) ^ n * v) = SignType.sign v ↔ Even n := by
  rw [sign_mul]
  constructor
  · intro h
    by_contra hodd
    have hneg : (-(1 / 2) : ℚ) ^ n < 0 :=
      Odd.pow_neg (Nat.not_even_iff_odd.1 hodd) (by norm_num)
    rw [sign_neg hneg] at h
    rcases lt_or_gt_of_ne hv with h0 | h0
    · rw [sign_neg h0] at h
      exact absurd h (by decide)
    · rw [sign_pos h0] at h
      exact absurd h (by decide)
  · intro heven
    have hpos : (0 : ℚ) < (-(1 / 2)) ^ n := Even.pow_pos heven (by norm_num)
    rw [sign_pos hpos, one_mul]

/-- C14, within the normal range of `float`: for a horizontal velocity `v`
and a number `n` of updates with `|v| * 2^-n >= 2^-126`, the `float` update
`velocity_x := -0.5f * velocity_x` applied `k <= n` times to `v` gives
`(-1/2)^k * v`; such a `v` is not 0, the result of the `n` updates has the
sign of `v` if and only if `n` is even, and the update is not idempotent in
value: two of them give `0.25 * v`, which is neither `v` nor the result of
one; and over `n` consecutive frames of `draw` in which the right-bound
branch runs, velocity_x after `k <= n` of them is the result of `k`
updates. -/
theorem reflection_parity (T : Trig) (g : Game) (n : Nat)
    (hnorm : (1 / 2) ^ 126 ≤ |g.velocity_x| * (1 / 2) ^ n) :
    g.velocity_x ≠ 0 ∧
    (∀ k, k ≤ n → Nat.iterate reflect k g.velocity_x = (-(1 / 2)) ^ k * g.velocity_x) ∧
    (SignType.sign (Nat.iterate reflect n g.velocity_x) = SignType.sign g.velocity_x ↔
      Even n) ∧
    (2 ≤ n →
      reflect (reflect g.velocity_x) = 1 / 4 * g.velocity_x ∧
      reflect (reflect g.velocity_x) ≠ g.velocity_x ∧
      reflect (reflect g.velocity_x) ≠ reflect g.velocity_x) ∧
    ((∀ k, k < n → reflectionFrame T (Nat.iterate (draw T) k g)) →
      ∀ k, k ≤ n →
        (Nat.iterate (draw T) k g).velocity_x = Nat.iterate reflect k g.velocity_x) := by
  have hv : g.velocity_x ≠ 0 := by
    intro h0
    rw [h0, abs_zero, zero_mul] at hnorm
    exact absurd hnorm (not_le.2 (by positivity))
  have hfloat := iterate_reflect_normal g.velocity_x n hnorm
  refine ⟨hv, hfloat, ?_, fun h2 => ?_, fun hfire k hk => ?_⟩
  · rw [hfloat n (le_refl n)]
    exact sign_neg_half_pow n _ hv
  · have e2 : reflect (reflect g.velocity_x) = 1 / 4 * g.velocity_x := by
      have h := hfloat 2 h2
      rw [show Nat.iterate reflect 2 g.velocity_x = reflect (reflect g.velocity_x) from rfl]
        at h
      rw [h]
      ring
    have e1 : reflect g.velocity_x = -(1 / 2) * g.velocity_x := by
      have h := hfloat 1 (by omega)
      rw [show Nat.iterate reflect 1 g.velocity_x = reflect g.velocity_x from rfl] at h
      rw [h]
      ring
    refine ⟨e2, ?_, ?_⟩
    · rw [e2]
      intro h
      apply hv
      linarith
    · rw [e2, e1]
      intro h
      apply hv
      linarith
  · rw [iterate_draw_reflection T g n hfire k hk, hfloat k hk]

/-- The frame entered at `pastWallState` and the two frames after it run the
right-bound update. -/
theorem pastWallState_frames (k : Nat) (hk : k < 3) :
    reflectionFrame axisTrig (Nat.iterate (draw axisTrig) k pastWallState) := by
  have h0 : reflectionFrame axisTrig pastWallState := by
    rw [reflectionFrame_iff]
    norm_num [pastWallState, axisTrig]
  obtain ⟨a1, a2, a3, a4, a5, a6, a7, a8⟩ := draw_reflectionFrame axisTrig _ h0
  have h1 : reflectionFrame axisTrig (draw axisTrig pastWallState) := by
    rw [reflectionFrame_iff, a1, a2, a3, a4, a5, a6, a7, a8]
    norm_num [pastWallState, axisTrig]
  obtain ⟨b1, b2, b3, b4, b5, b6, b7, b8⟩ := draw_reflectionFrame axisTrig _ h1
  have h2 : reflectionFrame axisTrig (draw axisTrig (draw axisTrig pastWallState)) := by
    rw [reflectionFrame_iff, b1, b2, b3, b4, b5, b6, b7, b8, a1, a2, a3, a4, a5, a6, a7, a8]
    norm_num [pastWallState, axisTrig]
  interval_cases k
  · exact h0
  · exact h1
  · exact h2

/-- C14, at a concrete flight: from `pastWallState`, whose velocity_x is 7,
three frames in a row run the right-bound update and leave velocity_x at
`-7/8`, the result of three updates, of the opposite sign, and two updates
give `7/4`. -/
theorem reflection_parity_witness :
    (Nat.iterate (draw axisTrig) 3 pastWallState).velocity_x = -(7 / 8) ∧
    Nat.iterate reflect 3 7 = -(7 / 8) ∧
    ¬ (SignType.sign (Nat.iterate reflect 3 7) = SignType.sign (7 : ℚ)) ∧
    reflect (reflect 7) = 7 / 4 := by
  have hn : (1 / 2 : ℚ) ^ 126 ≤ |pastWallState.velocity_x| * (1 / 2) ^ 3 := by
    norm_num [pastWallState]
  obtain ⟨-, h2, h3, h4, h5⟩ := reflection_parity axisTrig pastWallState 3 hn
  have hv : pastWallState.velocity_x = 7 := rfl
  rw [hv] at h2 h3 h4
  have h6 := h5 pastWallState_frames 3 (le_refl 3)
  rw [hv] at h6
  have h7 : Nat.iterate reflect 3 7 = -(7 / 8) := by
    rw [h2 3 (le_refl 3)]
    norm_num
  refine ⟨?_, h7, ?_, ?_⟩
  · rw [h6, h7]
  · rw [h3]; decide
  · rw [(h4 (by decide)).1]; norm_num

/-- A property of the states that every event keeps holds at the end of every
run that starts in a state with the property. -/
theorem run_invariant (T : Trig) (P : Game → Prop)
    (hstep : ∀ e g g1, P g → step T e g = some g1 → P g1)
    (es : List Event) (g g1 : Game) (hg : P g) (hrun : run T es g = some g1) : P g1 := by
  induction es generalizing g with
  | nil =>
    simp only [run, Option.some.injEq] at hrun
    subst hrun
    exact hg
  | cons e es ih =>
    simp only [run] at hrun
    cases hs : step T e g with
    | none => rw [hs] at hrun; exact absurd hrun (by simp)
    | some g2 =>
      rw [hs] at hrun
      exact ih g2 (hstep e g g2 hg hs) hrun

/-- The effect of one event, by cases: a frame, a key callback, or a character
callback that does not quit. -/
theorem step_cases (T : Trig) (e : Event) (g g1 : Game) (h : step T e g = some g1) :
    (e = Event.frame ∧ g1 = draw T g) ∨
    (∃ k a, e = Event.key k a ∧ keyboard T k a g = some g1) ∨
    (∃ c, e = Event.char c ∧ g1 = g) := by
  cases e with
  | frame =>
    simp only [step, Option.some.injEq] at h
    exact Or.inl ⟨rfl, h.symm⟩
  | key k a => exact Or.inr (Or.inl ⟨k, a, rfl, h⟩)
  | char c =>
    simp only [step, keyboardChar] at h
    split at h
    · exact absurd h (by simp)
    · simp only [Option.some.injEq] at h
      exact Or.inr (Or.inr ⟨c, rfl, h.symm⟩)

/-- The cannon angle after one event: a press of U adds 10 below 90, a press of
D subtracts 10 above 0, and nothing else writes it. -/
theorem step_canon_rotation (T : Trig) (e : Event) (g g1 : Game) (h : step T e g = some g1) :
    g1.canon_rotation =
      (if e = Event.key Key.GLFW_KEY_U Action.GLFW_PRESS ∧ g.canon_rotation < 90 then
        g.canon_rotation + 10
      else if e = Event.key Key.GLFW_KEY_D Action.GLFW_PRESS ∧ g.canon_rotation > 0 then
        g.canon_rotation - 10
      else g.canon_rotation) := by
  cases e with
  | frame =>
    simp only [step, Option.some.injEq] at h
    subst h
    rw [(draw_rest T g).1]
    simp
  | char c =>
    simp only [step, keyboardChar] at h
    split at h
    · exact absurd h (by simp)
    · simp only [Option.some.injEq] at h
      subst h
      simp
  | key k a =>
    simp only [step] at h
    cases a with
    | GLFW_RELEASE =>
      simp only [keyboard, Option.some.injEq] at h
      subst h
      simp
    | GLFW_REPEAT =>
      simp only [keyboard, Option.some.injEq] at h
      subst h
      simp
    | GLFW_PRESS =>
      cases k with
      | GLFW_KEY_ESCAPE => simp [keyboard] at h
      | GLFW_KEY_U =>
        simp only [keyboard, Option.some.injEq] at h
        subst h
        by_cases hc : g.canon_rotation < 90 <;> simp [hc]
      | GLFW_KEY_D =>
        simp only [keyboard, Option.some.injEq] at h
        subst h
        by_cases hc : 0 < g.canon_rotation <;> simp [hc]
      | GLFW_KEY_N =>
        simp only [keyboard, Option.some.injEq] at h
        subst h
        by_cases hc : 0 < g.amm_amount <;> simp [hc, initlz]
      | GLFW_KEY_C =>
        simp only [keyboard, Option.some.injEq] at h
        subst h
        simp
      | GLFW_KEY_P =>
        simp only [keyboard, Option.some.injEq] at h
        subst h
        simp
      | GLFW_KEY_X =>
        simp only [keyboard, Option.some.injEq] at h
        subst h
        simp
      | other =>
        simp only [keyboard, Option.some.injEq] at h
        subst h
        simp

/-- C27: in every state reached from the initial state (`canon_rotation = 90`)
by frames and callbacks, `canon_rotation` is one of 0, 10, 20, ..., 90; an
event changes it only as a press of U below 90, which adds 10, or as a press
of D above 0, which subtracts 10: no other callback and no frame writes it. -/
theorem canon_rotation_invariant (T : Trig) (es : List Event) (g : Game)
    (hrun : run T es (Game.initial T) = some g) :
    (∃ m : Nat, m ≤ 9 ∧ g.canon_rotation = 10 * (m : ℚ)) ∧
    (∀ e g1, step T e g = some g1 →
      g1.canon_rotation =
        (if e = Event.key Key.GLFW_KEY_U Action.GLFW_PRESS ∧ g.canon_rotation < 90 then
          g.canon_rotation + 10
        else if e = Event.key Key.GLFW_KEY_D Action.GLFW_PRESS ∧ g.canon_rotation > 0 then
          g.canon_rotation - 10
        else g.canon_rotation)) := by
  refine ⟨?_, fun e g1 h => step_canon_rotation T e g g1 h⟩
  refine run_invariant T (fun g => ∃ m : Nat, m ≤ 9 ∧ g.canon_rotation = 10 * (m : ℚ))
    ?_ es _ g ⟨9, le_refl 9, by norm_num [Game.initial]⟩ hrun
  rintro e g g1 ⟨m, hm, hc⟩ hs
  have h := step_canon_rotation T e g g1 hs
  by_cases hU : e = Event.key Key.GLFW_KEY_U Action.GLFW_PRESS ∧ g.canon_rotation < 90
  · rw [if_pos hU] at h
    have hlt : (m : ℚ) < 9 := by
      have := hU.2
      rw [hc] at this
      linarith
    have hm9 : m < 9 := by exact_mod_cast hlt
    refine ⟨m + 1, hm9, ?_⟩
    rw [h, hc]
    push_cast
    ring
  · rw [if_neg hU] at h
    by_cases hD : e = Event.key Key.GLFW_KEY_D Action.GLFW_PRESS ∧ g.canon_rotation > 0
    · rw [if_pos hD] at h
      have hgt : (0 : ℚ) < (m : ℚ) := by
        have := hD.2
        rw [hc] at this
        linarith
      have hm0 : 0 < m := by exact_mod_cast hgt
      refine ⟨m - 1, by omega, ?_⟩
      rw [h, hc]
      have : ((m - 1 : Nat) : ℚ) = (m : ℚ) - 1 := by
        rw [Nat.cast_sub hm0]
        simp
      rw [this]
      ring
    · rw [if_neg hD] at h
      exact ⟨m, hm, h.trans hc⟩


/-- The ammo after one event: it drops by 1 at a press of N with ammo left and
is unchanged by every other event. -/
theorem step_amm_amount (T : Trig) (e : Event) (g g1 : Game) (h : step T e g = some g1) :
    g1.amm_amount =
      g.amm_amount -
        (if e = Event.key Key.GLFW_KEY_N Action.GLFW_PRESS ∧ g.amm_amount > 0 then 1 else 0) := by
  cases e with
  | frame =>
    simp only [step, Option.some.injEq] at h
    subst h
    rw [(draw_rest T g).2]
    simp
  | char c =>
    simp only [step, keyboardChar] at h
    split at h
    · exact absurd h (by simp)
    · simp only [Option.some.injEq] at h
      subst h
      simp
  | key k a =>
    simp only [step] at h
    rcases keyboard_cases T k a g g1 h with h1 | ⟨rfl, rfl, -, h1⟩ | ⟨rfl, rfl, -, h1⟩ |
      ⟨rfl, rfl, hc, h1⟩
    · by_cases hN : Event.key k a = Event.key Key.GLFW_KEY_N Action.GLFW_PRESS ∧
          g.amm_amount > 0
      · obtain ⟨hk, hc⟩ := hN
        simp only [Event.key.injEq] at hk
        obtain ⟨rfl, rfl⟩ := hk
        simp only [keyboard, Option.some.injEq, gt_iff_lt] at h
        rw [if_pos hc] at h
        subst h
        simp [initlz, hc]
      · rw [if_neg hN, h1]
        simp
    · rw [h1]
      simp
    · rw [h1]
      simp
    · rw [h1]
      simp [initlz, hc]

/-- The ammo at the end of a run is the ammo at its start less the number of
shots, and it stays non-negative. -/
theorem run_amm_amount (T : Trig) (es : List Event) (g g1 : Game)
    (hrun : run T es g = some g1) :
    g1.amm_amount = g.amm_amount - (shots T es g : Int) ∧
    (0 ≤ g.amm_amount → 0 ≤ g1.amm_amount) := by
  induction es generalizing g with
  | nil =>
    simp only [run, Option.some.injEq] at hrun
    subst hrun
    simp [shots]
  | cons e es ih =>
    simp only [run] at hrun
    cases hs : step T e g with
    | none => rw [hs] at hrun; exact absurd hrun (by simp)
    | some g2 =>
      rw [hs] at hrun
      obtain ⟨h1, h2⟩ := ih g2 hrun
      have h3 := step_amm_amount T e g g2 hs
      simp only [shots, hs]
      by_cases hN : e = Event.key Key.GLFW_KEY_N Action.GLFW_PRESS ∧ g.amm_amount > 0
      · rw [if_pos hN] at h3 ⊢
        refine ⟨?_, fun _ => h2 ?_⟩
        · rw [h1, h3]
          push_cast
          ring
        · rw [h3]
          have := hN.2
          omega
      · rw [if_neg hN] at h3 ⊢
        refine ⟨?_, fun h0 => h2 ?_⟩
        · rw [h1, h3]
          push_cast
          ring
        · rw [h3]
          simpa using h0

/-- C25: in every state reached from the initial state by frames and
callbacks, `0 <= amm_amount <= 4`, and `amm_amount` is 4 less the number of
shots of the run, so at most four projectiles are fired; no event increases
`amm_amount`, and a press of N with `amm_amount = 0` changes no game
variable. -/
theorem amm_amount_invariant (T : Trig) (es : List Event) (g : Game)
    (hrun : run T es (Game.initial T) = some g) :
    0 ≤ g.amm_amount ∧ g.amm_amount ≤ 4 ∧
    g.amm_amount = 4 - (shots T es (Game.initial T) : Int) ∧
    shots T es (Game.initial T) ≤ 4 ∧
    (∀ e g1, step T e g = some g1 → g1.amm_amount ≤ g.amm_amount) ∧
    (g.amm_amount = 0 →
      keyboard T Key.GLFW_KEY_N Action.GLFW_PRESS g = some g) := by
  obtain ⟨h1, h2⟩ := run_amm_amount T es _ g hrun
  have h0 : (0 : Int) ≤ g.amm_amount := h2 (by show (0 : Int) ≤ 4; decide)
  have h4 : g.amm_amount = 4 - (shots T es (Game.initial T) : Int) := h1
  refine ⟨h0, by omega, h4, by omega, fun e g1 hs => ?_, fun hz => ?_⟩
  · rw [step_amm_amount T e g g1 hs]
    split <;> omega
  · simp [keyboard, hz]


/-- A frame keeps the bounds of the bounce count: between 0 and 5, and at most
4 while the projectile is active. -/
theorem draw_keeps_bounce (T : Trig) (g : Game)
    (h : 0 ≤ g.bounce ∧ g.bounce ≤ 5 ∧ (g.use ≠ 0 → g.bounce ≤ 4)) :
    0 ≤ (draw T g).bounce ∧ (draw T g).bounce ≤ 5 ∧
    ((draw T g).use ≠ 0 → (draw T g).bounce ≤ 4) := by
  obtain ⟨h0, h5, h4⟩ := h
  obtain ⟨-, -, -, -, -, hu, -, -, -, -, hb⟩ := coinsInit_fields g
  have hz5 : (0 : Int) ≤ 5 := by decide
  have hz4 : (0 : Int) ≤ 4 := by decide
  by_cases huse : g.use = 0
  · rw [draw_inactive T g huse, hb, hu]
    exact ⟨h0, h5, h4⟩
  · by_cases hflag : g.flag = 0
    · rw [draw_launch T g huse hflag]
      exact ⟨le_refl 0, hz5, fun _ => hz4⟩
    · have hb4 : g.bounce ≤ 4 := h4 huse
      have hib : (integrate (coinsInit g)).bounce = g.bounce := hb
      have hiu : (integrate (coinsInit g)).use = g.use := hu
      rw [draw_integration T g huse hflag]
      show 0 ≤ (bounceOrReflect T (integrate (coinsInit g))).bounce ∧
        (bounceOrReflect T (integrate (coinsInit g))).bounce ≤ 5 ∧
        ((bounceOrReflect T (integrate (coinsInit g))).use ≠ 0 →
          (bounceOrReflect T (integrate (coinsInit g))).bounce ≤ 4)
      by_cases hf : floorTest T (integrate (coinsInit g))
      · obtain ⟨-, h2, -, h4u, -⟩ := bounceOrReflect_floor T _ hf
        rw [h2, h4u, hib, hiu]
        have hlt : g.bounce < 5 := by omega
        rw [if_pos hlt]
        refine ⟨by omega, by omega, fun hne => ?_⟩
        by_cases hlt4 : g.bounce < 4
        · omega
        · rw [if_neg hlt4] at hne
          exact absurd rfl hne
      · obtain ⟨-, h2, -, h4u, -⟩ := bounceOrReflect_noFloor T _ hf
        rw [h2, h4u, hib, hiu]
        exact ⟨h0, h5, h4⟩

/-- C24: in every state reached from the initial state by frames and
callbacks, `0 <= bounce <= 5`, and `bounce <= 4` whenever the projectile is
active (`use != 0`); so no floor-crossing integration frame is entered with
an active projectile and `bounce = 5`. -/
theorem bounce_invariant (T : Trig) (es : List Event) (g : Game)
    (hrun : run T es (Game.initial T) = some g) :
    0 ≤ g.bounce ∧ g.bounce ≤ 5 ∧ (g.use ≠ 0 → g.bounce ≤ 4) ∧
    ¬ (g.use ≠ 0 ∧ g.flag ≠ 0 ∧
      g.position_y + 1 / 100 * (g.velocity_y + 5 - 10 * g.time_travelled) ≤
        -(3 / 10 + T.sinDeg g.canon_rotation) ∧
      g.bounce = 5) := by
  have hz5 : (0 : Int) ≤ 5 := by decide
  have hz4 : (0 : Int) ≤ 4 := by decide
  have hinv : 0 ≤ g.bounce ∧ g.bounce ≤ 5 ∧ (g.use ≠ 0 → g.bounce ≤ 4) := by
    refine run_invariant T
      (fun g => 0 ≤ g.bounce ∧ g.bounce ≤ 5 ∧ (g.use ≠ 0 → g.bounce ≤ 4)) ?_ es _ g
      ⟨le_refl 0, hz5, fun _ => hz4⟩ hrun
    intro e g g1 hg hs
    rcases step_cases T e g g1 hs with ⟨-, rfl⟩ | ⟨k, a, -, hk⟩ | ⟨c, -, rfl⟩
    · exact draw_keeps_bounce T g hg
    · rcases keyboard_cases T k a g g1 hk with h1 | ⟨-, -, -, h1⟩ | ⟨-, -, -, h1⟩ |
        ⟨-, -, -, h1⟩
      · rw [h1]; exact hg
      · rw [h1]; exact hg
      · rw [h1]; exact hg
      · rw [h1]
        exact ⟨le_refl 0, hz5, fun _ => hz4⟩
    · exact hg
  obtain ⟨h0, h5, h4⟩ := hinv
  refine ⟨h0, h5, h4, ?_⟩
  rintro ⟨hu, -, -, hb⟩
  have := h4 hu
  omega


/-- The first frame, a press of N and the launch frame, at angle 90, lead from
the initial state to the start of the vertical flight. -/
theorem run_to_flight :
    run axisTrig [Event.frame, Event.key Key.GLFW_KEY_N Action.GLFW_PRESS, Event.frame]
      (Game.initial axisTrig) = some (verticalFlight 0 0 1) := by
  have h0 : (Game.initial axisTrig).use = 0 := rfl
  have ha : (draw axisTrig (Game.initial axisTrig)).amm_amount = 4 := by
    rw [draw_inactive _ _ h0, (coinsInit_fields _).2.2.1]
    rfl
  have h2 : step axisTrig (Event.key Key.GLFW_KEY_N Action.GLFW_PRESS)
      (draw axisTrig (Game.initial axisTrig)) = some firedState := by
    simp only [step, keyboard, ha, firedState]
    norm_num
  have h3 : step axisTrig Event.frame firedState = some (verticalFlight 0 0 1) := by
    rw [step, draw_firedState]
  show (step axisTrig Event.frame (Game.initial axisTrig)).bind _ = _
  simp only [step, Option.some_bind, run]
  rw [show keyboard axisTrig Key.GLFW_KEY_N Action.GLFW_PRESS
    (draw axisTrig (Game.initial axisTrig)) = some firedState from h2]
  simp only [Option.some_bind, draw_firedState]

/-- Every event keeps the fact that, once the projectile is launched
(`flag != 0`), `trnsfrm` is the launch offset of the cannon angle of the most
recent launch frame. -/
theorem step_keeps_offset (T : Trig) (e : Event) (g g1 : Game) (last : Option ℚ)
    (hg : g.flag ≠ 0 → ∃ t0, last = some t0 ∧ g.trnsfrm =
      (-4 + float_1_2 * T.cosDeg t0, -4 + float_1_2 * T.sinDeg t0))
    (hs : step T e g = some g1) :
    g1.flag ≠ 0 → ∃ t0,
      (if e = Event.frame ∧ g.use ≠ 0 ∧ g.flag = 0 then some g.canon_rotation else last) =
        some t0 ∧
      g1.trnsfrm = (-4 + float_1_2 * T.cosDeg t0, -4 + float_1_2 * T.sinDeg t0) := by
  obtain ⟨hcr, ht, -, -, hf, -⟩ := coinsInit_fields g
  rcases step_cases T e g g1 hs with ⟨he, rfl⟩ | ⟨k, a, he, hk⟩ | ⟨c, he, hgg⟩
  · subst he
    by_cases huse : g.use = 0
    · have hif : ¬ (Event.frame = Event.frame ∧ g.use ≠ 0 ∧ g.flag = 0) :=
        fun h => h.2.1 huse
      rw [if_neg hif, draw_inactive T g huse, hf, ht]
      exact hg
    · by_cases hflag : g.flag = 0
      · rw [if_pos ⟨rfl, huse, hflag⟩, draw_launch T g huse hflag]
        intro _
        refine ⟨g.canon_rotation, rfl, ?_⟩
        show translateBullet T (initlz T (coinsInit g)) = _
        show (-4 + float_1_2 * T.cosDeg (coinsInit g).canon_rotation,
          -4 + float_1_2 * T.sinDeg (coinsInit g).canon_rotation) = _
        rw [hcr]
      · have hif : ¬ (Event.frame = Event.frame ∧ g.use ≠ 0 ∧ g.flag = 0) :=
          fun h => hflag h.2.2
        rw [if_neg hif, draw_integration T g huse hflag]
        obtain ⟨h1, -, -, -, h5⟩ := bounceOrReflect_rest T (integrate (coinsInit g))
        intro _
        obtain ⟨t0, hl, h⟩ := hg hflag
        refine ⟨t0, hl, ?_⟩
        show (bounceOrReflect T (integrate (coinsInit g))).trnsfrm = _
        rw [h5]
        show (coinsInit g).trnsfrm = _
        rw [ht, h]
  · subst he
    have hif : ¬ (Event.key k a = Event.frame ∧ g.use ≠ 0 ∧ g.flag = 0) :=
      fun h => Event.noConfusion h.1
    rw [if_neg hif]
    rcases keyboard_cases T k a g g1 hk with h1 | ⟨-, -, -, h1⟩ | ⟨-, -, -, h1⟩ |
      ⟨-, -, -, h1⟩
    · rw [h1]; exact hg
    · rw [h1]; exact hg
    · rw [h1]; exact hg
    · rw [h1]
      intro h
      exact absurd rfl h
  · subst he
    have hif : ¬ (Event.char c = Event.frame ∧ g.use ≠ 0 ∧ g.flag = 0) :=
      fun h => Event.noConfusion h.1
    rw [if_neg hif, hgg]
    exact hg

/-- At the end of every run, once the projectile is launched, `trnsfrm` is the
launch offset of the cannon angle of the most recent launch frame of the
run. -/
theorem launchAngle_offset (T : Trig) (es : List Event) (g g1 : Game) (last : Option ℚ)
    (hg : g.flag ≠ 0 → ∃ t0, last = some t0 ∧ g.trnsfrm =
      (-4 + float_1_2 * T.cosDeg t0, -4 + float_1_2 * T.sinDeg t0))
    (hrun : run T es g = some g1) :
    g1.flag ≠ 0 → ∃ t0, launchAngle T es g last = some t0 ∧
      g1.trnsfrm = (-4 + float_1_2 * T.cosDeg t0, -4 + float_1_2 * T.sinDeg t0) := by
  induction es generalizing g last with
  | nil =>
    simp only [run, Option.some.injEq] at hrun
    subst hrun
    exact hg
  | cons e es ih =>
    simp only [run] at hrun
    cases hs : step T e g with
    | none =>
      rw [hs] at hrun
      exact absurd hrun (by simp)
    | some g2 =>
      rw [hs, Option.some_bind] at hrun
      have h2 := step_keeps_offset T e g g2 last hg hs
      have h3 := ih g2 _ h2 hrun
      simp only [launchAngle, hs]
      exact h3

/-- The literal `1.2f` is above 1.2 and the largest launch offset `-4 + 1.2f`
is above -2.8 and below -2.79. -/
theorem float_1_2_bounds :
    6 / 5 < float_1_2 ∧ -(14 / 5) < -4 + float_1_2 ∧ -4 + float_1_2 < -(279 / 100) := by
  unfold float_1_2
  norm_num

/-- The cosine of `axisTrig` is at most 1. -/
theorem axisTrig_cos_le (x : ℚ) : axisTrig.cosDeg x ≤ 1 := by
  simp only [axisTrig]
  split <;> norm_num

/-- The first frame from the initial state, at the library values of the
angle 90. -/
theorem draw_initial : draw axisTrig (Game.initial axisTrig) = aimingState 90 := by
  have h0 : (Game.initial axisTrig).use = 0 := rfl
  rw [draw_inactive axisTrig _ h0]
  simp [coinsInit, Game.initial, axisTrig, coins.set_coins, aimingState]

/-- A press of D above the angle 0 turns the cannon down by 10. -/
theorem keyboard_D_aimingState (c : ℚ) (hc : 0 < c) :
    step axisTrig (Event.key Key.GLFW_KEY_D Action.GLFW_PRESS) (aimingState c) =
      some (aimingState (c - 10)) := by
  have h : (aimingState c).canon_rotation > 0 := hc
  simp only [step, keyboard, if_pos h]
  rfl

/-- A press of N at the angle 0 and the launch frame after it. -/
theorem launch_aimingState_zero :
    step axisTrig (Event.key Key.GLFW_KEY_N Action.GLFW_PRESS) (aimingState 0) =
      some { horizontalFlight with trnsfrm := (0, 0), flag := 0 } ∧
    draw axisTrig { horizontalFlight with trnsfrm := (0, 0), flag := 0 } =
      horizontalFlight := by
  constructor
  · have h : (aimingState 0).amm_amount > 0 := by decide
    simp only [step, keyboard, if_pos h]
    simp [initlz, aimingState, horizontalFlight, axisTrig]
  · rw [draw_launch axisTrig _ (by norm_num [horizontalFlight]) rfl,
      coinsInit_started _ (by simp [horizontalFlight])]
    simp [initlz, translateBullet, horizontalFlight, axisTrig]

/-- The run `horizontalShot` leads from the initial state to the start of the
flight at angle 0, and its launch frame is entered at the cannon angle 0. -/
theorem run_horizontalShot :
    run axisTrig horizontalShot (Game.initial axisTrig) = some horizontalFlight ∧
    launchAngle axisTrig horizontalShot (Game.initial axisTrig) none = some 0 := by
  have hf : step axisTrig Event.frame (Game.initial axisTrig) = some (aimingState 90) := by
    rw [step, draw_initial]
  have d9 := keyboard_D_aimingState 90 (by norm_num)
  have d8 := keyboard_D_aimingState 80 (by norm_num)
  have d7 := keyboard_D_aimingState 70 (by norm_num)
  have d6 := keyboard_D_aimingState 60 (by norm_num)
  have d5 := keyboard_D_aimingState 50 (by norm_num)
  have d4 := keyboard_D_aimingState 40 (by norm_num)
  have d3 := keyboard_D_aimingState 30 (by norm_num)
  have d2 := keyboard_D_aimingState 20 (by norm_num)
  have d1 := keyboard_D_aimingState 10 (by norm_num)
  norm_num at d9 d8 d7 d6 d5 d4 d3 d2 d1
  obtain ⟨hn, hl⟩ := launch_aimingState_zero
  have hl2 : step axisTrig Event.frame { horizontalFlight with trnsfrm := (0, 0), flag := 0 } =
      some horizontalFlight := by
    rw [step, hl]
  have hu : ({ horizontalFlight with trnsfrm := (0, 0), flag := 0 } : Game).use ≠ 0 := by
    norm_num [horizontalFlight]
  have hi : (Game.initial axisTrig).use = 0 := rfl
  have ha : ∀ c, (aimingState c).use = 0 := fun _ => rfl
  constructor
  · simp only [horizontalShot, List.replicate, List.cons_append, List.nil_append, run, hf, d9,
      d8, d7, d6, d5, d4, d3, d2, d1, hn, hl2, Option.some_bind]
  · simp only [horizontalShot, List.replicate, List.cons_append, List.nil_append, launchAngle,
      hf, d9, d8, d7, d6, d5, d4, d3, d2, d1, hn, hl2]
    simp [hi, ha, horizontalFlight]

/-- C23 as stated fails at the launch angle 0: the run `horizontalShot` ends on
entry to an integration frame of a projectile launched at the cannon angle 0,
the x component of its launch offset is `-4 + 1.2f`, which is
`-2.7999999523...`, above -2.8, and the frame draws the bullet at that offset
from the point that `dist` tests; the library cosine used is at most 1. -/
theorem drawn_versus_tested_counterexample :
    run axisTrig horizontalShot (Game.initial axisTrig) = some horizontalFlight ∧
    horizontalFlight.use ≠ 0 ∧ horizontalFlight.flag ≠ 0 ∧
    launchAngle axisTrig horizontalShot (Game.initial axisTrig) none = some 0 ∧
    horizontalFlight.trnsfrm =
      (-4 + float_1_2 * axisTrig.cosDeg 0, -4 + float_1_2 * axisTrig.sinDeg 0) ∧
    ¬ (-4 + float_1_2 * axisTrig.cosDeg 0 ≤ -(14 / 5)) ∧
    drawnBullet axisTrig horizontalFlight =
      some (-4 + float_1_2 + (draw axisTrig horizontalFlight).position_x,
        -4 + (draw axisTrig horizontalFlight).position_y) ∧
    (∀ x, axisTrig.cosDeg x ≤ 1) := by
  refine ⟨run_horizontalShot.1, by norm_num [horizontalFlight],
    by norm_num [horizontalFlight], run_horizontalShot.2, ?_, ?_, ?_, axisTrig_cos_le⟩
  · simp [horizontalFlight, axisTrig]
  · have h := float_1_2_bounds.2.1
    simp only [axisTrig, if_true, mul_one]
    exact not_le.2 h
  · have huse : horizontalFlight.use ≠ 0 := by norm_num [horizontalFlight]
    have hflag : horizontalFlight.flag ≠ 0 := by norm_num [horizontalFlight]
    obtain ⟨-, ht, -, -, hf, hu, -⟩ := coinsInit_fields horizontalFlight
    obtain ⟨-, -, -, -, h5⟩ :=
      bounceOrReflect_rest axisTrig (integrate (coinsInit horizontalFlight))
    have htr : (bounceOrReflect axisTrig (integrate (coinsInit horizontalFlight))).trnsfrm =
        (-4 + float_1_2, -4) := by
      rw [h5]
      exact ht
    unfold drawnBullet
    simp only [hf, hu, ne_eq, huse, hflag, not_false_eq_true, if_true, if_false, bulletModel,
      htr]
    rw [draw_integration axisTrig _ huse hflag]

/-- C23, with the `float` value of the literal `1.2f`: in every integration
frame of a run from the initial state, with a library cosine that is at most
1, `trnsfrm` is the launch offset `(-4 + 1.2f*cos(t0), -4 + 1.2f*sin(t0))` of
the launch angle `t0`, the cannon angle on entry to the most recent launch
frame of the run; the bullet is drawn at that offset plus
`(position_x, position_y)`, and `dist` tests the coins against
`(position_x, position_y)` alone: a coin is inactive after the frame exactly
when it was inactive before or is within 0.4 of that point in x or in y,
and the frame does not move the coins; the x component of the offset is at most `-4 + 1.2f`, which is below -2.79, so
the point drawn is never the point tested. -/
theorem drawn_versus_tested (T : Trig) (hcos : ∀ x, T.cosDeg x ≤ 1) (es : List Event)
    (g : Game) (hrun : run T es (Game.initial T) = some g) (huse : g.use ≠ 0)
    (hflag : g.flag ≠ 0) :
    ∃ t0,
      launchAngle T es (Game.initial T) none = some t0 ∧
      g.trnsfrm = (-4 + float_1_2 * T.cosDeg t0, -4 + float_1_2 * T.sinDeg t0) ∧
      drawnBullet T g =
        some (-4 + float_1_2 * T.cosDeg t0 + (draw T g).position_x,
          -4 + float_1_2 * T.sinDeg t0 + (draw T g).position_y) ∧
      (∀ i, ((draw T g).coin i).appear = 0 ↔
        ((coinsInit g).coin i).appear = 0 ∨
        |(draw T g).position_x - (((coinsInit g).coin i).pos_x : ℚ)| ≤ 2 / 5 ∨
        |(draw T g).position_y - (((coinsInit g).coin i).pos_y : ℚ)| ≤ 2 / 5) ∧
      (∀ i, ((draw T g).coin i).pos_x = ((coinsInit g).coin i).pos_x ∧
        ((draw T g).coin i).pos_y = ((coinsInit g).coin i).pos_y) ∧
      -4 + float_1_2 * T.cosDeg t0 ≤ -4 + float_1_2 ∧
      -4 + float_1_2 < -(279 / 100) ∧
      drawnBullet T g ≠ some ((draw T g).position_x, (draw T g).position_y) := by
  obtain ⟨t0, hl, ht0⟩ := launchAngle_offset T es _ g none (fun h => absurd rfl h) hrun hflag
  obtain ⟨-, ht, -, -, hf, hu, -⟩ := coinsInit_fields g
  obtain ⟨hx, hy, hc⟩ := draw_coin T g huse hflag
  obtain ⟨hb1, -, hb3⟩ := float_1_2_bounds
  have hd : drawnBullet T g =
      some (-4 + float_1_2 * T.cosDeg t0 + (draw T g).position_x,
        -4 + float_1_2 * T.sinDeg t0 + (draw T g).position_y) := by
    obtain ⟨-, -, -, -, h5⟩ := bounceOrReflect_rest T (integrate (coinsInit g))
    have htr : (bounceOrReflect T (integrate (coinsInit g))).trnsfrm = g.trnsfrm := by
      rw [h5]
      exact ht
    unfold drawnBullet
    simp only [hf, hu, ne_eq, huse, hflag, not_false_eq_true, if_true, if_false, bulletModel,
      htr, ht0]
    rw [draw_integration T g huse hflag]
  have hoff : -4 + float_1_2 * T.cosDeg t0 ≤ -4 + float_1_2 := by
    have h1 := hcos t0
    have h2 : (0 : ℚ) < float_1_2 := by linarith
    nlinarith
  refine ⟨t0, hl, ht0, hd, fun i => ?_, fun i => ?_, hoff, hb3, ?_⟩
  · rw [hc, ← hx, ← hy, dist_apply]
    by_cases hh : hit (draw T g).position_x (draw T g).position_y ((coinsInit g).coin i)
    · rw [if_pos hh]
      exact ⟨fun _ => Or.inr hh, fun _ => rfl⟩
    · rw [if_neg hh]
      exact ⟨fun h => Or.inl h, fun h => h.elim id (fun h2 => absurd h2 hh)⟩
  · rw [hc, dist_apply]
    split <;> exact ⟨rfl, rfl⟩
  · rw [hd]
    intro h
    simp only [Option.some.injEq, Prod.mk.injEq] at h
    linarith [h.1]

/-- C27, at a concrete run: after the first frame, a shot and the launch frame
the cannon angle is one of the ten values. -/
theorem canon_rotation_invariant_witness :
    ∃ m : Nat, m ≤ 9 ∧ (verticalFlight 0 0 1).canon_rotation = 10 * (m : ℚ) :=
  (canon_rotation_invariant axisTrig _ (verticalFlight 0 0 1) run_to_flight).1

/-- C25, at a concrete run: after the first frame, a shot and the launch frame
three projectiles are left and one shot has been counted. -/
theorem amm_amount_invariant_witness :
    (verticalFlight 0 0 1).amm_amount = 3 ∧
    shots axisTrig [Event.frame, Event.key Key.GLFW_KEY_N Action.GLFW_PRESS, Event.frame]
      (Game.initial axisTrig) = 1 := by
  obtain ⟨-, -, h, -, -, -⟩ :=
    amm_amount_invariant axisTrig _ (verticalFlight 0 0 1) run_to_flight
  have h3 : (verticalFlight 0 0 1).amm_amount = 3 := rfl
  refine ⟨h3, ?_⟩
  rw [h3] at h
  omega

/-- C24, at a concrete run: after the first frame, a shot and the launch frame
the projectile is active with a bounce count of at most 4. -/
theorem bounce_invariant_witness :
    0 ≤ (verticalFlight 0 0 1).bounce ∧ (verticalFlight 0 0 1).bounce ≤ 4 := by
  obtain ⟨h0, -, h4, -⟩ := bounce_invariant axisTrig _ (verticalFlight 0 0 1) run_to_flight
  exact ⟨h0, h4 (by norm_num [verticalFlight])⟩

/-- C23, at a concrete frame: the first integration frame after a launch at
angle 90, whose launch angle is 90; the bullet is not drawn at the point that
`dist` tests. -/
theorem drawn_versus_tested_witness :
    ∃ t0,
      launchAngle axisTrig
        [Event.frame, Event.key Key.GLFW_KEY_N Action.GLFW_PRESS, Event.frame]
        (Game.initial axisTrig) none = some t0 ∧
      (verticalFlight 0 0 1).trnsfrm =
        (-4 + float_1_2 * axisTrig.cosDeg t0, -4 + float_1_2 * axisTrig.sinDeg t0) ∧
      drawnBullet axisTrig (verticalFlight 0 0 1) ≠
        some ((draw axisTrig (verticalFlight 0 0 1)).position_x,
          (draw axisTrig (verticalFlight 0 0 1)).position_y) := by
  obtain ⟨t0, h1, h2, -, -, -, -, -, h⟩ := drawn_versus_tested axisTrig axisTrig_cos_le
    _ (verticalFlight 0 0 1) run_to_flight (by norm_num [verticalFlight])
    (by norm_num [verticalFlight])
  exact ⟨t0, h1, h2, h⟩

end Assignment1
